import Mathlib

/-!
# waifu-stats-interface: address registry and time-series transforms

A shallow embedding of `src/addresses.js` and of the pure data transforms of
`src/dataProvider.js` (the bodies of the `useMemo` callbacks), with the
properties of the specification stated over them.

Modelling conventions.
* JavaScript numbers are exact rationals extended with `NaN` and the two
  infinities (`JsNum`); rounding and the sign of zero are not modelled.
* A plain JavaScript object is an association list from property names to
  values.  Names inherited from `Object.prototype` are modelled where the
  source uses the `in` operator on an object literal (`getAddress`); record
  fields are data fields, whose names come from the fixed query selections.
* Timestamps are non-negative integers (unix seconds).  An object keyed by
  timestamps enumerates the keys below `4294967295` first, in ascending
  numeric order, and the others in insertion order (`objectKeyOrder`).
* The `id` of a subgraph entity is a string, the decimal string of a
  timestamp.  Where a transform sorts by `id`, the order is the order of these
  strings (`keyStringLE`), not of the numbers.
* The numeric reading of a string (`ToNumber` on strings) is a parameter
  `strToNum` of the transforms that divide fetched fields.
* In-place updates of records are modelled on values: no two slots of an
  array hold the same object.
-/

set_option autoImplicit false

namespace WaifuStats

/-! ## JavaScript values -/

/-- A JavaScript number: a rational, `NaN`, `Infinity` or `-Infinity`. -/
inductive JsNum where
  | nan
  | fin (q : ℚ)
  | posInf
  | negInf
  deriving DecidableEq

/-- A JavaScript value as it occurs in the fetched records. -/
inductive JsVal where
  | undefined
  | null
  | bool (b : Bool)
  | num (x : JsNum)
  | str (s : String)
  deriving DecidableEq

/-- Truthiness of a number: `NaN` and zero are falsy. -/
def JsNum.truthy : JsNum → Bool
  | .nan => false
  | .fin q => decide (q ≠ 0)
  | .posInf => true
  | .negInf => true

/-- Truthiness (`ToBoolean`): `undefined`, `null`, `false`, `0`, `NaN` and the
empty string are falsy. -/
def JsVal.truthy : JsVal → Bool
  | .undefined => false
  | .null => false
  | .bool b => b
  | .num x => x.truthy
  | .str s => decide (s ≠ "")

/-- A number literal as a value. -/
def JsVal.ofRat (q : ℚ) : JsVal := .num (.fin q)

/-! ## Objects as association lists -/

/-- A record: own properties in insertion order. -/
abbrev Record := List (String × JsVal)

/-- Own property lookup; `none` when the property is absent. -/
def lookupField : Record → String → Option JsVal
  | [], _ => none
  | (k, v) :: rest, key => if k = key then some v else lookupField rest key

/-- Reading `obj[key]`: an absent property reads as `undefined`. -/
def getField (r : Record) (key : String) : JsVal :=
  (lookupField r key).getD .undefined

/-- Writing `obj[key] = v`: overwrite in place, or append a new property. -/
def setField : Record → String → JsVal → Record
  | [], key, v => [(key, v)]
  | (k, w) :: rest, key, v =>
    if k = key then (k, v) :: rest else (k, w) :: setField rest key v

/-- The list `Object.keys(obj)`. -/
def objectKeys (r : Record) : List String := r.map Prod.fst

/-- Property names: array indices and all other names. -/
inductive PropName where
  | idx (i : Nat)
  | name (s : String)
  deriving DecidableEq

/-- The own enumerable properties of an array: element `i` lives under the
index name `i`. -/
def arrayPropsFrom {α : Type} : Nat → List α → List (PropName × α)
  | _, [] => []
  | i, x :: xs => (PropName.idx i, x) :: arrayPropsFrom (i + 1) xs

/-- The statement `delete obj.p` for an own property table. -/
def deleteProp {α : Type} (props : List (PropName × α)) (p : PropName) :
    List (PropName × α) :=
  props.filter (fun e => decide (e.1 ≠ p))

/-- Iterating an array (`for ... of`): the elements in index order.  Only
non-index names are deleted in the source, so no holes arise. -/
def arrayValues {α : Type} (props : List (PropName × α)) : List α :=
  props.map Prod.snd

/-! ## addresses.js -/

def BSC : Nat := 56
def ARBITRUM : Nat := 42161
def AVALANCHE : Nat := 43114

/-- The registry `addresses`: chain id, then key, then address. -/
def addresses : List (Nat × List (String × String)) :=
  [ (BSC,
      [ ("Vault", "0xc73A8DcAc88498FD4b4B1b2AaA37b0a2614Ff67B"),
        ("Router", "0xD46B23D042E976F8666F554E928e0Dc7478a8E1f"),
        ("USDG", "0x85E76cbf4893c1fbcB34dCF1239A91CE2A4CF5a7"),
        ("Stabilize", "0x82C4841728fBd5e08A77A95cA3192BcE1F645Ee9"),
        ("WardenSwapRouter", "0x7A1Decf6c24232060F4D76A33a317157549C2093"),
        ("OneInchRouter", "0x11111112542D85B3EF69AE05771c2dCCff4fAa26"),
        ("DodoexRouter", "0x8F8Dd7DB1bDA5eD3da8C9daf3bfa471c12d58486"),
        ("MetamaskRouter", "0x1a1ec25DC08e98e5E93F1104B5e5cdD298707d31") ]),
    (ARBITRUM,
      [ ("GMX", "0x67C8a2b3C511da2ED28159ab90aa2444870B4F51"),
        ("BTC", "0x2f2a2543b76a4166549f7aab2e75bef0aefc5b0f"),
        ("ETH", "0x82af49447d8a07e3bd95bd0d56f35241523fbab1"),
        ("ARB", "0x912CE59144191C1204E64559FE8253a0e49E6548"),
        ("USDT", "0xFd086bC7CD5C481DCC9C85ebE478A1C0b69FCbb9"),
        ("USDC", "0xFF970A61A04b1cA14834A43f5dE4533eBDDB5CC8"),
        ("RewardReader", "0x1801eF634401c136A33D720d82F6d90DfD46790b"),
        ("GLP", "0x92dB07d5dd0C67e074CAc7387F7eC552dED6D290"),
        ("GlpManager", "0x8B874c68d616041bE930d10aE40aC2F30ed03afE") ]),
    (AVALANCHE,
      [ ("GMX", "0x39E1Da9a034Fd5ADba01C7F6cFA8B5dE16dD908c"),
        ("AVAX", "0xb31f66aa3c1e785363f0875a1b74e27b85fd66c7"),
        ("ETH", "0x49d5c2bdffac6ce2bfdb6640f4f80f226bc10bab"),
        ("BTC", "0x50b7545627a5162f82a992c33b87adc75187b218"),
        ("RewardReader", "0x04Fc11Bd28763872d143637a7c768bD96E44c1b6"),
        ("GLP", "0xA63FbC76dDaf2F800B3699a4a46C5f260E04050C"),
        ("GlpManager", "0x3a417b2949d59B129e5C6c0A52114335C780B9AE") ]) ]

/-- The property names every plain object inherits from `Object.prototype`. -/
def objectPrototypeNames : List String :=
  [ "constructor", "__defineGetter__", "__defineSetter__", "hasOwnProperty",
    "__lookupGetter__", "__lookupSetter__", "isPrototypeOf",
    "propertyIsEnumerable", "toString", "valueOf", "__proto__",
    "toLocaleString" ]

/-- The operator `name in obj` on a plain object with the given own names. -/
def hasProperty (own : List PropName) (p : PropName) : Bool :=
  own.contains p ||
    (match p with
     | .idx _ => false
     | .name s => objectPrototypeNames.contains s)

/-- What a call can throw. -/
inductive Thrown where
  | error (message : String)
  | typeError
  deriving DecidableEq

/-- What `addresses[chainId][key]` evaluates to. -/
inductive Resolved where
  | address (a : String)
  | inherited (name : String)
  deriving DecidableEq

/-- The property name a primitive boolean converts to. -/
def boolPropName (b : Bool) : PropName :=
  .name (if b then "true" else "false")

/-- The function `getAddress(chainId, key)` for a numeric chain id.  The first
test is `!(chainId) in addresses`, which the language parses as
`(!chainId) in addresses`; `key in addresses[chainId]` on `undefined` is a
`TypeError`. -/
def getAddress (chainId : Nat) (key : String) : Except Thrown Resolved :=
  if hasProperty (addresses.map (fun e => PropName.idx e.1))
      (boolPropName (!(decide (chainId ≠ 0)))) then
    .error (.error ("Unknown chain " ++ toString chainId))
  else
    match addresses.lookup chainId with
    | none => .error .typeError
    | some table =>
      if !(hasProperty (table.map (fun e => PropName.name e.1)) (.name key)) then
        .error (.error ("Unknown address key " ++ key))
      else
        match table.lookup key with
        | some a => .ok (.address a)
        | none => .ok (.inherited key)

/-! ## fillNa -/

/-- One iteration of the inner loop of `fillNa` for `key`, on the current
element and `prevValues`. -/
def fillKey (st : Record × Record) (key : String) : Record × Record :=
  if !((getField st.1 key).truthy) then
    if (getField st.2 key).truthy then
      (setField st.1 key (getField st.2 key), st.2)
    else st
  else (st.1, setField st.2 key (getField st.1 key))

/-- The inner loop `for (const key of keys)` on one element. -/
def fillEl (keys : List String) (prevValues : Record) (el : Record) :
    Record × Record :=
  keys.foldl fillKey (el, prevValues)

/-- The outer loop `for (const el of arr)`, threading `prevValues`. -/
def fillLoop (keys : List String) : Record → List Record → List Record
  | _, [] => []
  | prevValues, el :: rest =>
    (fillEl keys prevValues el).1 :: fillLoop keys (fillEl keys prevValues el).2 rest

/-- The key list `fillNa` iterates: `Object.keys(arr[0])` after
`delete keys.timestamp` and `delete keys.id` on that array. -/
def fillKeys (first : Record) : List String :=
  arrayValues
    (deleteProp (deleteProp (arrayPropsFrom 0 (objectKeys first)) (.name "timestamp"))
      (.name "id"))

/-- The function `fillNa(arr)`. -/
def fillNa (arr : List Record) : List Record :=
  match arr with
  | [] => []
  | first :: _ => fillLoop (fillKeys first) [] arr

/-- Own entry lookup in an object with keys of type `κ`. -/
def assocLookup {κ α : Type} [DecidableEq κ] : List (κ × α) → κ → Option α
  | [], _ => none
  | (k, v) :: rest, key => if k = key then some v else assocLookup rest key

/-- The assignment `obj[key] = v`: overwrite in place, or append. -/
def assocSet {κ α : Type} [DecidableEq κ] : List (κ × α) → κ → α → List (κ × α)
  | [], key, v => [(key, v)]
  | (k, w) :: rest, key, v =>
    if k = key then (k, v) :: rest else (k, w) :: assocSet rest key v

/-! ## fillNa: the per-key reading of the loops -/

/-- The value read from the element after the inner loop over `keys`. -/
def filledLookup (keys : List String) (prev : JsVal) (el : Record) (k : String) : Option JsVal :=
  if k ∈ keys ∧ (getField el k).truthy = false ∧ prev.truthy = true then some prev
  else lookupField el k

/-- The value of `prevValues[k]` after the inner loop over `keys`. -/
def carried (keys : List String) (prev : JsVal) (el : Record) (k : String) : JsVal :=
  if k ∈ keys ∧ (getField el k).truthy = true then getField el k else prev

/-- The value of `prevValues[k]` after the outer loop has run over `xs`. -/
def carriedOver (keys : List String) (k : String) (prev : JsVal) (xs : List Record) : JsVal :=
  xs.foldl (fun p e => carried keys p e k) prev

/-! ## Concrete series used in the statements below -/

/-- The series `[{timestamp:0,x:5},{timestamp:1,x:null},{timestamp:2,x:7}]`. -/
def scenarioSeries : List Record :=
  [ [("timestamp", .ofRat 0), ("x", .ofRat 5)],
    [("timestamp", .ofRat 1), ("x", .null)],
    [("timestamp", .ofRat 2), ("x", .ofRat 7)] ]

/-- The series `[{a:1},{a:2,b:5},{a:3}]`: key `b` first occurs in the second record. -/
def lateKeySeries : List Record :=
  [ [("a", .ofRat 1)],
    [("a", .ofRat 2), ("b", .ofRat 5)],
    [("a", .ofRat 3)] ]

/-- The series `[{x:5},{x:0},{}]`: the value before the absent one is 0. -/
def zeroThenAbsentSeries : List Record :=
  [ [("x", .ofRat 5)], [("x", .ofRat 0)], [] ]

/-- The series `[{id:"d1",timestamp:86400,x:1},{id:"",timestamp:0,x:2}]`. -/
def falsyIdentitySeries : List Record :=
  [ [("id", .str "d1"), ("timestamp", .ofRat 86400), ("x", .ofRat 1)],
    [("id", .str ""), ("timestamp", .ofRat 0), ("x", .ofRat 2)] ]

/-! ## Number arithmetic -/

def JsNum.neg : JsNum → JsNum
  | .nan => .nan
  | .fin q => .fin (-q)
  | .posInf => .negInf
  | .negInf => .posInf

def JsNum.add : JsNum → JsNum → JsNum
  | .nan, _ => .nan
  | _, .nan => .nan
  | .fin a, .fin b => .fin (a + b)
  | .posInf, .negInf => .nan
  | .negInf, .posInf => .nan
  | .posInf, _ => .posInf
  | _, .posInf => .posInf
  | .negInf, _ => .negInf
  | _, .negInf => .negInf

def JsNum.sub (a b : JsNum) : JsNum := a.add b.neg

/-- The infinity with the sign of `positive`. -/
def JsNum.signedInf (positive : Bool) : JsNum := if positive then .posInf else .negInf

def JsNum.mul : JsNum → JsNum → JsNum
  | .nan, _ => .nan
  | _, .nan => .nan
  | .fin a, .fin b => .fin (a * b)
  | .fin a, .posInf => if a = 0 then .nan else .signedInf (decide (0 < a))
  | .fin a, .negInf => if a = 0 then .nan else .signedInf (decide (a < 0))
  | .posInf, .fin b => if b = 0 then .nan else .signedInf (decide (0 < b))
  | .negInf, .fin b => if b = 0 then .nan else .signedInf (decide (b < 0))
  | .posInf, .posInf => .posInf
  | .posInf, .negInf => .negInf
  | .negInf, .posInf => .negInf
  | .negInf, .negInf => .posInf

def JsNum.div : JsNum → JsNum → JsNum
  | .nan, _ => .nan
  | _, .nan => .nan
  | .fin a, .fin b =>
    if b = 0 then (if a = 0 then .nan else .signedInf (decide (0 < a))) else .fin (a / b)
  | .fin _, .posInf => .fin 0
  | .fin _, .negInf => .fin 0
  | .posInf, .fin b => .signedInf (decide (0 ≤ b))
  | .negInf, .fin b => .signedInf (decide (b < 0))
  | .posInf, .posInf => .nan
  | .posInf, .negInf => .nan
  | .negInf, .posInf => .nan
  | .negInf, .negInf => .nan

/-- The comparison `a > b`; false when either side is `NaN`. -/
def JsNum.gt : JsNum → JsNum → Bool
  | .nan, _ => false
  | _, .nan => false
  | .fin a, .fin b => decide (b < a)
  | .posInf, .posInf => false
  | .posInf, _ => true
  | .negInf, _ => false
  | .fin _, .posInf => false
  | .fin _, .negInf => true

/-- The conversion `ToNumber`; `strToNum` is the numeric reading of strings. -/
def toNumber (strToNum : String → JsNum) : JsVal → JsNum
  | .undefined => .nan
  | .null => .fin 0
  | .bool b => .fin (if b then 1 else 0)
  | .num x => x
  | .str s => strToNum s

/-- The literal `1e30`. -/
def E30 : JsNum := .fin 1000000000000000000000000000000

def MOVING_AVERAGE_DAYS : Nat := 7
def MOVING_AVERAGE_PERIOD : Nat := 86400 * MOVING_AVERAGE_DAYS

/-- The list `'margin liquidation swap mint burn'.split(' ')`. -/
def PROPS : List String := ["margin", "liquidation", "swap", "mint", "burn"]

/-- An object keyed by timestamps, its values numbers (`cumulativeByTs`).  The
test `ts in obj` is an own-entry lookup, no inherited name being numeric. -/
abbrev TsMap := List (Int × JsNum)

/-- The moving average step shared by the three aggregators:
`if (movingAverageTs in cumulativeByTs) movingAverageAll = (cumulative -
cumulativeByTs[movingAverageTs]) / MOVING_AVERAGE_DAYS`, else `undefined`. -/
def movingAverage (cumulativeByTs : TsMap) (timestamp : Nat) (cumulative : JsNum) :
    Option JsNum :=
  match assocLookup cumulativeByTs ((timestamp : Int) - (MOVING_AVERAGE_PERIOD : Int)) with
  | some c => some ((cumulative.sub c).div (.fin MOVING_AVERAGE_DAYS))
  | none => none

/-! ## Keys that are decimal strings -/

def decimalDigitsAux : Nat → Nat → List Nat → List Nat
  | 0, _, acc => acc
  | fuel + 1, n, acc =>
    if n < 10 then n :: acc else decimalDigitsAux fuel (n / 10) (n % 10 :: acc)

/-- The decimal string of `n` (the property name a number converts to), as
the list of its digits, most significant first. -/
def decimalDigits (n : Nat) : List Nat := decimalDigitsAux (n + 1) n []

/-- The order `s < t` of two digit strings: code unit by code unit, a proper
initial segment being smaller. -/
def digitsLT : List Nat → List Nat → Bool
  | [], [] => false
  | [], _ :: _ => true
  | _ :: _, [] => false
  | a :: as, b :: bs => decide (a < b) || (decide (a = b) && digitsLT as bs)

/-- The order of two keys that are compared as strings (by
`Array.prototype.sort()` without comparator, or by `sortBy` on the `id` strings
of subgraph entities): the order of their decimal strings. -/
def keyStringLE (a b : Nat) : Prop := digitsLT (decimalDigits b) (decimalDigits a) = false

instance : DecidableRel keyStringLE := fun a b =>
  inferInstanceAs (Decidable (digitsLT (decimalDigits b) (decimalDigits a) = false))

/-- The number a string of decimal digits reads as. -/
def digitsValue (ds : List Nat) : Nat := ds.foldl (fun acc d => acc * 10 + d) 0

/-! ## useVolumeData -/

/-- A raw `volumeStats` record: the number that `item[timestampProp]` reads as
(on Arbitrum the value is the string `id`) and the selected category fields. -/
structure VolumeStat where
  timestamp : Nat
  fields : Record

/-- The object built by the first `map` of `useVolumeData`. -/
structure VolumeItem where
  timestamp : Nat
  props : List (String × JsNum)
  all : JsNum

/-- An output point of `useVolumeData`: `{ movingAverageAll, cumulative, ...item }`. -/
structure VolumePoint where
  movingAverageAll : Option JsNum
  cumulative : JsNum
  item : VolumeItem

/-- The body of `PROPS.forEach` in the first `map`: `ret[prop] = item[prop] / 1e30;
all += ret[prop]`. -/
def volumePropStep (strToNum : String → JsNum) (item : VolumeStat)
    (acc : List (String × JsNum) × JsNum) (prop : String) : List (String × JsNum) × JsNum :=
  (acc.1 ++ [(prop, (toNumber strToNum (getField item.fields prop)).div E30)],
    acc.2.add ((toNumber strToNum (getField item.fields prop)).div E30))

/-- The first `map` of `useVolumeData` on one record. -/
def volumeItem (strToNum : String → JsNum) (item : VolumeStat) : VolumeItem :=
  { timestamp := item.timestamp
    props := (PROPS.foldl (volumePropStep strToNum item) ([], .fin 0)).1
    all := (PROPS.foldl (volumePropStep strToNum item) ([], .fin 0)).2 }

/-- The second `map` of `useVolumeData`, threading `cumulative`; the object
`cumulativeByTs` is read but never written. -/
def volumeLoop : JsNum → TsMap → List VolumeItem → List VolumePoint
  | _, _, [] => []
  | cumulative, cumulativeByTs, item :: rest =>
    { movingAverageAll := movingAverage cumulativeByTs item.timestamp (cumulative.add item.all)
      cumulative := cumulative.add item.all
      item := item } :: volumeLoop (cumulative.add item.all) cumulativeByTs rest

/-- The call `sortBy(graphData.volumeStats, timestampProp)`, a stable ascending
sort on `item[timestampProp]`: on Arbitrum `timestampProp` is `id`, whose values
are strings, so the order is that of the decimal strings; on the other chains it
is `timestamp`, whose values are numbers. -/
def sortVolumeStats (chainName : String) (volumeStats : List VolumeStat) : List VolumeStat :=
  if chainName = "arbitrum" then
    volumeStats.insertionSort (fun a b => keyStringLE a.timestamp b.timestamp)
  else volumeStats.insertionSort (fun a b => a.timestamp ≤ b.timestamp)

/-- The transform of `useVolumeData` on `graphData.volumeStats`. -/
def useVolumeData (strToNum : String → JsNum) (chainName : String)
    (volumeStats : List VolumeStat) : List VolumePoint :=
  volumeLoop (.fin 0) [] ((sortVolumeStats chainName volumeStats).map (volumeItem strToNum))

/-! ## useVolumeDataFromServer -/

/-- The payload `item.data` of a record of the `daily_volume` feed. -/
structure ServerRecord where
  timestamp : Nat
  action : String
  volume : JsVal

def startsWithChars : List Char → List Char → Bool
  | _, [] => true
  | [], _ :: _ => false
  | c :: cs, d :: ds => c == d && startsWithChars cs ds

def includesChars : List Char → List Char → Bool
  | [], sub => sub.isEmpty
  | c :: cs, sub => startsWithChars (c :: cs) sub || includesChars cs sub

/-- The method `s.includes(sub)`. -/
def includes (s sub : String) : Bool := includesChars s.toList sub.toList

/-- The classification of `item.data.action` into a category. -/
def actionType (action : String) : String :=
  if action = "Swap" then "swap"
  else if action = "SellUSDG" then "burn"
  else if action = "BuyUSDG" then "mint"
  else if includes action "LiquidatePosition" then "liquidation"
  else "margin"

/-- The object `tmp`: timestamp, then category, then volume. -/
abbrev ServerBuckets := List (Nat × List (String × JsNum))

/-- The reading `memo[timestamp][type] || 0`. -/
def orZero (v : Option JsNum) : JsNum :=
  match v with
  | some x => if x.truthy then x else .fin 0
  | none => .fin 0

/-- The callback of `data.reduce` in `useVolumeDataFromServer`. -/
def serverReduceStep (strToNum : String → JsNum) (fromTs toTs : Nat)
    (memo : ServerBuckets) (item : ServerRecord) : ServerBuckets :=
  if item.timestamp < fromTs ∨ item.timestamp > toTs then memo
  else
    assocSet memo item.timestamp
      (assocSet ((assocLookup memo item.timestamp).getD []) (actionType item.action)
        ((orZero (assocLookup ((assocLookup memo item.timestamp).getD [])
            (actionType item.action))).add
          ((toNumber strToNum item.volume).div E30)))

/-- The largest array index plus one: an integer name below it is an array
index, and objects enumerate array-index names first, in ascending order. -/
def ARRAY_INDEX_LIMIT : Nat := 4294967295

/-- The enumeration order of the own names of an object whose names, in
insertion order, are the decimal strings of `ks`. -/
def objectKeyOrder (ks : List Nat) : List Nat :=
  (ks.filter (fun k => decide (k < ARRAY_INDEX_LIMIT))).insertionSort (fun a b => a ≤ b) ++
    ks.filter (fun k => !(decide (k < ARRAY_INDEX_LIMIT)))

/-- The keys `Object.keys(tmp).sort()`. -/
def sortedServerKeys (tmp : ServerBuckets) : List Nat :=
  (objectKeyOrder (tmp.map Prod.fst)).insertionSort keyStringLE

/-- An output point of `useVolumeDataFromServer`; `timestamp` stands for the
key string it is the decimal reading of. -/
structure ServerPoint where
  timestamp : Nat
  all : JsNum
  cumulative : JsNum
  movingAverageAll : Option JsNum
  item : List (String × JsNum)

/-- The loop `PROPS.forEach(prop => { if (item[prop]) all += item[prop] })`. -/
def serverAll (item : List (String × JsNum)) : JsNum :=
  PROPS.foldl
    (fun all prop =>
      match assocLookup item prop with
      | some v => if v.truthy then all.add v else all
      | none => all)
    (.fin 0)

/-- The `map` over the sorted keys, threading `cumulative` and `cumulativeByTs`;
the moving average is computed before `cumulative += all`. -/
def serverLoop : JsNum → TsMap → List (Nat × List (String × JsNum)) → List ServerPoint
  | _, _, [] => []
  | cumulative, cumulativeByTs, (timestamp, item) :: rest =>
    { timestamp := timestamp
      all := serverAll item
      cumulative := cumulative.add (serverAll item)
      movingAverageAll := movingAverage cumulativeByTs timestamp cumulative
      item := item } ::
      serverLoop (cumulative.add (serverAll item))
        (assocSet cumulativeByTs (timestamp : Int) (cumulative.add (serverAll item))) rest

/-- The transform of `useVolumeDataFromServer` on the fetched `data`. -/
def useVolumeDataFromServer (strToNum : String → JsNum) (fromTs toTs : Nat)
    (data : List ServerRecord) : List ServerPoint :=
  serverLoop (.fin 0) []
    ((sortedServerKeys (data.foldl (serverReduceStep strToNum fromTs toTs) [])).map
      (fun k => (k, (assocLookup (data.foldl (serverReduceStep strToNum fromTs toTs) []) k).getD [])))

/-! ## useFeesData -/

/-- A raw `feeStats` record: the number that the string `id` reads as, the
optional `timestamp` (selected on Avalanche only) and the selected fee fields. -/
structure FeeStat where
  id : Nat
  timestamp : Option Nat
  fields : Record

/-- The object built by the first `map` of `useFeesData`; `props` holds the
categories that were assigned. -/
structure FeeItem where
  timestamp : Nat
  props : List (String × JsNum)
  all : JsNum

/-- The expression `item.timestamp || item.id`. -/
def feeTimestamp (item : FeeStat) : Nat :=
  match item.timestamp with
  | some t => if t ≠ 0 then t else item.id
  | none => item.id

/-- The loop `PROPS.forEach(prop => { if (item[prop]) ret[prop] = item[prop] / 1e30 })`. -/
def feeProps (strToNum : String → JsNum) (item : FeeStat) : List (String × JsNum) :=
  PROPS.foldl
    (fun ret prop =>
      if (getField item.fields prop).truthy then
        assocSet ret prop ((toNumber strToNum (getField item.fields prop)).div E30)
      else ret)
    []

/-- Reading `ret[prop]` inside an addition: an absent property is `undefined`,
which converts to `NaN`. -/
def readNum (ret : List (String × JsNum)) (prop : String) : JsNum :=
  (assocLookup ret prop).getD .nan

/-- The first `map` of `useFeesData` on one record. -/
def feeItem (strToNum : String → JsNum) (item : FeeStat) : FeeItem :=
  { timestamp := feeTimestamp item
    props := assocSet (feeProps strToNum item) "liquidation"
      (((toNumber strToNum (getField item.fields "marginAndLiquidation")).div E30).sub
        ((toNumber strToNum (getField item.fields "margin")).div E30))
    all := PROPS.foldl
      (fun memo prop =>
        memo.add (readNum (assocSet (feeProps strToNum item) "liquidation"
          (((toNumber strToNum (getField item.fields "marginAndLiquidation")).div E30).sub
            ((toNumber strToNum (getField item.fields "margin")).div E30))) prop))
      (.fin 0) }

/-- The call `sortBy(feesData.feeStats, 'id')`: a stable ascending sort on the
`id` strings. -/
def sortFeeStats (feeStats : List FeeStat) : List FeeStat :=
  feeStats.insertionSort (fun a b => keyStringLE a.id b.id)

/-- The distinct elements of a list, in order of first occurrence. -/
def distinctKeys : List Nat → List Nat
  | [] => []
  | k :: ks => k :: (distinctKeys ks).filter (fun j => decide (j ≠ k))

/-- The object of `groupBy(item => item.timestamp)`, enumerated as `map` does:
each distinct timestamp with the items that carry it. -/
def groupByTimestamp (chartData : List FeeItem) : List (Nat × List FeeItem) :=
  (objectKeyOrder (distinctKeys (chartData.map (fun it => it.timestamp)))).map
    (fun k => (k, chartData.filter (fun it => decide (it.timestamp = k))))

/-- The call `sumBy(values, 'all')`: every item has `all`, so the sum starts
from the first item. -/
def sumByAll (values : List FeeItem) : JsNum :=
  match values with
  | [] => .fin 0
  | v :: vs => vs.foldl (fun r x => r.add x.all) v.all

/-- The call `sumBy(values, prop)`: `undefined` entries are skipped, and the
result is `undefined` when every entry is. -/
def sumByProp (values : List FeeItem) (prop : String) : Option JsNum :=
  match values with
  | [] => some (.fin 0)
  | _ :: _ =>
    values.foldl
      (fun r x =>
        match assocLookup x.props prop, r with
        | none, r => r
        | some c, none => some c
        | some c, some y => some (y.add c))
      none

/-- A grouped point of `useFeesData`. -/
structure FeePoint where
  timestamp : Nat
  all : JsNum
  cumulative : JsNum
  movingAverageAll : Option JsNum
  props : List (String × Option JsNum)

/-- The `map` over the grouped buckets, threading `cumulative` and
`cumulativeByTs`. -/
def feesLoop : JsNum → TsMap → List (Nat × List FeeItem) → List FeePoint
  | _, _, [] => []
  | cumulative, cumulativeByTs, (timestamp, values) :: rest =>
    { timestamp := timestamp
      all := sumByAll values
      cumulative := cumulative.add (sumByAll values)
      movingAverageAll :=
        movingAverage cumulativeByTs timestamp (cumulative.add (sumByAll values))
      props := PROPS.map (fun prop => (prop, sumByProp values prop)) } ::
      feesLoop (cumulative.add (sumByAll values))
        (assocSet cumulativeByTs (timestamp : Int) (cumulative.add (sumByAll values))) rest

/-- The grouped buckets of `useFeesData`, before the final `filter`. -/
def feesBuckets (strToNum : String → JsNum) (feeStats : List FeeStat) : List FeePoint :=
  feesLoop (.fin 0) [] (groupByTimestamp ((sortFeeStats feeStats).map (feeItem strToNum)))

/-- The transform of `useFeesData` on `feesData.feeStats`. -/
def useFeesData (strToNum : String → JsNum) (fromTs : Nat) (feeStats : List FeeStat) :
    List FeePoint :=
  (feesBuckets strToNum feeStats).filter (fun p => decide (p.timestamp ≥ fromTs))

/-! ## useAumPerformanceData -/

/-- An element of `ret` in `useAumPerformanceData`; `none` is `null`. -/
structure AumRatio where
  timestamp : Nat
  apr : Option JsNum
  usage : Option JsNum

/-- An output point of `useAumPerformanceData`. -/
structure AumPoint where
  timestamp : Nat
  apr : Option JsNum
  usage : Option JsNum
  averageApr : JsNum
  averageUsage : JsNum

/-- The reading `glpItem?.aum` for `glpItem = glpData[i]`. -/
def aumOf (glpItem : Option Record) : JsVal :=
  match glpItem with
  | some g => getField g "aum"
  | none => .undefined

/-- The statement `if (x > 10000) x = null`. -/
def nullAbove (x : Option JsNum) : Option JsNum :=
  match x with
  | some v => if v.gt (.fin 10000) then none else some v
  | none => none

/-- The value of `apr` for one fee point. -/
def aprAt (strToNum : String → JsNum) (dailyCoef : JsNum) (feeAll : JsNum)
    (glpItem : Option Record) : Option JsNum :=
  nullAbove
    (if feeAll.truthy && (aumOf glpItem).truthy then
      some ((((feeAll.div (toNumber strToNum (aumOf glpItem))).mul (.fin 100)).mul (.fin 365)).mul
        dailyCoef)
    else none)

/-- The value of `usage` for one fee point; `volumeAll` is `volumeItem?.all`. -/
def usageAt (strToNum : String → JsNum) (dailyCoef : JsNum) (volumeAll : Option JsNum)
    (glpItem : Option Record) : Option JsNum :=
  nullAbove
    (match volumeAll with
     | some v =>
       if v.truthy && (aumOf glpItem).truthy then
         some (((v.div (toNumber strToNum (aumOf glpItem))).mul (.fin 100)).mul dailyCoef)
       else none
     | none => none)

/-- The `map` over `feesData` with the index `i`. -/
def aumRatiosFrom (strToNum : String → JsNum) (dailyCoef : JsNum) (glpData : List Record)
    (volumeData : List VolumePoint) : Nat → List FeePoint → List AumRatio
  | _, [] => []
  | i, feeItem :: rest =>
    { timestamp := feeItem.timestamp
      apr := aprAt strToNum dailyCoef feeItem.all glpData[i]?
      usage := usageAt strToNum dailyCoef (volumeData[i]?.map (fun v => v.item.all)) glpData[i]? } ::
      aumRatiosFrom strToNum dailyCoef glpData volumeData (i + 1) rest

/-- The operand `item.apr` of an addition: `null` converts to 0. -/
def nullToZero (x : Option JsNum) : JsNum := x.getD (.fin 0)

/-- The transform of `useAumPerformanceData`; `dailyCoef = 86400 / groupPeriod`. -/
def useAumPerformanceData (strToNum : String → JsNum) (groupPeriod : JsVal)
    (feesData : List FeePoint) (glpData : List Record) (volumeData : List VolumePoint) :
    List AumPoint :=
  let dailyCoef := (JsNum.fin 86400).div (toNumber strToNum groupPeriod)
  let ret := aumRatiosFrom strToNum dailyCoef glpData volumeData 0 feesData
  let averageApr :=
    (ret.foldl (fun memo item => (nullToZero item.apr).add memo) (.fin 0)).div (.fin ret.length)
  let averageUsage :=
    (ret.foldl (fun memo item => (nullToZero item.usage).add memo) (.fin 0)).div (.fin ret.length)
  ret.map (fun item =>
    { timestamp := item.timestamp
      apr := item.apr
      usage := item.usage
      averageApr := averageApr
      averageUsage := averageUsage })

/-! ## Order instances for the stable sorts -/

instance : IsTotal VolumeStat (fun a b => a.timestamp ≤ b.timestamp) :=
  ⟨fun a b => Nat.le_total a.timestamp b.timestamp⟩

instance : IsTrans VolumeStat (fun a b => a.timestamp ≤ b.timestamp) :=
  ⟨fun _ _ _ h1 h2 => Nat.le_trans h1 h2⟩

/-- The entries `cumulativeByTs` receives from a list of grouped points. -/
def cumulativeEntries (out : List FeePoint) : TsMap :=
  out.map (fun q => ((q.timestamp : Int), q.cumulative))

/-! ## Concrete inputs of the transforms used in the statements below -/

/-- A reading of strings as numbers for inputs that hold no strings. -/
def noStrings : String → JsNum := fun _ => .nan

/-- The fields of a record with all five categories, only `swap` and `margin`
non-zero. -/
def categoryFields (swap margin : ℚ) : Record :=
  [ ("margin", .ofRat margin), ("liquidation", .ofRat 0), ("swap", .ofRat swap),
    ("mint", .ofRat 0), ("burn", .ofRat 0) ]

/-- Two daily records a week apart, each with a swap volume of `7e30`. -/
def weekApart : List VolumeStat :=
  [ ⟨1630368000, categoryFields 7000000000000000000000000000000 0⟩,
    ⟨1630972800, categoryFields 7000000000000000000000000000000 0⟩ ]

/-- The series `[{timestamp:0,swap:100},{timestamp:86400,swap:50,margin:10}]`,
with the categories it does not mention missing. -/
def sparseScenario : List VolumeStat :=
  [ ⟨0, [("swap", .ofRat 100)]⟩,
    ⟨86400, [("swap", .ofRat 50), ("margin", .ofRat 10)]⟩ ]

/-- The same series with every category present, the values scaled by `1e30`. -/
def fullScenario : List VolumeStat :=
  [ ⟨0, categoryFields 100000000000000000000000000000000 0⟩,
    ⟨86400, categoryFields 50000000000000000000000000000000
      10000000000000000000000000000000⟩ ]

/-- Two `Swap` records of the server feed a week apart, each of volume `7e30`. -/
def serverWeek : List ServerRecord :=
  [ ⟨1630368000, "Swap", .ofRat 7000000000000000000000000000000⟩,
    ⟨1630972800, "Swap", .ofRat 7000000000000000000000000000000⟩ ]

/-- The fee fields of a record with a fee of `1e30` in each of margin, swap, mint
and burn, and `2e30` of margin and liquidation together. -/
def unitFeeFields : Record :=
  [ ("margin", .ofRat 1000000000000000000000000000000),
    ("marginAndLiquidation", .ofRat 2000000000000000000000000000000),
    ("swap", .ofRat 1000000000000000000000000000000),
    ("mint", .ofRat 1000000000000000000000000000000),
    ("burn", .ofRat 1000000000000000000000000000000) ]

/-- Two daily fee records a week apart. -/
def feeWeek : List FeeStat :=
  [ ⟨1630368000, none, unitFeeFields⟩, ⟨1630972800, none, unitFeeFields⟩ ]

/-- A fee point with `all = 10` at timestamp 0. -/
def feeTen : FeePoint :=
  { timestamp := 0, all := .fin 10, cumulative := .fin 10, movingAverageAll := none, props := [] }

/-- A pool point `{ aum: 1000 }`. -/
def aumThousand : Record := [("aum", .ofRat 1000)]

/-! ## Concrete inputs of useAumPerformanceData -/

/-- A fee series that starts a day after the pool series: one point at
timestamp 172800 with `all = 10`. -/
def lateFees : List FeePoint :=
  [ { timestamp := 172800, all := .fin 10, cumulative := .fin 10, movingAverageAll := none,
      props := [] } ]

/-- A pool series with points at 86400 (AUM 1000) and 172800 (AUM 2000). -/
def twoDayPool : List Record :=
  [ [("timestamp", .ofRat 86400), ("aum", .ofRat 1000)],
    [("timestamp", .ofRat 172800), ("aum", .ofRat 2000)] ]

/-- A pool point `{ aum: 0 }`. -/
def aumZero : Record := [("aum", .ofRat 0)]

/-! ## knownSwapSources and useSwapSources -/

/-- The evaluation of an object literal: a later entry with the same key
overwrites the earlier value. -/
def objectLiteral (entries : List (String × String)) : List (String × String) :=
  entries.foldl (fun o e => assocSet o e.1 e.2) []

/-- The entries of `knownSwapSources.arbitrum`, as written. -/
def knownSwapSourcesArbitrumEntries : List (String × String) :=
  [ ("0xabbc5f99639c9b6bcb58544ddf04efa6802f4064", "GMX Router"),
    ("0x09f77e8a13de9a35a7231028187e9fd5db8a2acb", "GMX OrderBook"),
    ("0x98a00666cfcb2ba5a405415c2bf6547c63bf5491", "GMX PositionManager A"),
    ("0x87a4088bd721f83b6c2e5102e2fa47022cb1c831", "GMX PositionManager B"),
    ("0x75e42e6f01baf1d6022bea862a28774a9f8a4a0c", "GMX PositionManager C"),
    ("0xb87a436b93ffe9d75c5cfa7bacfff96430b09868", "GMX PositionRouter C"),
    ("0x7257ac5d0a0aac04aa7ba2ac0a6eb742e332c3fb", "GMX OrderExecutor"),
    ("0x1a0ad27350cccd6f7f168e052100b4960efdb774", "GMX FastPriceFeed A"),
    ("0x11d62807dae812a0f1571243460bf94325f43bb7", "GMX PositionExecutor"),
    ("0x3b6067d4caa8a14c63fdbe6318f27a0bbc9f9237", "Dodo"),
    ("0x11111112542d85b3ef69ae05771c2dccff4faa26", "1inch"),
    ("0x6352a56caadc4f1e25cd6c75970fa768a3304e64", "OpenOcean"),
    ("0x4775af8fef4809fe10bf05867d2b038a4b5b2146", "Gelato"),
    ("0x5a9fd7c39a6c488e715437d7b1f3c823d5596ed1", "LiFiDiamond"),
    ("0x1d838be5d58cc131ae4a23359bc6ad2dddb8b75a", "Vovo"),
    ("0xc4bed5eeeccbe84780c44c5472e800d3a5053454", "Vovo"),
    ("0xe40beb54ba00838abe076f6448b27528dd45e4f0", "Vovo"),
    ("0x9ba57a1d3f6c61ff500f598f16b97007eb02e346", "Vovo"),
    ("0xfa82f1ba00b0697227e2ad6c668abb4c50ca0b1f", "JonesDAO"),
    ("0x226cb17a52709034e2ec6abe0d2f0a9ebcec1059", "WardenSwap"),
    ("0x1111111254fb6c44bac0bed2854e76f90643097d", "1inch"),
    ("0x6d7a3177f3500bea64914642a49d0b5c0a7dae6d", "deBridge"),
    ("0xc30141b657f4216252dc59af2e7cdb9d8792e1b0", "socket.tech"),
    ("0xdd94018f54e565dbfc939f7c44a16e163faab331", "Odos Router") ]

/-- The entries of `knownSwapSources.avalanche`, as written. -/
def knownSwapSourcesAvalancheEntries : List (String × String) :=
  [ ("0xA76fB4882bcb66fBe68948B71eBe7f3B80e329Ea", "GMX OrderBook"),
    ("0x6A154CE91003Cf4b8787280fd7C96D9BFb3f88C3", "GMX Router"),
    ("0x7d9d108445f7e59a67da7c16a2ceb08c85b76a35", "GMX FastPriceFeed"),
    ("0xD5326A526f78667375D9D5dA7C739e261Df52fe6", "GMX PositionManager"),
    ("0xD5326A526f78667375D9D5dA7C739e261Df52fe6", "GMX PositionManager C"),
    ("0xFe42F6CccD52542DFbB785dFa014Cb8ce70Bcf57", "GMX PositionRouter C"),
    ("0xc4729e56b831d74bbc18797e0e17a295fa77488c", "Yak"),
    ("0x409e377a7affb1fd3369cfc24880ad58895d1dd9", "Dodo"),
    ("0x6352a56caadc4f1e25cd6c75970fa768a3304e64", "OpenOcean"),
    ("0x7c5c4af1618220c090a6863175de47afb20fa9df", "Gelato"),
    ("0x1111111254fb6c44bac0bed2854e76f90643097d", "1inch"),
    ("0xdef171fe48cf0115b1d80b88dc8eab59176fee57", "ParaSwap"),
    ("0x2ecf2a2e74b19aab2a62312167aff4b78e93b6c5", "ParaSwap"),
    ("0xdef1c0ded9bec7f1a1670819833240f027b25eff", "0x"),
    ("0xe547cadbe081749e5b3dc53cb792dfaea2d02fd2", "GMX PositionExecutor") ]

/-- The object `knownSwapSources`, read at `chainName`; `none` is `undefined`. -/
def knownSwapSources (chainName : String) : Option (List (String × String)) :=
  if chainName = "arbitrum" then some (objectLiteral knownSwapSourcesArbitrumEntries)
  else if chainName = "avalanche" then some (objectLiteral knownSwapSourcesAvalancheEntries)
  else none

/-- A record of `hourlyVolumeBySources`. -/
structure SourceRecord where
  timestamp : Nat
  source : String
  swap : JsVal

/-- The expression `mapping[item.source] || item.source`. -/
def resolveSource (mapping : List (String × String)) (source : String) : String :=
  match assocLookup mapping source with
  | some name => if name ≠ "" then name else source
  | none => source

/-- The value `item.swap / 1e30`. -/
def swapVolume (strToNum : String → JsNum) (item : SourceRecord) : JsNum :=
  (toNumber strToNum item.swap).div E30

/-- The callback of `a.reduce` that builds `totalVolumeBySource`:
`if (!acc[source]) acc[source] = 0; acc[source] += item.swap / 1e30`. -/
def totalVolumeStep (strToNum : String → JsNum) (mapping : List (String × String))
    (acc : List (String × JsNum)) (item : SourceRecord) : List (String × JsNum) :=
  assocSet acc (resolveSource mapping item.source)
    ((orZero (assocLookup acc (resolveSource mapping item.source))).add (swapVolume strToNum item))

/-- The object `totalVolumeBySource`, computed from shard `a`. -/
def totalVolumeBySource (strToNum : String → JsNum) (mapping : List (String × String))
    (a : List SourceRecord) : List (String × JsNum) :=
  a.foldl (totalVolumeStep strToNum mapping) []

/-- The order the comparator `(a, b) => b[1] - a[1]` puts two entries in: `x`
stays before `y` unless `y[1] - x[1]` is positive. -/
def volumeDescLE (x y : String × JsNum) : Prop := (y.2.sub x.2).gt (.fin 0) = false

instance : DecidableRel volumeDescLE := fun x y =>
  inferInstanceAs (Decidable ((y.2.sub x.2).gt (.fin 0) = false))

/-- The names `Object.entries(totalVolumeBySource).sort((a, b) => b[1] - a[1])
.map(item => item[0]).slice(0, topCount)`; the sort is stable. -/
def topVolumeSources (strToNum : String → JsNum) (mapping : List (String × String))
    (topCount : Nat) (a : List SourceRecord) : List String :=
  (((totalVolumeBySource strToNum mapping a).insertionSort volumeDescLE).map Prod.fst).take
    topCount

/-- The comparison `v != 0`. -/
def looseNeZero (strToNum : String → JsNum) (v : JsVal) : Bool :=
  match v with
  | .undefined => true
  | .null => true
  | v => decide (toNumber strToNum v ≠ .fin 0)

/-- The name a record is counted under: its resolved name when that is a top
source, `Other` otherwise. -/
def classifySource (top : List String) (mapping : List (String × String)) (source : String) :
    String :=
  if top.contains (resolveSource mapping source) then resolveSource mapping source else "Other"

/-- The callback of `values.reduce` for one day bucket, with the local `all`. -/
def sourceBucketStep (strToNum : String → JsNum) (top : List String)
    (mapping : List (String × String)) (st : List (String × JsNum) × JsNum)
    (item : SourceRecord) : List (String × JsNum) × JsNum :=
  if looseNeZero strToNum item.swap then
    (assocSet st.1 (classifySource top mapping item.source)
        ((orZero (assocLookup st.1 (classifySource top mapping item.source))).add
          (swapVolume strToNum item)),
      st.2.add (swapVolume strToNum item))
  else st

/-- The key `parseInt(item.timestamp / 86400) * 86400`. -/
def dayBucket (timestamp : Nat) : Nat := timestamp / 86400 * 86400

/-- An output point of `useSwapSources`: `{ timestamp, ...sources, all }`; the
per-source values are kept apart from `timestamp` and `all`, no source being
named `timestamp` or `all`. -/
structure SourcePoint where
  timestamp : Nat
  sources : List (String × JsNum)
  all : JsNum

/-- The callback of `.map((values, timestamp) => ...)` for one day bucket. -/
def sourcePoint (strToNum : String → JsNum) (top : List String)
    (mapping : List (String × String)) (timestamp : Nat) (values : List SourceRecord) :
    SourcePoint :=
  { timestamp := timestamp
    sources := (values.foldl (sourceBucketStep strToNum top mapping) ([], .fin 0)).1
    all := (values.foldl (sourceBucketStep strToNum top mapping) ([], .fin 0)).2 }

instance : IsTotal SourcePoint (fun x y => x.timestamp ≤ y.timestamp) :=
  ⟨fun x y => Nat.le_total x.timestamp y.timestamp⟩

instance : IsTrans SourcePoint (fun x y => x.timestamp ≤ y.timestamp) :=
  ⟨fun _ _ _ h1 h2 => Nat.le_trans h1 h2⟩

/-- The transform of `useSwapSources` for a given source mapping and size of the
top set, on the five shards of `graphData`. -/
def swapSourcesTransform (strToNum : String → JsNum) (mapping : List (String × String))
    (topCount : Nat) (a b c d e : List SourceRecord) : List SourcePoint :=
  ((objectKeyOrder (distinctKeys ((a ++ b ++ c ++ d ++ e).map (fun r => dayBucket r.timestamp)))).map
    (fun k => sourcePoint strToNum (topVolumeSources strToNum mapping topCount a) mapping k
      ((a ++ b ++ c ++ d ++ e).filter (fun r => decide (dayBucket r.timestamp = k))))).insertionSort
    (fun x y => x.timestamp ≤ y.timestamp)

/-- The transform of `useSwapSources`: the mapping is `knownSwapSources[chainName]`
and the top set has 30 names; reading a source in an `undefined` mapping is a
`TypeError`. -/
def useSwapSources (strToNum : String → JsNum) (chainName : String)
    (a b c d e : List SourceRecord) : Except Thrown (List SourcePoint) :=
  match knownSwapSources chainName with
  | some mapping => .ok (swapSourcesTransform strToNum mapping 30 a b c d e)
  | none => if (a ++ b ++ c ++ d ++ e).isEmpty then .ok [] else .error .typeError

/-! ## Concrete inputs of useSwapSources -/

/-- The mapping `{A:'known1'}`. -/
def scenarioMapping : List (String × String) := objectLiteral [("A", "known1")]

/-- The records `[{source:'A',swap:5},{source:'B',swap:1}]` of one day, the
volumes scaled by `1e30`. -/
def scenarioSources : List SourceRecord :=
  [ ⟨1630368000, "A", .ofRat 5000000000000000000000000000000⟩,
    ⟨1630368000, "B", .ofRat 1000000000000000000000000000000⟩ ]

/-- The rational value of `item.swap` when it converts to a finite number. -/
def swapRat (strToNum : String → JsNum) (item : SourceRecord) : ℚ :=
  match toNumber strToNum item.swap with
  | .fin q => q
  | _ => 0

/-- The sum of `swap / 1e30` over a list of records with finite `swap`. -/
def sourceSum (strToNum : String → JsNum) (items : List SourceRecord) : ℚ :=
  (items.map (fun r => swapRat strToNum r / 1000000000000000000000000000000)).sum

/-- The value an accumulating callback leaves under the name `name`: each
record with `key r = name` that passes `cond` adds its volume to the entry,
which starts from 0 when absent or falsy. -/
def nameFold (strToNum : String → JsNum) (key : SourceRecord → String)
    (cond : SourceRecord → Bool) (name : String) (acc : Option JsNum)
    (items : List SourceRecord) : Option JsNum :=
  items.foldl
    (fun acc r =>
      if key r = name ∧ cond r = true then some ((orZero acc).add (swapVolume strToNum r))
      else acc)
    acc

/-- A string of the form `0x` followed by 40 lowercase hexadecimal digits. -/
def isLowerHexAddress (s : String) : Bool :=
  match s.toList with
  | '0' :: 'x' :: digits =>
    decide (digits.length = 40) &&
      digits.all (fun ch => "0123456789abcdef".toList.contains ch)
  | _ => false

/-- The method `s.toLowerCase()` on ASCII strings. -/
def toLowerCase (s : String) : String := String.mk (s.toList.map Char.toLower)

/-- The rational value of the volume of an entry of `totalVolumeBySource`. -/
def entryRat (entry : String × JsNum) : ℚ :=
  match entry.2 with
  | .fin q => q
  | _ => 0

/-- Shard `a` of the example: one record of source `A` with volume 5. -/
def firstShard : List SourceRecord :=
  [ ⟨1630368000, "A", .ofRat 5000000000000000000000000000000⟩ ]

/-- Shard `b` of the example: one record of source `B` with volume 100. -/
def secondShard : List SourceRecord :=
  [ ⟨1630368000, "B", .ofRat 100000000000000000000000000000000⟩ ]

/-! ## useGlpPerformanceData -/

/-- A point of a spot-price series of `useCoingeckoPrices`. -/
structure PricePoint where
  timestamp : Nat
  value : JsVal

/-- A pool point of `useGlpData`, with the fields `useGlpPerformanceData` reads. -/
structure GlpPoint where
  timestamp : Nat
  glpPrice : JsNum
  glpSupply : JsNum
  cumulativeDistributedUsdPerGlp : JsNum
  cumulativeDistributedEthPerGlp : JsNum

/-- The object `glpDataById`: `glpData.reduce((memo, item) => { memo[item.timestamp]
= item; return memo }, {})`. -/
def glpDataById (glpData : List GlpPoint) : List (Nat × GlpPoint) :=
  glpData.foldl (fun memo item => assocSet memo item.timestamp item) []

/-- The object `feesDataById`: the same `reduce` without an initial value, so
the first fee point is the accumulator and the callback runs from the second
point on; the numeric names of the result are the timestamps of the points
after the first. -/
def feesDataById (feesData : List FeePoint) : List (Nat × FeePoint) :=
  match feesData with
  | [] => []
  | _ :: rest => rest.foldl (fun memo item => assocSet memo item.timestamp item) []

/-- The weight `BTC_WEIGHT` (and `ETH_WEIGHT`) for a chain. -/
def btcWeight (chainName : String) : ℚ := if chainName = "avalanche" then 166 / 1000 else 25 / 100

/-- The weight `AVAX_WEIGHT` for a chain. -/
def avaxWeight (chainName : String) : ℚ := if chainName = "avalanche" then 166 / 1000 else 0

/-- The weight `STABLE_WEIGHT = 1 - BTC_WEIGHT - ETH_WEIGHT - AVAX_WEIGHT`. -/
def stableWeight (chainName : String) : JsNum :=
  (((JsNum.fin 1).sub (.fin (btcWeight chainName))).sub (.fin (btcWeight chainName))).sub
    (.fin (avaxWeight chainName))

/-- The expression `a || b`. -/
def jsOr (a b : JsVal) : JsVal := if a.truthy then a else b

/-- The expression `prices[i]?.value`. -/
def valueAt (prices : List PricePoint) (i : Nat) : JsVal :=
  match prices[i]? with
  | some p => p.value
  | none => .undefined

/-- The constant `GLP_START_PRICE = glpDataById[btcPrices[0].timestamp]?.glpPrice
|| 1.19`. -/
def glpStartPrice (glpData : List GlpPoint) (first : PricePoint) : JsNum :=
  match assocLookup (glpDataById glpData) first.timestamp with
  | some g => if g.glpPrice.truthy then g.glpPrice else .fin (119 / 100)
  | none => .fin (119 / 100)

/-- The values fixed before the loop of `useGlpPerformanceData`. -/
structure PerfConfig where
  strToNum : String → JsNum
  BTC_WEIGHT : JsNum
  ETH_WEIGHT : JsNum
  AVAX_WEIGHT : JsNum
  STABLE_WEIGHT : JsNum
  ethPrices : List PricePoint
  avaxPrices : List PricePoint
  glpById : List (Nat × GlpPoint)
  feesById : List (Nat × FeePoint)

/-- The variables the loop of `useGlpPerformanceData` updates. -/
structure LoopState where
  indexBtcCount : JsNum
  indexEthCount : JsNum
  indexAvaxCount : JsNum
  indexStableCount : JsNum
  cumulativeFeesPerGlp : JsNum
  lastGlpItem : Option GlpPoint
  lastFeesItem : Option FeePoint
  prevEthPrice : JsVal
  prevAvaxPrice : JsVal

/-- The values of one iteration of the loop: its local constants and the
variables after the iteration. -/
structure PerfStep where
  timestamp : Nat
  timestampGroup : Nat
  btcPrice : JsVal
  ethPrice : JsVal
  avaxPrice : JsVal
  glpItem : Option GlpPoint
  feesItem : Option FeePoint
  syntheticPrice : JsNum
  indexBtcCount : JsNum
  indexEthCount : JsNum
  indexAvaxCount : JsNum
  indexStableCount : JsNum
  cumulativeFeesPerGlp : JsNum
  glpPrice : Option JsNum
  glpPlusFees : Option JsNum
  glpPlusDistributedUsd : Option JsNum
  glpPlusDistributedEth : Option JsNum

/-- Truthiness of a value that may be `undefined`. -/
def optTruthy (x : Option JsNum) : Bool :=
  match x with
  | some v => v.truthy
  | none => false

/-- The expression `byId[timestampGroup] || last` on objects. -/
def lookupOrLast {α : Type} (byId : List (Nat × α)) (timestampGroup : Nat) (last : Option α) :
    Option α :=
  match assocLookup byId timestampGroup with
  | some item => some item
  | none => last

/-- The constant `GLP_REWARDS_SHARE` of an iteration. -/
def glpRewardsShare (timestampGroup : Nat) : JsNum :=
  if timestampGroup ≥ 1635714000 then .fin (7 / 10) else .fin (5 / 10)

/-- The variable `cumulativeFeesPerGlp` after the block `if (dailyFees &&
glpSupply) { ... }`. -/
def accrueFees (cumulativeFeesPerGlp : JsNum) (dailyFees glpSupply : Option JsNum)
    (timestampGroup : Nat) : JsNum :=
  match dailyFees, glpSupply with
  | some fees, some supply =>
    if fees.truthy && supply.truthy then
      cumulativeFeesPerGlp.add ((fees.div supply).mul (glpRewardsShare timestampGroup))
    else cumulativeFeesPerGlp
  | _, _ => cumulativeFeesPerGlp

/-- The value `glpPlusFees` of an iteration. -/
def glpPlusFeesOf (glpPrice glpSupply : Option JsNum) (cumulativeFeesPerGlp : JsNum) :
    Option JsNum :=
  match glpPrice with
  | some price =>
    if price.truthy && optTruthy glpSupply && cumulativeFeesPerGlp.truthy then
      some (price.add cumulativeFeesPerGlp)
    else some price
  | none => none

/-- The synthetic price of an iteration: `indexBtcCount * btcPrice + indexEthCount
* ethPrice + indexAvaxCount * avaxPrice + indexStableCount`. -/
def syntheticPriceOf (st : LoopState) (btcPrice ethPrice avaxPrice : JsNum) : JsNum :=
  (((st.indexBtcCount.mul btcPrice).add (st.indexEthCount.mul ethPrice)).add
    (st.indexAvaxCount.mul avaxPrice)).add st.indexStableCount

/-- The body of the loop for the index `i` and the point `btcPrices[i]`.  The
benchmark prices `lpBtcPrice`, `lpEthPrice`, `lpAvaxPrice` and the formatted
performance ratios do not feed back into the loop and are left out. -/
def stepOf (cfg : PerfConfig) (st : LoopState) (i : Nat) (btc : PricePoint) : PerfStep :=
  let btcPrice := btc.value
  let ethPrice := jsOr (valueAt cfg.ethPrices i) st.prevEthPrice
  let avaxPrice := jsOr (valueAt cfg.avaxPrices i) st.prevAvaxPrice
  let timestampGroup := btc.timestamp / 86400 * 86400
  let glpItem := lookupOrLast cfg.glpById timestampGroup st.lastGlpItem
  let glpPrice := glpItem.map (fun g => g.glpPrice)
  let glpSupply := glpItem.map (fun g => g.glpSupply)
  let feesItem := lookupOrLast cfg.feesById timestampGroup st.lastFeesItem
  let dailyFees := feesItem.map (fun f => f.all)
  let syntheticPrice := syntheticPriceOf st (toNumber cfg.strToNum btcPrice)
    (toNumber cfg.strToNum ethPrice) (toNumber cfg.strToNum avaxPrice)
  let cumulativeFeesPerGlp := accrueFees st.cumulativeFeesPerGlp dailyFees glpSupply timestampGroup
  { timestamp := btc.timestamp
    timestampGroup := timestampGroup
    btcPrice := btcPrice
    ethPrice := ethPrice
    avaxPrice := avaxPrice
    glpItem := glpItem
    feesItem := feesItem
    syntheticPrice := syntheticPrice
    indexBtcCount := (syntheticPrice.mul cfg.BTC_WEIGHT).div (toNumber cfg.strToNum btcPrice)
    indexEthCount := (syntheticPrice.mul cfg.ETH_WEIGHT).div (toNumber cfg.strToNum ethPrice)
    indexAvaxCount := (syntheticPrice.mul cfg.AVAX_WEIGHT).div (toNumber cfg.strToNum avaxPrice)
    indexStableCount := syntheticPrice.mul cfg.STABLE_WEIGHT
    cumulativeFeesPerGlp := cumulativeFeesPerGlp
    glpPrice := glpPrice
    glpPlusFees := glpPlusFeesOf glpPrice glpSupply cumulativeFeesPerGlp
    glpPlusDistributedUsd :=
      match glpItem with
      | some g =>
        if g.cumulativeDistributedUsdPerGlp.truthy then
          some (g.glpPrice.add g.cumulativeDistributedUsdPerGlp)
        else none
      | none => none
    glpPlusDistributedEth :=
      match glpItem with
      | some g =>
        if g.cumulativeDistributedEthPerGlp.truthy then
          some (g.glpPrice.add
            (g.cumulativeDistributedEthPerGlp.mul (toNumber cfg.strToNum ethPrice)))
        else none
      | none => none }

/-- The variables after an iteration. -/
def stateOf (s : PerfStep) : LoopState :=
  { indexBtcCount := s.indexBtcCount
    indexEthCount := s.indexEthCount
    indexAvaxCount := s.indexAvaxCount
    indexStableCount := s.indexStableCount
    cumulativeFeesPerGlp := s.cumulativeFeesPerGlp
    lastGlpItem := s.glpItem
    lastFeesItem := s.feesItem
    prevEthPrice := s.ethPrice
    prevAvaxPrice := s.avaxPrice }

/-- The loop `for (let i = 0; i < btcPrices.length; i++)`, from index `i`. -/
def perfLoop (cfg : PerfConfig) : LoopState → Nat → List PricePoint → List PerfStep
  | _, _, [] => []
  | st, i, btc :: rest =>
    stepOf cfg st i btc :: perfLoop cfg (stateOf (stepOf cfg st i btc)) (i + 1) rest

/-- The configuration of a call. -/
def perfConfig (strToNum : String → JsNum) (chainName : String)
    (ethPrices avaxPrices : List PricePoint) (glpData : List GlpPoint)
    (feesData : List FeePoint) : PerfConfig :=
  { strToNum := strToNum
    BTC_WEIGHT := .fin (btcWeight chainName)
    ETH_WEIGHT := .fin (btcWeight chainName)
    AVAX_WEIGHT := .fin (avaxWeight chainName)
    STABLE_WEIGHT := stableWeight chainName
    ethPrices := ethPrices
    avaxPrices := avaxPrices
    glpById := glpDataById glpData
    feesById := feesDataById feesData }

/-- The variables before the loop, for the first BTC point `first`. -/
def initialState (strToNum : String → JsNum) (chainName : String)
    (ethPrices avaxPrices : List PricePoint) (glpData : List GlpPoint) (first : PricePoint) :
    LoopState :=
  { indexBtcCount :=
      ((glpStartPrice glpData first).mul (.fin (btcWeight chainName))).div
        (toNumber strToNum first.value)
    indexEthCount :=
      ((glpStartPrice glpData first).mul (.fin (btcWeight chainName))).div
        (toNumber strToNum (valueAt ethPrices 0))
    indexAvaxCount :=
      ((glpStartPrice glpData first).mul (.fin (avaxWeight chainName))).div
        (toNumber strToNum (valueAt avaxPrices 0))
    indexStableCount := (glpStartPrice glpData first).mul (stableWeight chainName)
    cumulativeFeesPerGlp := .fin 0
    lastGlpItem := none
    lastFeesItem := none
    prevEthPrice := .ofRat 3400
    prevAvaxPrice := .ofRat 1000 }

/-- The iterations of the loop of a call whose first BTC point is `first`. -/
def glpPerformanceSteps (strToNum : String → JsNum) (chainName : String)
    (btcPrices ethPrices avaxPrices : List PricePoint) (glpData : List GlpPoint)
    (feesData : List FeePoint) (first : PricePoint) : List PerfStep :=
  perfLoop (perfConfig strToNum chainName ethPrices avaxPrices glpData feesData)
    (initialState strToNum chainName ethPrices avaxPrices glpData first) 0 btcPrices

/-- A pushed point of `useGlpPerformanceData`, without the benchmark prices,
the formatted performance ratios and `glpApr` (always `undefined`). -/
structure PerfPoint where
  timestamp : Nat
  syntheticPrice : JsNum
  glpPrice : Option JsNum
  btcPrice : JsVal
  ethPrice : JsVal
  glpPlusFees : Option JsNum
  glpPlusDistributedUsd : Option JsNum
  glpPlusDistributedEth : Option JsNum
  indexBtcCount : JsNum
  indexEthCount : JsNum
  indexAvaxCount : JsNum
  indexStableCount : JsNum
  BTC_WEIGHT : JsNum
  ETH_WEIGHT : JsNum
  AVAX_WEIGHT : JsNum
  STABLE_WEIGHT : JsNum

/-- The object pushed at the end of an iteration. -/
def perfPoint (cfg : PerfConfig) (s : PerfStep) : PerfPoint :=
  { timestamp := s.timestamp
    syntheticPrice := s.syntheticPrice
    glpPrice := s.glpPrice
    btcPrice := s.btcPrice
    ethPrice := s.ethPrice
    glpPlusFees := s.glpPlusFees
    glpPlusDistributedUsd := s.glpPlusDistributedUsd
    glpPlusDistributedEth := s.glpPlusDistributedEth
    indexBtcCount := s.indexBtcCount
    indexEthCount := s.indexEthCount
    indexAvaxCount := s.indexAvaxCount
    indexStableCount := s.indexStableCount
    BTC_WEIGHT := cfg.BTC_WEIGHT
    ETH_WEIGHT := cfg.ETH_WEIGHT
    AVAX_WEIGHT := cfg.AVAX_WEIGHT
    STABLE_WEIGHT := cfg.STABLE_WEIGHT }

/-- The transform of `useGlpPerformanceData`; an input `none` is `null` or
`undefined`, the result `none` is `null`, and `btcPrices[0].timestamp` on an empty
`btcPrices` is a `TypeError`. -/
def useGlpPerformanceData (strToNum : String → JsNum) (chainName : String)
    (btcPrices ethPrices avaxPrices : Option (List PricePoint))
    (glpData : Option (List GlpPoint)) (feesData : Option (List FeePoint)) :
    Except Thrown (Option (List PerfPoint)) :=
  match btcPrices, ethPrices, avaxPrices, glpData, feesData with
  | some btc, some eth, some avax, some glp, some fees =>
    if fees.length = 0 ∨ glp.length = 0 then .ok none
    else
      match btc with
      | [] => .error .typeError
      | first :: _ =>
        .ok (some ((glpPerformanceSteps strToNum chainName btc eth avax glp fees first).map
          (perfPoint (perfConfig strToNum chainName eth avax glp fees))))
  | _, _, _, _, _ => .ok none

/-! ## Concrete inputs of useGlpPerformanceData -/

/-- A fee point with the given timestamp and `all`. -/
def feePoint (timestamp : Nat) (all : ℚ) : FeePoint :=
  { timestamp := timestamp, all := .fin all, cumulative := .fin all, movingAverageAll := none,
    props := [] }

/-- Fee points of 10 on 2021-08-31 and 20 on 2021-09-01. -/
def twoDayFees : List FeePoint := [feePoint 1630368000 10, feePoint 1630454400 20]

/-- One pool point on 2021-08-31: price 1, supply 100. -/
def oneDayGlp : List GlpPoint :=
  [ { timestamp := 1630368000, glpPrice := .fin 1, glpSupply := .fin 100,
      cumulativeDistributedUsdPerGlp := .fin 0, cumulativeDistributedEthPerGlp := .fin 0 } ]

/-- BTC prices of the two days. -/
def twoDayBtc : List PricePoint :=
  [ ⟨1630368000, .ofRat 50000⟩, ⟨1630454400, .ofRat 51000⟩ ]

/-- ETH prices of the two days. -/
def twoDayEth : List PricePoint :=
  [ ⟨1630368000, .ofRat 3000⟩, ⟨1630454400, .ofRat 3100⟩ ]

/-- AVAX prices of the two days. -/
def twoDayAvax : List PricePoint :=
  [ ⟨1630368000, .ofRat 50⟩, ⟨1630454400, .ofRat 55⟩ ]

/-- ETH prices with a gap on the second day. -/
def gapEth : List PricePoint :=
  [ ⟨1630368000, .ofRat 3000⟩, ⟨1630454400, .null⟩ ]

/-- Records of two days, the later day first:
`[{timestamp:1630458000},{timestamp:1630368010},{timestamp:1630461600}]`. -/
def threeHourSources : List SourceRecord :=
  [ ⟨1630458000, "A", .ofRat 5000000000000000000000000000000⟩,
    ⟨1630368010, "B", .ofRat 1000000000000000000000000000000⟩,
    ⟨1630461600, "A", .ofRat 2000000000000000000000000000000⟩ ]

/-- Two `Swap` records of the feed, of volume `1e30` at 86400 and `2e30` at
172800. -/
def twoLengthServer : List ServerRecord :=
  [ ⟨86400, "Swap", .ofRat 1000000000000000000000000000000⟩,
    ⟨172800, "Swap", .ofRat 2000000000000000000000000000000⟩ ]

/-! ## The liquidity-pool benchmarks of useGlpPerformanceData

`Math.sqrt` takes values outside the rationals, so the benchmark expressions are
written over any field `K` with a square-root function `sqrt`; the statements
take the real numbers and the real square root. -/

/-- The function `getImpermanentLoss(change)`: `2 * Math.sqrt(change) / (1 + change) - 1`. -/
def getImpermanentLoss {K : Type} [Field K] (sqrt : K → K) (change : K) : K :=
  2 * sqrt change / (1 + change) - 1

/-- The constant `lpBtcCount = GLP_START_PRICE * 0.5 / btcFirstPrice`. -/
def lpBtcCount {K : Type} [Field K] (GLP_START_PRICE btcFirstPrice : K) : K :=
  GLP_START_PRICE * (5 / 10) / btcFirstPrice

/-- The constant `lpEthCount = GLP_START_PRICE * 0.5 / ethFirstPrice`. -/
def lpEthCount {K : Type} [Field K] (GLP_START_PRICE ethFirstPrice : K) : K :=
  GLP_START_PRICE * (5 / 10) / ethFirstPrice

/-- The constant `lpAvaxCount = GLP_START_PRICE * 0.5 / avaxFirstPrice`. -/
def lpAvaxCount {K : Type} [Field K] (GLP_START_PRICE avaxFirstPrice : K) : K :=
  GLP_START_PRICE * (5 / 10) / avaxFirstPrice

/-- The value `lpBtcPrice` of an iteration: `(lpBtcCount * btcPrice +
GLP_START_PRICE / 2) * (1 + getImpermanentLoss(btcPrice / btcFirstPrice))`. -/
def lpBtcPrice {K : Type} [Field K] (sqrt : K → K) (GLP_START_PRICE btcFirstPrice btcPrice : K) :
    K :=
  (lpBtcCount GLP_START_PRICE btcFirstPrice * btcPrice + GLP_START_PRICE / 2) *
    (1 + getImpermanentLoss sqrt (btcPrice / btcFirstPrice))

/-- The value `lpEthPrice` of an iteration. -/
def lpEthPrice {K : Type} [Field K] (sqrt : K → K) (GLP_START_PRICE ethFirstPrice ethPrice : K) :
    K :=
  (lpEthCount GLP_START_PRICE ethFirstPrice * ethPrice + GLP_START_PRICE / 2) *
    (1 + getImpermanentLoss sqrt (ethPrice / ethFirstPrice))

/-- The value `lpAvaxPrice` of an iteration. -/
def lpAvaxPrice {K : Type} [Field K] (sqrt : K → K)
    (GLP_START_PRICE avaxFirstPrice avaxPrice : K) : K :=
  (lpAvaxCount GLP_START_PRICE avaxFirstPrice * avaxPrice + GLP_START_PRICE / 2) *
    (1 + getImpermanentLoss sqrt (avaxPrice / avaxFirstPrice))

/-- A square-root function on the rationals that is exact at 1, 4 and 9, for
evaluating the benchmarks. -/
def sqrtSmall (q : ℚ) : ℚ :=
  if q = 4 then 2 else if q = 9 then 3 else 1

/-! ## useGlpData -/

/-- A raw `glpStats` record: the number that `item[timestampProp]` reads as (on
Arbitrum the value is the string `id`) and the selected fields. -/
structure GlpStat where
  timestamp : Nat
  aumInUsdg : JsVal
  glpSupply : JsVal
  distributedUsd : JsVal
  distributedEth : JsVal

/-- The literal `1e18`. -/
def E18 : JsNum := .fin 1000000000000000000

/-- The expression `x || 0` on a number. -/
def numOrZero (x : JsNum) : JsNum := if x.truthy then x else .fin 0

/-- The local `aum = Number(item.aumInUsdg) / 1e18`. -/
def glpAum (strToNum : String → JsNum) (item : GlpStat) : JsNum :=
  (toNumber strToNum item.aumInUsdg).div E18

/-- The local `glpSupply = Number(item.glpSupply) / 1e18`. -/
def glpSupplyOf (strToNum : String → JsNum) (item : GlpStat) : JsNum :=
  (toNumber strToNum item.glpSupply).div E18

/-- The local `distributedUsdPerGlp = (distributedUsd / glpSupply) || 0`, with
`distributedUsd = Number(item.distributedUsd) / 1e30`. -/
def distributedUsdPerGlp (strToNum : String → JsNum) (item : GlpStat) : JsNum :=
  numOrZero (((toNumber strToNum item.distributedUsd).div E30).div (glpSupplyOf strToNum item))

/-- The local `distributedEthPerGlp = (distributedEth / glpSupply) || 0`, with
`distributedEth = Number(item.distributedEth) / 1e18`. -/
def distributedEthPerGlp (strToNum : String → JsNum) (item : GlpStat) : JsNum :=
  numOrZero (((toNumber strToNum item.distributedEth).div E18).div (glpSupplyOf strToNum item))

/-- The object `newItem` of the `reduce` callback of `useGlpData`. -/
structure GlpItem where
  timestamp : Nat
  aum : JsNum
  glpSupply : JsNum
  glpPrice : JsNum
  cumulativeDistributedEthPerGlp : JsNum
  cumulativeDistributedUsdPerGlp : JsNum
  distributedUsdPerGlp : JsNum
  distributedEthPerGlp : JsNum

/-- The object `newItem` for one record; the two cumulative arguments are the
values of the outer variables after their `+=`. -/
def glpNewItem (strToNum : String → JsNum)
    (cumulativeDistributedUsdPerGlp cumulativeDistributedEthPerGlp : JsNum) (item : GlpStat) :
    GlpItem :=
  { timestamp := item.timestamp
    aum := glpAum strToNum item
    glpSupply := glpSupplyOf strToNum item
    glpPrice := (glpAum strToNum item).div (glpSupplyOf strToNum item)
    cumulativeDistributedEthPerGlp := cumulativeDistributedEthPerGlp
    cumulativeDistributedUsdPerGlp := cumulativeDistributedUsdPerGlp
    distributedUsdPerGlp := distributedUsdPerGlp strToNum item
    distributedEthPerGlp := distributedEthPerGlp strToNum item }

/-- The state of the `reduce` of `useGlpData`: the outer variables
`cumulativeDistributedUsdPerGlp` and `cumulativeDistributedEthPerGlp`, and `memo`. -/
structure GlpReduceState where
  cumulativeDistributedUsdPerGlp : JsNum
  cumulativeDistributedEthPerGlp : JsNum
  memo : List GlpItem

/-- The statement `if (last && last.timestamp === timestamp) memo[memo.length - 1]
= newItem; else memo.push(newItem)`. -/
def replaceOrPush (memo : List GlpItem) (newItem : GlpItem) : List GlpItem :=
  match memo.getLast? with
  | some last =>
    if last.timestamp = newItem.timestamp then memo.dropLast ++ [newItem] else memo ++ [newItem]
  | none => memo ++ [newItem]

/-- The callback of the `reduce` of `useGlpData`. -/
def glpReduceStep (strToNum : String → JsNum) (st : GlpReduceState) (item : GlpStat) :
    GlpReduceState :=
  { cumulativeDistributedUsdPerGlp :=
      st.cumulativeDistributedUsdPerGlp.add (distributedUsdPerGlp strToNum item)
    cumulativeDistributedEthPerGlp :=
      st.cumulativeDistributedEthPerGlp.add (distributedEthPerGlp strToNum item)
    memo := replaceOrPush st.memo
      (glpNewItem strToNum
        (st.cumulativeDistributedUsdPerGlp.add (distributedUsdPerGlp strToNum item))
        (st.cumulativeDistributedEthPerGlp.add (distributedEthPerGlp strToNum item)) item) }

instance : IsTotal GlpStat (fun x y => x.timestamp ≤ y.timestamp) :=
  ⟨fun x y => Nat.le_total x.timestamp y.timestamp⟩

instance : IsTrans GlpStat (fun x y => x.timestamp ≤ y.timestamp) :=
  ⟨fun _ _ _ h1 h2 => Nat.le_trans h1 h2⟩

/-- The call `sortBy(data.glpStats, item => item[timestampProp])`, a stable
ascending sort: on Arbitrum `timestampProp` is `id`, whose values are strings, so
the order is that of the decimal strings; on the other chains it is `timestamp`,
whose values are numbers. -/
def sortGlpStats (chainName : String) (glpStats : List GlpStat) : List GlpStat :=
  if chainName = "arbitrum" then
    glpStats.insertionSort (fun x y => keyStringLE x.timestamp y.timestamp)
  else glpStats.insertionSort (fun x y => x.timestamp ≤ y.timestamp)

/-- The records the `reduce` runs over:
`sortBy(data.glpStats, item => item[timestampProp]).filter(item =>
item[timestampProp] % 86400 === 0)`. -/
def dailyGlpStats (chainName : String) (glpStats : List GlpStat) : List GlpStat :=
  (sortGlpStats chainName glpStats).filter (fun item => decide (item.timestamp % 86400 = 0))

/-- The array the `reduce` of `useGlpData` returns. -/
def glpItems (strToNum : String → JsNum) (chainName : String) (glpStats : List GlpStat) :
    List GlpItem :=
  ((dailyGlpStats chainName glpStats).foldl (glpReduceStep strToNum)
    { cumulativeDistributedUsdPerGlp := .fin 0
      cumulativeDistributedEthPerGlp := .fin 0
      memo := [] }).memo

/-- The statement `if (!x) x = prev`, where `prev` is `undefined` (`none`) until
it is first assigned. -/
def orPrev (x : JsNum) (prev : Option JsNum) : Option JsNum :=
  if x.truthy then some x else prev

/-- A number read from a variable that may hold `undefined`. -/
def numOfOpt (x : Option JsNum) : JsNum := x.getD .nan

/-- The value `prev ? (x - prev) / prev * 100 : 0`, set to 0 when it is
`> 1000`. -/
def percentChange (x prev : Option JsNum) : JsNum :=
  if optTruthy prev then
    if (((((numOfOpt x).sub (numOfOpt prev)).div (numOfOpt prev)).mul (.fin 100)).gt (.fin 1000))
    then .fin 0
    else (((numOfOpt x).sub (numOfOpt prev)).div (numOfOpt prev)).mul (.fin 100)
  else .fin 0

/-- The object an item is after the `map` of `useGlpData`, its properties in
insertion order. -/
def glpRecord (item : GlpItem) (glpSupplyChange aumChange : JsNum) : Record :=
  [ ("timestamp", .num (.fin item.timestamp)),
    ("aum", .num item.aum),
    ("glpSupply", .num item.glpSupply),
    ("glpPrice", .num item.glpPrice),
    ("cumulativeDistributedEthPerGlp", .num item.cumulativeDistributedEthPerGlp),
    ("cumulativeDistributedUsdPerGlp", .num item.cumulativeDistributedUsdPerGlp),
    ("distributedUsdPerGlp", .num item.distributedUsdPerGlp),
    ("distributedEthPerGlp", .num item.distributedEthPerGlp),
    ("glpSupplyChange", .num glpSupplyChange),
    ("aumChange", .num aumChange) ]

/-- The `map` of `useGlpData`, threading `prevGlpSupply` and `prevAum`. -/
def glpChangeLoop : Option JsNum → Option JsNum → List GlpItem → List Record
  | _, _, [] => []
  | prevGlpSupply, prevAum, item :: rest =>
    glpRecord item (percentChange (orPrev item.glpSupply prevGlpSupply) prevGlpSupply)
        (percentChange (orPrev item.aum prevAum) prevAum) ::
      glpChangeLoop (orPrev item.glpSupply prevGlpSupply) (orPrev item.aum prevAum) rest

/-- The transform of `useGlpData` on `data.glpStats`; `null` while there is no
`data`. -/
def useGlpData (strToNum : String → JsNum) (chainName : String)
    (data : Option (List GlpStat)) : Option (List Record) :=
  match data with
  | none => none
  | some glpStats =>
    some (fillNa (glpChangeLoop none none (glpItems strToNum chainName glpStats)))

/-! ## Concrete inputs of useGlpData -/

/-- A `glpStats` record with `aum`, `glpSupply` (in units of `1e18`) and the two
distributed amounts (`distributedUsd` in units of `1e30`, `distributedEth` in
units of `1e18`). -/
def glpStat (timestamp : Nat) (aum glpSupply distributedUsd distributedEth : ℚ) : GlpStat :=
  { timestamp := timestamp
    aumInUsdg := .ofRat (aum * 1000000000000000000)
    glpSupply := .ofRat (glpSupply * 1000000000000000000)
    distributedUsd := .ofRat (distributedUsd * 1000000000000000000000000000000)
    distributedEth := .ofRat (distributedEth * 1000000000000000000) }

/-- A first day without supply (nothing held, nothing distributed), then a day
with supply 100, AUM 200 and 100 USD distributed. -/
def emptyFirstDay : List GlpStat :=
  [ glpStat 86400 0 0 0 0, glpStat 172800 200 100 100 0 ]

/-- A day without supply on which AUM 1 and a distribution of 1 USD are
recorded. -/
def zeroSupplyDay : List GlpStat := [ glpStat 86400 1 0 1 0 ]

/-- Supply 100, 110, 110 and AUM 100, 110, 220 on three days. -/
def steadySupply : List GlpStat :=
  [ glpStat 86400 100 100 0 0, glpStat 172800 110 110 0 0, glpStat 259200 220 110 0 0 ]

/-- A day with supply 100, AUM 200 and 100 USD distributed, then a day without
supply. -/
def supplyThenNone : List GlpStat :=
  [ glpStat 86400 200 100 100 0, glpStat 172800 0 0 0 0 ]

/-- The percentage change of `x` against `prev`, replaced by 0 when it exceeds
1000: the value that the specification gives `glpSupplyChange` and `aumChange`. -/
def cappedChange (x prev : ℚ) : ℚ :=
  if (x - prev) / prev * 100 > 1000 then 0 else (x - prev) / prev * 100

/-- An item of the reduced array with nothing distributed. -/
def plainItem (timestamp : Nat) (aum glpSupply glpPrice : ℚ) : GlpItem :=
  { timestamp := timestamp
    aum := .fin aum
    glpSupply := .fin glpSupply
    glpPrice := .fin glpPrice
    cumulativeDistributedEthPerGlp := .fin 0
    cumulativeDistributedUsdPerGlp := .fin 0
    distributedUsdPerGlp := .fin 0
    distributedEthPerGlp := .fin 0 }

/-- Shard `a` of the alias example: one record of the first address that
`knownSwapSources.arbitrum` names `Vovo`, with volume 5. -/
def aliasShardA : List SourceRecord :=
  [ ⟨1630368000, "0x1d838be5d58cc131ae4a23359bc6ad2dddb8b75a",
      .ofRat 5000000000000000000000000000000⟩ ]

/-- Shard `b` of the alias example: one record of the second address named
`Vovo`, with volume 100. -/
def aliasShardB : List SourceRecord :=
  [ ⟨1630368000, "0xc4bed5eeeccbe84780c44c5472e800d3a5053454",
      .ofRat 100000000000000000000000000000000⟩ ]

/-- Two daily records whose ids have different lengths: 86400 with a swap
volume of `1e30` and 172800 with a swap volume of `2e30`. -/
def idLengths : List VolumeStat :=
  [ ⟨86400, categoryFields 1000000000000000000000000000000 0⟩,
    ⟨172800, categoryFields 2000000000000000000000000000000 0⟩ ]

/-! # Properties -/

/-! ## Decimal strings and numeric order -/

theorem foldl_digits (ds : List Nat) (a : Nat) :
    ds.foldl (fun acc d => acc * 10 + d) a =
      a * 10 ^ ds.length + ds.foldl (fun acc d => acc * 10 + d) 0 := by
  induction ds generalizing a with
  | nil => simp
  | cons d rest ih =>
    simp only [List.foldl_cons, List.length_cons]
    rw [ih (a * 10 + d), ih (0 * 10 + d)]
    ring

theorem digitsValue_cons (d : Nat) (ds : List Nat) :
    digitsValue (d :: ds) = d * 10 ^ ds.length + digitsValue ds := by
  simp only [digitsValue, List.foldl_cons]
  rw [foldl_digits ds (0 * 10 + d)]
  ring

theorem digitsValue_lt (ds : List Nat) (h : ∀ d ∈ ds, d < 10) :
    digitsValue ds < 10 ^ ds.length := by
  induction ds with
  | nil => simp [digitsValue]
  | cons d rest ih =>
    have hd : d < 10 := h d (List.mem_cons_self _ _)
    have hrest := ih (fun x hx => h x (List.mem_cons_of_mem _ hx))
    rw [digitsValue_cons, List.length_cons, pow_succ]
    nlinarith

/-- On digit strings of the same length the string order is the numeric order. -/
theorem digitsLT_iff (xs ys : List Nat) (hlen : xs.length = ys.length)
    (hx : ∀ d ∈ xs, d < 10) (hy : ∀ d ∈ ys, d < 10) :
    digitsLT xs ys = true ↔ digitsValue xs < digitsValue ys := by
  induction xs generalizing ys with
  | nil =>
    cases ys with
    | nil => simp [digitsLT, digitsValue]
    | cons y ys => simp at hlen
  | cons x xs ih =>
    cases ys with
    | nil => simp at hlen
    | cons y ys =>
      have hlen' : xs.length = ys.length := by simpa using hlen
      have hvx := digitsValue_lt xs (fun d hd => hx d (List.mem_cons_of_mem _ hd))
      have hvy := digitsValue_lt ys (fun d hd => hy d (List.mem_cons_of_mem _ hd))
      have hrec := ih ys hlen' (fun d hd => hx d (List.mem_cons_of_mem _ hd))
        (fun d hd => hy d (List.mem_cons_of_mem _ hd))
      rw [digitsValue_cons, digitsValue_cons, ← hlen']
      rw [← hlen'] at hvy
      simp only [digitsLT, Bool.or_eq_true, Bool.and_eq_true, decide_eq_true_eq, hrec]
      rcases Nat.lt_trichotomy x y with h | h | h
      · constructor
        · intro _
          have : (x + 1) * 10 ^ xs.length ≤ y * 10 ^ xs.length :=
            Nat.mul_le_mul_right _ h
          nlinarith
        · intro _
          exact Or.inl h
      · subst h
        constructor
        · rintro (h | ⟨_, h⟩)
          · exact absurd h (lt_irrefl _)
          · omega
        · intro h
          exact Or.inr ⟨rfl, by omega⟩
      · constructor
        · rintro (h' | ⟨h', _⟩)
          · omega
          · omega
        · intro h'
          have : (y + 1) * 10 ^ xs.length ≤ x * 10 ^ xs.length :=
            Nat.mul_le_mul_right _ h
          nlinarith

theorem decimalDigitsAux_value (fuel n : Nat) (acc : List Nat) (h : n < fuel) :
    digitsValue (decimalDigitsAux fuel n acc) = acc.foldl (fun a d => a * 10 + d) n := by
  induction fuel generalizing n acc with
  | zero => omega
  | succ fuel ih =>
    simp only [decimalDigitsAux]
    split_ifs with h10
    · simp [digitsValue]
    · rw [ih (n / 10) (n % 10 :: acc) (by omega)]
      simp only [List.foldl_cons]
      congr 1
      omega

theorem decimalDigitsAux_lt (fuel n : Nat) (acc : List Nat) (hacc : ∀ d ∈ acc, d < 10) :
    ∀ d ∈ decimalDigitsAux fuel n acc, d < 10 := by
  induction fuel generalizing n acc with
  | zero => simpa [decimalDigitsAux] using hacc
  | succ fuel ih =>
    simp only [decimalDigitsAux]
    split_ifs with h10
    · intro d hd
      rcases List.mem_cons.mp hd with h | h
      · omega
      · exact hacc d h
    · apply ih
      intro d hd
      rcases List.mem_cons.mp hd with h | h
      · omega
      · exact hacc d h

theorem decimalDigits_value (n : Nat) : digitsValue (decimalDigits n) = n := by
  simp [decimalDigits, decimalDigitsAux_value n.succ n [] (Nat.lt_succ_self n)]

theorem decimalDigits_lt (n : Nat) : ∀ d ∈ decimalDigits n, d < 10 :=
  decimalDigitsAux_lt _ _ [] (by simp)

/-- For two keys with the same number of decimal digits the order of the
strings is the order of the numbers. -/
theorem keyStringLE_iff (a b : Nat)
    (hlen : (decimalDigits a).length = (decimalDigits b).length) : keyStringLE a b ↔ a ≤ b := by
  have h := digitsLT_iff (decimalDigits b) (decimalDigits a) hlen.symm (decimalDigits_lt b)
    (decimalDigits_lt a)
  rw [decimalDigits_value, decimalDigits_value] at h
  simp only [keyStringLE]
  constructor
  · intro hf
    by_contra hlt
    have : digitsLT (decimalDigits b) (decimalDigits a) = true := h.mpr (by omega)
    rw [hf] at this
    cases this
  · intro hle
    by_contra hne
    have : digitsLT (decimalDigits b) (decimalDigits a) = true := by simpa using hne
    have := h.mp this
    omega

/-! ## Association lists and the loops of fillNa -/

theorem lookupField_setField (r : Record) (k k' : String) (v : JsVal) :
    lookupField (setField r k v) k' = if k = k' then some v else lookupField r k' := by
  induction r with
  | nil => simp [setField, lookupField]
  | cons e rest ih =>
    obtain ⟨a, w⟩ := e
    by_cases h : a = k
    · subst h
      by_cases h' : a = k' <;> simp [setField, lookupField, h']
    · by_cases h' : a = k'
      · subst h'
        have : ¬ k = a := fun e => h e.symm
        simp [setField, lookupField, h, this]
      · simp [setField, lookupField, h, h', ih]

theorem getField_setField (r : Record) (k k' : String) (v : JsVal) :
    getField (setField r k v) k' = if k = k' then v else getField r k' := by
  unfold getField
  rw [lookupField_setField]
  split <;> rfl

theorem lookupField_of_truthy (r : Record) (k : String) (h : (getField r k).truthy = true) :
    lookupField r k = some (getField r k) := by
  unfold getField at *
  cases hl : lookupField r k with
  | none => rw [hl] at h; simp [JsVal.truthy] at h
  | some v => rfl

theorem foldl_fillKey (k : String) (keys : List String) (st : Record × Record) :
    lookupField (keys.foldl fillKey st).1 k = filledLookup keys (getField st.2 k) st.1 k ∧
    getField (keys.foldl fillKey st).2 k = carried keys (getField st.2 k) st.1 k := by
  induction keys generalizing st with
  | nil => simp [filledLookup, carried]
  | cons k0 rest ih =>
    rw [List.foldl_cons]
    obtain ⟨ih1, ih2⟩ := ih (fillKey st k0)
    rw [ih1, ih2]
    obtain ⟨el, prev⟩ := st
    by_cases hk : k0 = k
    · subst hk
      by_cases h1 : (getField el k0).truthy = true
      · simp [fillKey, filledLookup, carried, h1, getField_setField]
      · by_cases h2 : (getField prev k0).truthy = true
        · simp [fillKey, filledLookup, carried, h1, h2, getField_setField, lookupField_setField]
        · simp [fillKey, filledLookup, carried, h1, h2]
    · have hk' : ¬ k = k0 := fun e => hk e.symm
      by_cases h1 : (getField el k0).truthy = true
      · simp [fillKey, filledLookup, carried, h1, hk, hk', getField_setField]
      · by_cases h2 : (getField prev k0).truthy = true
        · simp [fillKey, filledLookup, carried, h1, h2, hk, hk', getField_setField, lookupField_setField]
        · simp [fillKey, filledLookup, carried, h1, h2, hk, hk']

theorem fillEl_lookup (keys : List String) (prev el : Record) (k : String) :
    lookupField (fillEl keys prev el).1 k = filledLookup keys (getField prev k) el k :=
  (foldl_fillKey k keys (el, prev)).1

theorem fillEl_carried (keys : List String) (prev el : Record) (k : String) :
    getField (fillEl keys prev el).2 k = carried keys (getField prev k) el k :=
  (foldl_fillKey k keys (el, prev)).2

theorem fillLoop_length (keys : List String) (prev : Record) (arr : List Record) :
    (fillLoop keys prev arr).length = arr.length := by
  induction arr generalizing prev with
  | nil => rfl
  | cons a rest ih => simp [fillLoop, ih]

theorem fillLoop_lookup (keys : List String) (k : String) (arr : List Record) (prev : Record)
    (i : Nat) (el : Record) (h : arr[i]? = some el) :
    ∃ el', (fillLoop keys prev arr)[i]? = some el' ∧
      lookupField el' k =
        filledLookup keys (carriedOver keys k (getField prev k) (arr.take i)) el k := by
  induction arr generalizing prev i with
  | nil => simp at h
  | cons a rest ih =>
    cases i with
    | zero =>
      simp at h
      subst h
      exact ⟨(fillEl keys prev a).1, by simp [fillLoop], by simp [carriedOver, fillEl_lookup]⟩
    | succ i =>
      simp at h
      obtain ⟨el', h1, h2⟩ := ih (fillEl keys prev a).2 i h
      refine ⟨el', by simpa [fillLoop] using h1, ?_⟩
      rw [h2, fillEl_carried]
      simp [carriedOver]

theorem carriedOver_take_falsy (keys : List String) (k : String) (arr : List Record)
    (p0 : JsVal) (i : Nat)
    (h : ∀ j ej, j < i → arr[j]? = some ej → (getField ej k).truthy = false) :
    carriedOver keys k p0 (arr.take i) = p0 := by
  induction arr generalizing p0 i with
  | nil => simp [carriedOver]
  | cons a rest ih =>
    cases i with
    | zero => simp [carriedOver]
    | succ i =>
      have ha : (getField a k).truthy = false := h 0 a (Nat.succ_pos i) (by simp)
      have hrest : carriedOver keys k p0 (rest.take i) = p0 :=
        ih p0 i (fun j ej hj hje => h (j + 1) ej (Nat.succ_lt_succ hj) (by simpa using hje))
      simpa [carriedOver, carried, ha] using hrest

theorem carriedOver_take_last (keys : List String) (k : String) (hk : k ∈ keys)
    (arr : List Record) (p0 : JsVal) (i j : Nat) (ej : Record)
    (hji : j < i) (hj : arr[j]? = some ej) (ht : (getField ej k).truthy = true)
    (h : ∀ j' ej', j < j' → j' < i → arr[j']? = some ej' → (getField ej' k).truthy = false) :
    carriedOver keys k p0 (arr.take i) = getField ej k := by
  induction arr generalizing p0 i j with
  | nil => simp at hj
  | cons a rest ih =>
    cases i with
    | zero => omega
    | succ i =>
      cases j with
      | zero =>
        simp at hj
        subst hj
        have hrest := carriedOver_take_falsy keys k rest (getField a k) i
          (fun j' ej' hj' hje => h (j' + 1) ej' (Nat.succ_pos j') (Nat.succ_lt_succ hj')
            (by simpa using hje))
        simpa [carriedOver, carried, hk, ht] using hrest
      | succ j =>
        have hrest := ih (carried keys p0 a k) i j (Nat.lt_of_succ_lt_succ hji)
          (by simpa using hj)
          (fun j' ej' h1 h2 hje => h (j' + 1) ej' (Nat.succ_lt_succ h1) (Nat.succ_lt_succ h2)
            (by simpa using hje))
        simpa [carriedOver] using hrest

theorem arrayValues_deleteProp_name {α : Type} (xs : List α) (i : Nat) (s : String) :
    deleteProp (arrayPropsFrom i xs) (.name s) = arrayPropsFrom i xs := by
  induction xs generalizing i with
  | nil => rfl
  | cons x rest ih =>
    have := ih (i + 1)
    simp only [deleteProp] at this
    simp only [arrayPropsFrom, deleteProp]
    rw [List.filter_cons, if_pos (by simp), this]

theorem arrayValues_arrayPropsFrom {α : Type} (xs : List α) (i : Nat) :
    arrayValues (arrayPropsFrom i xs) = xs := by
  induction xs generalizing i with
  | nil => rfl
  | cons x rest ih =>
    have := ih (i + 1)
    simp only [arrayValues] at this
    simp [arrayPropsFrom, arrayValues, this]

/-- The two `delete` statements remove nothing: the key list is all of
`Object.keys(arr[0])`, `timestamp` and `id` included. -/
theorem fillKeys_eq (first : Record) : fillKeys first = objectKeys first := by
  simp [fillKeys, arrayValues_deleteProp_name, arrayValues_arrayPropsFrom]

/-! ## Statements: address registry -/

theorem hasProperty_bool (b : Bool) :
    hasProperty (addresses.map (fun e => PropName.idx e.1)) (boolPropName b) = false := by
  cases b <;> decide

theorem hasProperty_own (table : List (String × String)) (key a : String)
    (h : table.lookup key = some a) :
    hasProperty (table.map (fun e => PropName.name e.1)) (.name key) = true := by
  induction table with
  | nil => simp at h
  | cons e rest ih =>
    obtain ⟨k, v⟩ := e
    by_cases hk : key = k
    · simp [hasProperty, hk]
    · have hk' : (key == k) = false := by simpa using hk
      rw [List.lookup_cons, hk'] at h
      have := ih h
      simp only [hasProperty, Bool.or_eq_true, List.contains_eq_any_beq, List.any_eq_true] at this ⊢
      rcases this with ⟨x, hx, hx'⟩ | h2
      · exact Or.inl ⟨x, List.mem_cons_of_mem _ hx, hx'⟩
      · exact Or.inr h2

theorem hasProperty_absent (table : List (String × String)) (key : String)
    (h : table.lookup key = none) (hproto : key ∉ objectPrototypeNames) :
    hasProperty (table.map (fun e => PropName.name e.1)) (.name key) = false := by
  have hown : ((table.map (fun e => PropName.name e.1)).contains (PropName.name key)) = false := by
    induction table with
    | nil => rfl
    | cons e rest ih =>
      obtain ⟨k, v⟩ := e
      by_cases hk : key = k
      · simp [List.lookup_cons, hk] at h
      · have hk' : (key == k) = false := by simpa using hk
        rw [List.lookup_cons, hk'] at h
        have := ih h
        simp only [List.contains_eq_any_beq, List.any_eq_false] at this ⊢
        intro x hx
        simp only [List.map_cons, List.mem_cons] at hx
        rcases hx with hx | hx
        · subst hx
          simpa using fun e => hk e
        · exact this x hx
  have hp : objectPrototypeNames.contains key = false := by
    simpa using hproto
  simp only [hasProperty, hown, hp, Bool.or_self]

/-- An unregistered chain id never reaches the `Unknown chain` branch: the
lookup `key in addresses[chainId]` fails with a `TypeError` instead. -/
theorem getAddress_unregistered (chainId : Nat) (key : String)
    (h : addresses.lookup chainId = none) :
    getAddress chainId key = .error .typeError := by
  simp [getAddress, hasProperty_bool, h]

/-- On a registered chain a registered key resolves to its address. -/
theorem getAddress_registered (chainId : Nat) (key a : String) (table : List (String × String))
    (hchain : addresses.lookup chainId = some table) (hkey : table.lookup key = some a) :
    getAddress chainId key = .ok (.address a) := by
  simp [getAddress, hasProperty_bool, hchain, hasProperty_own table key a hkey, hkey]

/-- On a registered chain a key that is neither registered nor inherited from
`Object.prototype` is reported as unknown. -/
theorem getAddress_unknown_key (chainId : Nat) (key : String) (table : List (String × String))
    (hchain : addresses.lookup chainId = some table) (hkey : table.lookup key = none)
    (hproto : key ∉ objectPrototypeNames) :
    getAddress chainId key = .error (.error ("Unknown address key " ++ key)) := by
  simp [getAddress, hasProperty_bool, hchain, hasProperty_absent table key hkey hproto]

/-- C1 (code at the failing input): `getAddress(1, 'Vault')`, chain 1 not being
registered, throws a `TypeError` and not `Error('Unknown chain 1')`; on the
registered chain 56 the same key resolves and an unknown key is reported. -/
theorem getAddress_unknown_chain_typeError :
    addresses.lookup 1 = none ∧
    getAddress 1 "Vault" = .error .typeError ∧
    getAddress 1 "Vault" ≠ .error (.error "Unknown chain 1") ∧
    getAddress 56 "Vault" = .ok (.address "0xc73A8DcAc88498FD4b4B1b2AaA37b0a2614Ff67B") ∧
    getAddress 56 "Nope" = .error (.error "Unknown address key Nope") := by
  refine ⟨rfl, rfl, ?_, rfl, rfl⟩
  rw [show getAddress 1 "Vault" = .error .typeError from rfl]
  intro h
  cases h

/-! ## Statements: fillNa -/

theorem fillNa_length (arr : List Record) : (fillNa arr).length = arr.length := by
  cases arr with
  | nil => rfl
  | cons a rest => simp [fillNa, fillLoop_length]

/-- The field `k` of element `i` after `fillNa`, in terms of the value carried
from the elements before it. -/
theorem fillNa_lookup (arr : List Record) (first : Record) (k : String) (i : Nat)
    (el : Record) (hfirst : arr.head? = some first) (hi : arr[i]? = some el) :
    ∃ el', (fillNa arr)[i]? = some el' ∧
      lookupField el' k =
        filledLookup (objectKeys first) (carriedOver (objectKeys first) k .undefined (arr.take i))
          el k := by
  cases arr with
  | nil => simp at hfirst
  | cons a rest =>
    simp at hfirst
    subst hfirst
    have := fillLoop_lookup (objectKeys a) k (a :: rest) [] i el hi
    simpa [fillNa, fillKeys_eq, getField, lookupField] using this

/-- C2: for every series `arr`, every key `k` of `arr[0]` and every index `i`:
a truthy `arr[i][k]` is kept; a falsy or absent one is replaced by the value of
`k` at the greatest `j < i` with `arr[j][k]` truthy, and the field is left as it
was when there is no such `j`. -/
theorem fillNa_carry_forward (arr : List Record) (first : Record) (k : String) (i : Nat)
    (el : Record) (hfirst : arr.head? = some first) (hk : k ∈ objectKeys first)
    (hi : arr[i]? = some el) :
    ∃ el', (fillNa arr)[i]? = some el' ∧
      ((getField el k).truthy = true → lookupField el' k = lookupField el k) ∧
      ((getField el k).truthy = false →
        (∀ j ej, j < i → arr[j]? = some ej → (getField ej k).truthy = true →
          (∀ j' ej', j < j' → j' < i → arr[j']? = some ej' →
            (getField ej' k).truthy = false) →
          lookupField el' k = lookupField ej k) ∧
        ((∀ j ej, j < i → arr[j]? = some ej → (getField ej k).truthy = false) →
          lookupField el' k = lookupField el k)) := by
  obtain ⟨el', h1, h2⟩ := fillNa_lookup arr first k i el hfirst hi
  refine ⟨el', h1, ?_, ?_⟩
  · intro ht
    rw [h2]
    simp [filledLookup, ht]
  · intro hf
    refine ⟨?_, ?_⟩
    · intro j ej hji hj ht hlater
      rw [h2, carriedOver_take_last (objectKeys first) k hk arr .undefined i j ej hji hj ht hlater,
        lookupField_of_truthy ej k ht]
      simp [filledLookup, hk, hf, ht]
    · intro hnone
      rw [h2, carriedOver_take_falsy (objectKeys first) k arr .undefined i hnone]
      simp [filledLookup, JsVal.truthy]

/-- C2 (witness): the series `[{timestamp:0,x:5},{timestamp:1,x:null},{timestamp:2,x:7}]`
gives `x = 5, 5, 7`, index 1 taking the value of index 0. -/
theorem fillNa_carry_forward_witness :
    (fillNa scenarioSeries).map (fun r => getField r "x") = [.ofRat 5, .ofRat 5, .ofRat 7] ∧
    ∃ el', (fillNa scenarioSeries)[1]? = some el' ∧
      ((getField [("timestamp", .ofRat 1), ("x", .null)] "x").truthy = true →
        lookupField el' "x" = lookupField [("timestamp", .ofRat 1), ("x", .null)] "x") ∧
      ((getField [("timestamp", .ofRat 1), ("x", .null)] "x").truthy = false →
        (∀ j ej, j < 1 → scenarioSeries[j]? = some ej → (getField ej "x").truthy = true →
          (∀ j' ej', j < j' → j' < 1 → scenarioSeries[j']? = some ej' →
            (getField ej' "x").truthy = false) →
          lookupField el' "x" = lookupField ej "x") ∧
        ((∀ j ej, j < 1 → scenarioSeries[j]? = some ej → (getField ej "x").truthy = false) →
          lookupField el' "x" = lookupField [("timestamp", .ofRat 1), ("x", .null)] "x")) :=
  ⟨by decide,
   fillNa_carry_forward scenarioSeries [("timestamp", .ofRat 0), ("x", .ofRat 5)] "x" 1
     [("timestamp", .ofRat 1), ("x", .null)] rfl (by decide) rfl⟩

/-- C3 (counterexample): in `[{a:1},{a:2,b:5},{a:3}]` the key `b` occurs in the
second record and is absent from the third, whose nearest preceding non-absent
value is 5; after `fillNa` it is still absent there.  In `[{x:5},{x:0},{}]` the
nearest non-absent value before the absent `x` of the third record is 0, and
`fillNa` puts 5 there. -/
theorem fillNa_key_outside_first_record :
    lateKeySeries.map (fun r => lookupField r "b") = [none, some (.ofRat 5), none] ∧
    (fillNa lateKeySeries).map (fun r => lookupField r "b") = [none, some (.ofRat 5), none] ∧
    zeroThenAbsentSeries.map (fun r => lookupField r "x") =
      [some (.ofRat 5), some (.ofRat 0), none] ∧
    (fillNa zeroThenAbsentSeries).map (fun r => lookupField r "x") =
      [some (.ofRat 5), some (.ofRat 5), some (.ofRat 5)] := by
  decide

/-- C3 (amended): for a key `k` of the first record, an absent `S[i][k]` becomes
the nearest preceding truthy value of `k`, and stays absent when no preceding
value is truthy; for a key that the first record does not have, an absent
`S[i][k]` stays absent. -/
theorem fillNa_absent_field (arr : List Record) (first : Record) (k : String) (i : Nat)
    (el : Record) (hfirst : arr.head? = some first) (hi : arr[i]? = some el)
    (habsent : lookupField el k = none) :
    ∃ el', (fillNa arr)[i]? = some el' ∧
      (k ∉ objectKeys first → lookupField el' k = none) ∧
      (k ∈ objectKeys first →
        (∀ j ej, j < i → arr[j]? = some ej → (getField ej k).truthy = true →
          (∀ j' ej', j < j' → j' < i → arr[j']? = some ej' →
            (getField ej' k).truthy = false) →
          lookupField el' k = some (getField ej k)) ∧
        ((∀ j ej, j < i → arr[j]? = some ej → (getField ej k).truthy = false) →
          lookupField el' k = none)) := by
  obtain ⟨el', h1, h2⟩ := fillNa_lookup arr first k i el hfirst hi
  have hf : (getField el k).truthy = false := by simp [getField, habsent, JsVal.truthy]
  refine ⟨el', h1, ?_, ?_⟩
  · intro hk
    rw [h2]
    simp [filledLookup, hk, habsent]
  · intro hk
    refine ⟨?_, ?_⟩
    · intro j ej hji hj ht hlater
      rw [h2, carriedOver_take_last (objectKeys first) k hk arr .undefined i j ej hji hj ht hlater]
      simp [filledLookup, hk, hf, ht]
    · intro hnone
      rw [h2, carriedOver_take_falsy (objectKeys first) k arr .undefined i hnone]
      simp [filledLookup, JsVal.truthy, habsent]

/-- C3 (witness of the amended statement): in `[{a:1},{a:2,b:5},{a:3}]` the key
`b`, which the first record lacks, stays absent in the third record. -/
theorem fillNa_absent_field_witness :
    ∃ el', (fillNa lateKeySeries)[2]? = some el' ∧
      ("b" ∉ objectKeys [("a", JsVal.ofRat 1)] → lookupField el' "b" = none) ∧
      ("b" ∈ objectKeys [("a", JsVal.ofRat 1)] →
        (∀ j ej, j < 2 → lateKeySeries[j]? = some ej → (getField ej "b").truthy = true →
          (∀ j' ej', j < j' → j' < 2 → lateKeySeries[j']? = some ej' →
            (getField ej' "b").truthy = false) →
          lookupField el' "b" = some (getField ej "b")) ∧
        ((∀ j ej, j < 2 → lateKeySeries[j]? = some ej → (getField ej "b").truthy = false) →
          lookupField el' "b" = none)) :=
  fillNa_absent_field lateKeySeries [("a", .ofRat 1)] "b" 2 [("a", .ofRat 3)] rfl rfl rfl

/-- C4 (code at the failing input): on
`[{id:"d1",timestamp:86400,x:1},{id:"",timestamp:0,x:2}]` the falsy `timestamp`
and `id` of the second record are overwritten with those of the first. -/
theorem fillNa_overwrites_timestamp_and_id :
    falsyIdentitySeries.map (fun r => getField r "timestamp") = [.ofRat 86400, .ofRat 0] ∧
    (fillNa falsyIdentitySeries).map (fun r => getField r "timestamp") =
      [.ofRat 86400, .ofRat 86400] ∧
    falsyIdentitySeries.map (fun r => getField r "id") = [.str "d1", .str ""] ∧
    (fillNa falsyIdentitySeries).map (fun r => getField r "id") = [.str "d1", .str "d1"] := by
  decide

/-! ## Numbers -/

@[simp] theorem JsNum.add_fin (a b : ℚ) : (JsNum.fin a).add (.fin b) = .fin (a + b) := rfl

@[simp] theorem JsNum.div_fin (a b : ℚ) (h : b ≠ 0) :
    (JsNum.fin a).div (.fin b) = .fin (a / b) := by
  simp [JsNum.div, h]

@[simp] theorem JsNum.mul_fin (a b : ℚ) : (JsNum.fin a).mul (.fin b) = .fin (a * b) := rfl

@[simp] theorem JsNum.sub_fin (a b : ℚ) : (JsNum.fin a).sub (.fin b) = .fin (a - b) := by
  simp [JsNum.sub, JsNum.neg, sub_eq_add_neg]

theorem JsNum.zero_add (x : JsNum) : (JsNum.fin 0).add x = x := by
  cases x <;> simp [JsNum.add]

@[simp] theorem JsNum.add_nan (x : JsNum) : x.add .nan = .nan := by
  cases x <;> rfl

@[simp] theorem JsNum.nan_add (x : JsNum) : JsNum.nan.add x = .nan := by
  cases x <;> rfl

@[simp] theorem JsNum.nan_div (x : JsNum) : JsNum.nan.div x = .nan := by
  cases x <;> rfl

/-! ## useVolumeData -/

theorem volumeLoop_map_item (c : JsNum) (m : TsMap) (items : List VolumeItem) :
    (volumeLoop c m items).map (fun p => p.item) = items := by
  induction items generalizing c with
  | nil => rfl
  | cons it rest ih => simp [volumeLoop, ih]

/-- The object `cumulativeByTs` stays empty, so no point gets a moving average. -/
theorem volumeLoop_movingAverage_none (c : JsNum) (items : List VolumeItem) (p : VolumePoint)
    (hp : p ∈ volumeLoop c [] items) : p.movingAverageAll = none := by
  induction items generalizing c with
  | nil => simp [volumeLoop] at hp
  | cons it rest ih =>
    simp only [volumeLoop, List.mem_cons] at hp
    rcases hp with h | h
    · subst h
      simp [movingAverage, assocLookup]
    · exact ih _ h

theorem useVolumeData_movingAverage_none (strToNum : String → JsNum) (chainName : String)
    (volumeStats : List VolumeStat) (p : VolumePoint)
    (hp : p ∈ useVolumeData strToNum chainName volumeStats) : p.movingAverageAll = none :=
  volumeLoop_movingAverage_none _ _ p hp

theorem volumeLoop_head (c : JsNum) (m : TsMap) (items : List VolumeItem) (p : VolumePoint)
    (h : (volumeLoop c m items)[0]? = some p) : p.cumulative = c.add p.item.all := by
  cases items with
  | nil => simp [volumeLoop] at h
  | cons it rest =>
    simp [volumeLoop] at h
    subst h
    rfl

theorem volumeLoop_step (c : JsNum) (m : TsMap) (items : List VolumeItem) (i : Nat)
    (p q : VolumePoint) (hp : (volumeLoop c m items)[i]? = some p)
    (hq : (volumeLoop c m items)[i + 1]? = some q) :
    q.cumulative = p.cumulative.add q.item.all := by
  induction items generalizing c i with
  | nil => simp [volumeLoop] at hp
  | cons it rest ih =>
    cases i with
    | zero =>
      simp [volumeLoop] at hp hq
      subst hp
      exact volumeLoop_head _ m rest q (by simpa using hq)
    | succ i =>
      simp only [volumeLoop, List.getElem?_cons_succ] at hp hq
      exact ih _ i hp hq

theorem useVolumeData_items (strToNum : String → JsNum) (chainName : String)
    (volumeStats : List VolumeStat) :
    (useVolumeData strToNum chainName volumeStats).map (fun p => p.item) =
      (sortVolumeStats chainName volumeStats).map (volumeItem strToNum) :=
  volumeLoop_map_item _ _ _

theorem sortVolumeStats_perm (chainName : String) (volumeStats : List VolumeStat) :
    List.Perm (sortVolumeStats chainName volumeStats) volumeStats := by
  simp only [sortVolumeStats]
  split_ifs
  · exact List.perm_insertionSort _ _
  · exact List.perm_insertionSort _ _

/-- When the sort key is numeric, or all keys have the same number of decimal
digits, the sort is the numeric one. -/
theorem sortVolumeStats_numeric (chainName : String) (volumeStats : List VolumeStat)
    (h : chainName ≠ "arbitrum" ∨ ∀ x ∈ volumeStats, ∀ y ∈ volumeStats,
      (decimalDigits x.timestamp).length = (decimalDigits y.timestamp).length) :
    sortVolumeStats chainName volumeStats =
      volumeStats.insertionSort (fun a b => a.timestamp ≤ b.timestamp) := by
  simp only [sortVolumeStats]
  split_ifs with hc
  · rcases h with h | h
    · exact absurd hc h
    · have hmap := List.map_insertionSort
        (fun a b : VolumeStat => keyStringLE a.timestamp b.timestamp)
        (fun a b : VolumeStat => a.timestamp ≤ b.timestamp) id volumeStats
        (fun x hx y hy => keyStringLE_iff x.timestamp y.timestamp (h x hx y hy))
      simpa using hmap
  · rfl

theorem useVolumeData_timestamps (strToNum : String → JsNum) (chainName : String)
    (volumeStats : List VolumeStat) :
    (useVolumeData strToNum chainName volumeStats).map (fun p => p.item.timestamp) =
      (sortVolumeStats chainName volumeStats).map (fun s => s.timestamp) := by
  have := congrArg (List.map (fun it : VolumeItem => it.timestamp))
    (useVolumeData_items strToNum chainName volumeStats)
  simpa [List.map_map, Function.comp_def, volumeItem] using this

theorem useVolumeData_sorted (strToNum : String → JsNum) (chainName : String)
    (volumeStats : List VolumeStat)
    (h : chainName ≠ "arbitrum" ∨ ∀ x ∈ volumeStats, ∀ y ∈ volumeStats,
      (decimalDigits x.timestamp).length = (decimalDigits y.timestamp).length) :
    ((useVolumeData strToNum chainName volumeStats).map (fun p => p.item.timestamp)).Pairwise
      (fun a b => a ≤ b) := by
  rw [useVolumeData_timestamps, sortVolumeStats_numeric chainName volumeStats h,
    List.pairwise_map]
  exact List.sorted_insertionSort (fun a b : VolumeStat => a.timestamp ≤ b.timestamp) volumeStats

theorem volumeItem_all_of_fin (strToNum : String → JsNum) (item : VolumeStat) (m l s mi b : ℚ)
    (hm : toNumber strToNum (getField item.fields "margin") = .fin m)
    (hl : toNumber strToNum (getField item.fields "liquidation") = .fin l)
    (hs : toNumber strToNum (getField item.fields "swap") = .fin s)
    (hmi : toNumber strToNum (getField item.fields "mint") = .fin mi)
    (hb : toNumber strToNum (getField item.fields "burn") = .fin b) :
    (volumeItem strToNum item).all =
      .fin (m / 1000000000000000000000000000000 + l / 1000000000000000000000000000000 +
        s / 1000000000000000000000000000000 + mi / 1000000000000000000000000000000 +
        b / 1000000000000000000000000000000) := by
  simp [volumeItem, PROPS, volumePropStep, hm, hl, hs, hmi, hb, E30]

theorem volumeLoop_finite (c0 : ℚ) (m : TsMap) (items : List VolumeItem)
    (h : ∀ it ∈ items, ∃ q, it.all = .fin q) (p : VolumePoint)
    (hp : p ∈ volumeLoop (.fin c0) m items) : ∃ q, p.cumulative = .fin q := by
  induction items generalizing c0 with
  | nil => simp [volumeLoop] at hp
  | cons it rest ih =>
    obtain ⟨q, hq⟩ := h it (List.mem_cons_self _ _)
    simp only [volumeLoop, List.mem_cons] at hp
    rcases hp with hp | hp
    · subst hp
      exact ⟨c0 + q, by simp [hq]⟩
    · rw [hq] at hp
      exact ih (c0 + q) (fun it' h' => h it' (List.mem_cons_of_mem _ h')) hp

/-- When every record carries a finite number in each of the five categories,
`all` and `cumulative` are finite numbers at every output point. -/
theorem useVolumeData_finite (strToNum : String → JsNum) (chainName : String)
    (volumeStats : List VolumeStat)
    (h : ∀ item ∈ volumeStats, ∀ prop ∈ PROPS,
      ∃ q, toNumber strToNum (getField item.fields prop) = .fin q)
    (p : VolumePoint) (hp : p ∈ useVolumeData strToNum chainName volumeStats) :
    (∃ q, p.item.all = .fin q) ∧ (∃ q, p.cumulative = .fin q) := by
  have hitems : ∀ it ∈ (sortVolumeStats chainName volumeStats).map (volumeItem strToNum),
      ∃ q, it.all = .fin q := by
    intro it hit
    obtain ⟨item, hitem, rfl⟩ := List.mem_map.mp hit
    have hmem : item ∈ volumeStats :=
      (sortVolumeStats_perm chainName volumeStats).mem_iff.mp hitem
    obtain ⟨m, hm⟩ := h item hmem "margin" (by simp [PROPS])
    obtain ⟨l, hl⟩ := h item hmem "liquidation" (by simp [PROPS])
    obtain ⟨s, hs⟩ := h item hmem "swap" (by simp [PROPS])
    obtain ⟨mi, hmi⟩ := h item hmem "mint" (by simp [PROPS])
    obtain ⟨b, hb⟩ := h item hmem "burn" (by simp [PROPS])
    exact ⟨_, volumeItem_all_of_fin strToNum item m l s mi b hm hl hs hmi hb⟩
  refine ⟨?_, volumeLoop_finite 0 [] _ hitems p hp⟩
  have : p.item ∈ (useVolumeData strToNum chainName volumeStats).map (fun p => p.item) :=
    List.mem_map_of_mem _ hp
  rw [useVolumeData_items] at this
  exact hitems _ this

theorem sortVolumeStats_weekApart : sortVolumeStats "arbitrum" weekApart = weekApart := by
  have h : keyStringLE 1630368000 1630972800 := by decide
  simp [sortVolumeStats, weekApart, List.insertionSort, List.orderedInsert, h]

theorem sortVolumeStats_sparseScenario :
    sortVolumeStats "arbitrum" sparseScenario = sparseScenario := by
  have h : keyStringLE 0 86400 := by decide
  simp [sortVolumeStats, sparseScenario, List.insertionSort, List.orderedInsert, h]

/-! ## Statements: useVolumeData and useVolumeDataFromServer -/

/-- C5 (code at the failing input): for two daily records at timestamps
1630368000 and 1630972800 the output has a point at 1630972800 and an earlier
point at exactly 1630972800 - 604800, with cumulative 14 and 7, yet
`movingAverageAll` is undefined at both points (the claim gives
(14 - 7) / 7 = 1 at 1630972800). -/
theorem useVolumeData_movingAverage_undefined :
    (useVolumeData noStrings "arbitrum" weekApart).map
        (fun p => (p.item.timestamp, p.cumulative, p.movingAverageAll)) =
      [(1630368000, .fin 7, none), (1630972800, .fin 14, none)] := by
  rw [useVolumeData, sortVolumeStats_weekApart]
  simp [weekApart, categoryFields, volumeLoop, volumeItem, PROPS,
    volumePropStep, toNumber, getField, lookupField, JsVal.ofRat, E30, movingAverage, assocLookup]
  norm_num

/-- C6 (code at the failing input): for two `Swap` records of volume `7e30` at
timestamps 1630368000 and 1630972800 the output has cumulative 7 and 14, and
`movingAverageAll` at 1630972800 is 0, not (14 - 7) / 7 = 1: the average is taken
before the volume of the point itself is added to `cumulative`. -/
theorem useVolumeDataFromServer_movingAverage_lags :
    (useVolumeDataFromServer noStrings 1630368000 1700000000 serverWeek).map
        (fun p => (p.timestamp, p.all, p.cumulative, p.movingAverageAll)) =
      [(1630368000, .fin 7, .fin 7, none), (1630972800, .fin 7, .fin 14, some (.fin 0))] ∧
    ((JsNum.fin 14).sub (.fin 7)).div (.fin MOVING_AVERAGE_DAYS) = .fin 1 := by
  have hk : sortedServerKeys (serverWeek.foldl (serverReduceStep noStrings 1630368000 1700000000) []) =
      [1630368000, 1630972800] := by decide
  refine ⟨?_, ?_⟩
  · simp only [useVolumeDataFromServer, hk]
    simp [serverWeek, serverReduceStep, serverLoop, serverAll, movingAverage, assocLookup,
      assocSet, actionType, toNumber, orZero, JsVal.ofRat, E30, PROPS, JsNum.truthy, JsNum.add,
      JsNum.sub, JsNum.neg, JsNum.div, MOVING_AVERAGE_PERIOD, MOVING_AVERAGE_DAYS]
    norm_num
  · simp [MOVING_AVERAGE_DAYS]
    norm_num

/-- C8 (counterexample): on Arbitrum, where the records are sorted by their
`id` strings, two records with ids 86400 (volume 1) and 172800 (volume 2) come
out with 172800 first, because `"172800" < "86400"` as strings; the cumulative
sum runs in that order (2, then 3). -/
theorem useVolumeData_string_order :
    (useVolumeData noStrings "arbitrum" idLengths).map
        (fun p => (p.item.timestamp, p.item.all, p.cumulative)) =
      [(172800, .fin 2, .fin 2), (86400, .fin 1, .fin 3)] ∧
    digitsLT (decimalDigits 172800) (decimalDigits 86400) = true := by
  have h1 : ¬ keyStringLE 86400 172800 := by decide
  have hs : sortVolumeStats "arbitrum" idLengths =
      [ ⟨172800, categoryFields 2000000000000000000000000000000 0⟩,
        ⟨86400, categoryFields 1000000000000000000000000000000 0⟩ ] := by
    simp [sortVolumeStats, idLengths, List.insertionSort, List.orderedInsert, h1]
  refine ⟨?_, by decide⟩
  rw [useVolumeData, hs]
  simp [categoryFields, volumeLoop, volumeItem, PROPS, volumePropStep, toNumber, getField,
    lookupField, JsVal.ofRat, E30, movingAverage, assocLookup]
  norm_num

/-- C8 (amended): for every chain and `volumeStats` list the output of
`useVolumeData` has one point per record, `cumulative[0] = all[0]` and
`cumulative[i+1] = cumulative[i] + all[i+1]` at every later index, in output
order; the output is in ascending timestamp order when the chain is not Arbitrum
(the sort key is the numeric `timestamp`) or all ids have the same number of
decimal digits. -/
theorem useVolumeData_cumulative_law (strToNum : String → JsNum) (chainName : String)
    (volumeStats : List VolumeStat) :
    (useVolumeData strToNum chainName volumeStats).length = volumeStats.length ∧
    (∀ p, (useVolumeData strToNum chainName volumeStats)[0]? = some p →
      p.cumulative = p.item.all) ∧
    (∀ i p q, (useVolumeData strToNum chainName volumeStats)[i]? = some p →
      (useVolumeData strToNum chainName volumeStats)[i + 1]? = some q →
      q.cumulative = p.cumulative.add q.item.all) ∧
    ((chainName ≠ "arbitrum" ∨ ∀ x ∈ volumeStats, ∀ y ∈ volumeStats,
        (decimalDigits x.timestamp).length = (decimalDigits y.timestamp).length) →
      ((useVolumeData strToNum chainName volumeStats).map (fun p => p.item.timestamp)).Pairwise
        (fun a b => a ≤ b)) := by
  refine ⟨?_, ?_, ?_, useVolumeData_sorted strToNum chainName volumeStats⟩
  · have := congrArg List.length (useVolumeData_items strToNum chainName volumeStats)
    simpa [(sortVolumeStats_perm chainName volumeStats).length_eq] using this
  · intro p hp
    have := volumeLoop_head _ _ _ p hp
    rw [this, JsNum.zero_add]
  · intro i p q hp hq
    exact volumeLoop_step _ _ _ i p q hp hq

/-- C8 (witness of the amended statement): on Arbitrum, two records a week
apart (ids of ten digits) give `cumulative = 7, 14` from `all = 7, 7`, in
ascending timestamp order. -/
theorem useVolumeData_cumulative_law_witness :
    (useVolumeData noStrings "arbitrum" weekApart).map
        (fun p => (p.item.timestamp, p.item.all, p.cumulative)) =
      [(1630368000, .fin 7, .fin 7), (1630972800, .fin 7, .fin 14)] ∧
    (useVolumeData noStrings "arbitrum" weekApart).length = weekApart.length ∧
    ((useVolumeData noStrings "arbitrum" weekApart).map (fun p => p.item.timestamp)).Pairwise
      (fun a b => a ≤ b) := by
  refine ⟨?_, (useVolumeData_cumulative_law noStrings "arbitrum" weekApart).1,
    (useVolumeData_cumulative_law noStrings "arbitrum" weekApart).2.2.2 (Or.inr ?_)⟩
  · rw [useVolumeData, sortVolumeStats_weekApart]
    simp [weekApart, categoryFields, volumeLoop, volumeItem, PROPS, volumePropStep, toNumber,
      getField, lookupField, JsVal.ofRat, E30, movingAverage, assocLookup]
    norm_num
  · decide

/-- C9 (counterexample): on `[{timestamp:0,swap:100},{timestamp:86400,swap:50,
margin:10}]`, whose records lack some categories, `all` and `cumulative` are
`NaN` at both points, not 100, 60 and 100, 160. -/
theorem useVolumeData_missing_category_nan :
    (useVolumeData noStrings "arbitrum" sparseScenario).map
        (fun p => (p.item.timestamp, p.item.all, p.cumulative)) =
      [(0, .nan, .nan), (86400, .nan, .nan)] := by
  rw [useVolumeData, sortVolumeStats_sparseScenario]
  simp [sparseScenario, volumeLoop, volumeItem, PROPS,
    volumePropStep, toNumber, getField, lookupField, JsVal.ofRat, E30]

/-- C9 (amended): every raw record given to `useVolumeData` has an output point
whose `all` is the sum of the five categories margin, liquidation, swap, mint,
burn, each divided by `1e30`, whenever each of the five converts to a finite
number; when one of the five is missing from the record, `all` is `NaN`. -/
theorem useVolumeData_all_sum (strToNum : String → JsNum) (chainName : String)
    (volumeStats : List VolumeStat) (item : VolumeStat) (hitem : item ∈ volumeStats) :
    ∃ p ∈ useVolumeData strToNum chainName volumeStats, p.item = volumeItem strToNum item ∧
      (∀ m l s mi b : ℚ,
        toNumber strToNum (getField item.fields "margin") = .fin m →
        toNumber strToNum (getField item.fields "liquidation") = .fin l →
        toNumber strToNum (getField item.fields "swap") = .fin s →
        toNumber strToNum (getField item.fields "mint") = .fin mi →
        toNumber strToNum (getField item.fields "burn") = .fin b →
        p.item.all =
          .fin (m / 1000000000000000000000000000000 + l / 1000000000000000000000000000000 +
            s / 1000000000000000000000000000000 + mi / 1000000000000000000000000000000 +
            b / 1000000000000000000000000000000)) ∧
      (∀ prop ∈ PROPS, getField item.fields prop = .undefined → p.item.all = .nan) := by
  have hmem : volumeItem strToNum item ∈
      (useVolumeData strToNum chainName volumeStats).map (fun p => p.item) := by
    rw [useVolumeData_items]
    exact List.mem_map_of_mem _
      ((sortVolumeStats_perm chainName volumeStats).mem_iff.mpr hitem)
  obtain ⟨p, hp, hpi⟩ := List.mem_map.mp hmem
  refine ⟨p, hp, hpi, ?_, ?_⟩
  · intro m l s mi b hm hl hs hmi hb
    rw [hpi]
    exact volumeItem_all_of_fin strToNum item m l s mi b hm hl hs hmi hb
  · intro prop hprop hund
    rw [hpi]
    simp only [PROPS, List.mem_cons, List.mem_singleton, List.not_mem_nil, or_false] at hprop
    rcases hprop with h | h | h | h | h <;> subst h <;>
      simp [volumeItem, PROPS, volumePropStep, hund, toNumber]

/-- C9 (witness of the amended statement): the record `{timestamp:86400,
swap:50e30, margin:10e30}` with the other categories 0 has an output point with
`all = 60`. -/
theorem useVolumeData_all_sum_witness :
    ∃ p ∈ useVolumeData noStrings "arbitrum" fullScenario,
      p.item.timestamp = 86400 ∧ p.item.all = .fin 60 := by
  obtain ⟨p, hp, hpi, hsum, _⟩ := useVolumeData_all_sum noStrings "arbitrum" fullScenario
    ⟨86400, categoryFields 50000000000000000000000000000000 10000000000000000000000000000000⟩
    (by simp [fullScenario])
  refine ⟨p, hp, by rw [hpi]; rfl, ?_⟩
  rw [hsum 10000000000000000000000000000000 0 50000000000000000000000000000000 0 0
    rfl rfl rfl rfl rfl]
  norm_num

/-! ## Timestamp-keyed objects -/

theorem assocLookup_append {κ α : Type} [DecidableEq κ] (a b : List (κ × α)) (k : κ) :
    assocLookup (a ++ b) k =
      match assocLookup a k with
      | some v => some v
      | none => assocLookup b k := by
  induction a with
  | nil => simp [assocLookup]
  | cons e rest ih =>
    obtain ⟨k0, v0⟩ := e
    by_cases h : k0 = k <;> simp [assocLookup, h, ih]

theorem assocLookup_eq_none {κ α : Type} [DecidableEq κ] (l : List (κ × α)) (k : κ)
    (h : k ∉ l.map Prod.fst) : assocLookup l k = none := by
  induction l with
  | nil => rfl
  | cons e rest ih =>
    obtain ⟨k0, v0⟩ := e
    simp only [List.map_cons, List.mem_cons, not_or] at h
    have h0 : ¬ k0 = k := fun e => h.1 e.symm
    simp [assocLookup, h0, ih h.2]

theorem assocLookup_isSome {κ α : Type} [DecidableEq κ] (l : List (κ × α)) (k : κ) :
    (assocLookup l k).isSome = true ↔ k ∈ l.map Prod.fst := by
  induction l with
  | nil => simp [assocLookup]
  | cons e rest ih =>
    obtain ⟨k0, v0⟩ := e
    by_cases h : k0 = k
    · simp [assocLookup, h]
    · have h0 : ¬ k = k0 := fun e => h e.symm
      simp [assocLookup, h, h0, ih]

theorem assocLookup_of_mem {κ α : Type} [DecidableEq κ] (l : List (κ × α)) (k : κ) (v : α)
    (hnodup : (l.map Prod.fst).Nodup) (hmem : (k, v) ∈ l) : assocLookup l k = some v := by
  induction l with
  | nil => simp at hmem
  | cons e rest ih =>
    obtain ⟨k0, v0⟩ := e
    simp only [List.map_cons, List.nodup_cons] at hnodup
    simp only [List.mem_cons, Prod.mk.injEq] at hmem
    rcases hmem with ⟨h1, h2⟩ | h
    · simp [assocLookup, h1, h2]
    · have hk : k ∈ rest.map Prod.fst := List.mem_map.mpr ⟨(k, v), h, rfl⟩
      have h0 : ¬ k0 = k := fun e => hnodup.1 (e ▸ hk)
      simp [assocLookup, h0, ih hnodup.2 h]

theorem assocSet_of_not_mem {κ α : Type} [DecidableEq κ] (l : List (κ × α)) (k : κ) (v : α)
    (h : k ∉ l.map Prod.fst) : assocSet l k v = l ++ [(k, v)] := by
  induction l with
  | nil => rfl
  | cons e rest ih =>
    obtain ⟨k0, v0⟩ := e
    simp only [List.map_cons, List.mem_cons, not_or] at h
    have h0 : ¬ k0 = k := fun e => h.1 e.symm
    simp [assocSet, h0, ih h.2]

/-! ## useFeesData -/

theorem feesLoop_timestamps (c : JsNum) (m : TsMap) (groups : List (Nat × List FeeItem)) :
    (feesLoop c m groups).map (fun p => p.timestamp) = groups.map Prod.fst := by
  induction groups generalizing c m with
  | nil => rfl
  | cons g rest ih =>
    obtain ⟨t, vals⟩ := g
    simp [feesLoop, ih]

theorem cumulativeEntries_keys (c : JsNum) (m : TsMap) (groups : List (Nat × List FeeItem)) :
    (cumulativeEntries (feesLoop c m groups)).map Prod.fst =
      groups.map (fun g => (g.1 : Int)) := by
  have := congrArg (List.map (fun t : Nat => (t : Int))) (feesLoop_timestamps c m groups)
  simpa [cumulativeEntries, List.map_map, Function.comp_def] using this

/-- The moving average of a grouped point reads the entry that the buckets
before it (and the initial object) hold for `timestamp - MOVING_AVERAGE_PERIOD`. -/
theorem feesLoop_movingAverage (groups : List (Nat × List FeeItem)) (c : JsNum) (m : TsMap)
    (hsorted : (groups.map Prod.fst).Pairwise (fun a b => a < b))
    (hm : ∀ k ∈ m.map Prod.fst, ∀ t ∈ groups.map Prod.fst, k < (t : Int))
    (p : FeePoint) (hp : p ∈ feesLoop c m groups) :
    p.movingAverageAll =
      (assocLookup (m ++ cumulativeEntries (feesLoop c m groups))
        ((p.timestamp : Int) - (MOVING_AVERAGE_PERIOD : Int))).map
        (fun v => (p.cumulative.sub v).div (.fin MOVING_AVERAGE_DAYS)) := by
  induction groups generalizing c m with
  | nil => simp [feesLoop] at hp
  | cons g rest ih =>
    obtain ⟨t, vals⟩ := g
    simp only [List.map_cons, List.pairwise_cons] at hsorted
    have htm : (t : Int) ∉ m.map Prod.fst := by
      intro hmem
      have := hm _ hmem t (by simp)
      omega
    have hset : assocSet m (t : Int) (c.add (sumByAll vals)) =
        m ++ [((t : Int), c.add (sumByAll vals))] := assocSet_of_not_mem m _ _ htm
    simp only [feesLoop, List.mem_cons] at hp
    rcases hp with h | h
    · subst h
      have hlater : assocLookup
          (cumulativeEntries (feesLoop c m ((t, vals) :: rest)))
          ((t : Int) - (MOVING_AVERAGE_PERIOD : Int)) = none := by
        apply assocLookup_eq_none
        rw [cumulativeEntries_keys]
        simp only [List.map_cons, List.mem_cons, List.mem_map, not_or, not_exists, not_and]
        refine ⟨by simp [MOVING_AVERAGE_PERIOD, MOVING_AVERAGE_DAYS], ?_⟩
        intro g hg heq
        have := hsorted.1 g.1 (List.mem_map_of_mem _ hg)
        simp [MOVING_AVERAGE_PERIOD, MOVING_AVERAGE_DAYS] at heq
        omega
      rw [assocLookup_append, hlater]
      simp only [movingAverage]
      cases assocLookup m ((t : Int) - (MOVING_AVERAGE_PERIOD : Int)) <;> rfl
    · have hm' : ∀ k ∈ (assocSet m (t : Int) (c.add (sumByAll vals))).map Prod.fst,
          ∀ t' ∈ rest.map Prod.fst, k < (t' : Int) := by
        intro k hk t' ht'
        rw [hset] at hk
        simp only [List.map_append, List.map_cons, List.map_nil, List.mem_append,
          List.mem_singleton] at hk
        rcases hk with hk | hk
        · exact hm k hk t' (by simp [ht'])
        · subst hk
          exact_mod_cast hsorted.1 t' ht'
      have := ih _ _ hsorted.2 hm' h
      rw [this, hset]
      simp [feesLoop, cumulativeEntries, hset]

theorem mem_distinctKeys (ks : List Nat) (x : Nat) : x ∈ distinctKeys ks ↔ x ∈ ks := by
  induction ks with
  | nil => simp [distinctKeys]
  | cons k rest ih =>
    by_cases h : x = k
    · simp [distinctKeys, h]
    · simp [distinctKeys, h, ih]

theorem nodup_distinctKeys (ks : List Nat) : (distinctKeys ks).Nodup := by
  induction ks with
  | nil => simp [distinctKeys]
  | cons k rest ih =>
    simp only [distinctKeys, List.nodup_cons]
    exact ⟨by simp, ih.filter _⟩

/-- Below the array-index limit an object enumerates its names in ascending
numeric order. -/
theorem objectKeyOrder_of_bound (ks : List Nat) (h : ∀ k ∈ ks, k < ARRAY_INDEX_LIMIT) :
    objectKeyOrder ks = ks.insertionSort (fun a b => a ≤ b) := by
  have h1 : ks.filter (fun k => decide (k < ARRAY_INDEX_LIMIT)) = ks :=
    List.filter_eq_self.mpr (fun k hk => by simpa using h k hk)
  have h2 : ks.filter (fun k => !(decide (k < ARRAY_INDEX_LIMIT))) = [] :=
    List.filter_eq_nil_iff.mpr (fun k hk => by simpa using h k hk)
  simp [objectKeyOrder, h1, h2]

theorem groupByTimestamp_keys (chartData : List FeeItem) :
    (groupByTimestamp chartData).map Prod.fst =
      objectKeyOrder (distinctKeys (chartData.map (fun it => it.timestamp))) := by
  simp [groupByTimestamp, List.map_map, Function.comp_def]

theorem feesBuckets_timestamps (strToNum : String → JsNum) (feeStats : List FeeStat) :
    (feesBuckets strToNum feeStats).map (fun p => p.timestamp) =
      objectKeyOrder (distinctKeys
        (((sortFeeStats feeStats).map (feeItem strToNum)).map (fun it => it.timestamp))) := by
  rw [feesBuckets, feesLoop_timestamps, groupByTimestamp_keys]

theorem chartData_timestamp_mem (strToNum : String → JsNum) (feeStats : List FeeStat) (t : Nat) :
    t ∈ ((sortFeeStats feeStats).map (feeItem strToNum)).map (fun it => it.timestamp) ↔
      ∃ r ∈ feeStats, feeTimestamp r = t := by
  simp only [List.map_map, List.mem_map, Function.comp_def, feeItem, sortFeeStats]
  constructor
  · rintro ⟨r, hr, rfl⟩
    exact ⟨r, (List.perm_insertionSort _ feeStats).mem_iff.mp hr, rfl⟩
  · rintro ⟨r, hr, rfl⟩
    exact ⟨r, (List.perm_insertionSort _ feeStats).mem_iff.mpr hr, rfl⟩

/-- With every timestamp below the array-index limit the grouped buckets come
in strictly ascending timestamp order. -/
theorem feesBuckets_strictly_sorted (strToNum : String → JsNum) (feeStats : List FeeStat)
    (hbound : ∀ r ∈ feeStats, feeTimestamp r < ARRAY_INDEX_LIMIT) :
    ((feesBuckets strToNum feeStats).map (fun p => p.timestamp)).Pairwise (fun a b => a < b) := by
  rw [feesBuckets_timestamps, objectKeyOrder_of_bound]
  · apply List.Sorted.lt_of_le
    · exact List.sorted_insertionSort (fun a b : Nat => a ≤ b) _
    · exact (List.perm_insertionSort _ _).nodup_iff.mpr (nodup_distinctKeys _)
  · intro k hk
    rw [mem_distinctKeys, chartData_timestamp_mem] at hk
    obtain ⟨r, hr, rfl⟩ := hk
    exact hbound r hr

/-- C7: with the timestamps in the range of array indices (unix seconds before
the year 2106), a grouped bucket of `useFeesData` at `T` has `movingAverageAll`
defined exactly when a grouped bucket at `T - 604800` exists; it is then
`(cumulative[T] - cumulative[T - 604800]) / 7`, and otherwise absent; the
transform returns the grouped buckets with `timestamp >= from`. -/
theorem useFeesData_movingAverage (strToNum : String → JsNum) (fromTs : Nat)
    (feeStats : List FeeStat)
    (hbound : ∀ r ∈ feeStats, feeTimestamp r < ARRAY_INDEX_LIMIT)
    (p : FeePoint) (hp : p ∈ feesBuckets strToNum feeStats) :
    (p.movingAverageAll.isSome = true ↔
      ∃ q ∈ feesBuckets strToNum feeStats, (q.timestamp : Int) = (p.timestamp : Int) - 604800) ∧
    (∀ q ∈ feesBuckets strToNum feeStats, (q.timestamp : Int) = (p.timestamp : Int) - 604800 →
      p.movingAverageAll = some ((p.cumulative.sub q.cumulative).div (.fin 7))) ∧
    ((∀ q ∈ feesBuckets strToNum feeStats, (q.timestamp : Int) ≠ (p.timestamp : Int) - 604800) →
      p.movingAverageAll = none) ∧
    useFeesData strToNum fromTs feeStats =
      (feesBuckets strToNum feeStats).filter (fun q => decide (q.timestamp ≥ fromTs)) := by
  have hsorted := feesBuckets_strictly_sorted strToNum feeStats hbound
  have hsorted' : ((groupByTimestamp ((sortFeeStats feeStats).map (feeItem strToNum))).map
      Prod.fst).Pairwise (fun a b => a < b) := by
    rw [feesBuckets, feesLoop_timestamps] at hsorted
    exact hsorted
  have hma := feesLoop_movingAverage _ (.fin 0) [] hsorted' (by simp) p hp
  simp only [List.nil_append] at hma
  have hma' : p.movingAverageAll =
      (assocLookup (cumulativeEntries (feesBuckets strToNum feeStats))
        ((p.timestamp : Int) - 604800)).map
        (fun v => (p.cumulative.sub v).div (.fin 7)) := by
    simpa [feesBuckets, MOVING_AVERAGE_PERIOD, MOVING_AVERAGE_DAYS] using hma
  have hnodup : ((cumulativeEntries (feesBuckets strToNum feeStats)).map Prod.fst).Nodup := by
    have h1 : (cumulativeEntries (feesBuckets strToNum feeStats)).map Prod.fst =
        ((feesBuckets strToNum feeStats).map (fun p => p.timestamp)).map
          (fun t : Nat => (t : Int)) := by
      simp [cumulativeEntries, List.map_map, Function.comp_def]
    rw [h1]
    exact (hsorted.imp (fun h => Nat.ne_of_lt h)).map _
      (fun a b hab h => hab (by exact_mod_cast h))
  have hkeys : ∀ x : Int, x ∈ (cumulativeEntries (feesBuckets strToNum feeStats)).map Prod.fst ↔
      ∃ q ∈ feesBuckets strToNum feeStats, (q.timestamp : Int) = x := by
    intro x
    simp [cumulativeEntries, List.map_map, Function.comp_def]
  have hval : ∀ q ∈ feesBuckets strToNum feeStats,
      (q.timestamp : Int) = (p.timestamp : Int) - 604800 →
      p.movingAverageAll = some ((p.cumulative.sub q.cumulative).div (.fin 7)) := by
    intro q hq heq
    have hmem : (((q.timestamp : Int)), q.cumulative) ∈
        cumulativeEntries (feesBuckets strToNum feeStats) :=
      List.mem_map.mpr ⟨q, hq, rfl⟩
    rw [hma', ← heq, assocLookup_of_mem _ _ _ hnodup hmem]
    rfl
  refine ⟨?_, hval, ?_, rfl⟩
  · have hsome : p.movingAverageAll.isSome =
        (assocLookup (cumulativeEntries (feesBuckets strToNum feeStats))
          ((p.timestamp : Int) - 604800)).isSome := by
      rw [hma']
      cases assocLookup (cumulativeEntries (feesBuckets strToNum feeStats))
        ((p.timestamp : Int) - 604800) <;> rfl
    rw [hsome, assocLookup_isSome, hkeys]
  · intro hnone
    rw [hma', assocLookup_eq_none]
    · rfl
    · rw [hkeys]
      rintro ⟨q, hq, heq⟩
      exact hnone q hq heq

/-- The grouped buckets of two fee records a week apart. -/
theorem feesBuckets_feeWeek :
    feesBuckets noStrings feeWeek =
      [ { timestamp := 1630368000, all := .fin 5, cumulative := .fin 5, movingAverageAll := none,
          props := PROPS.map (fun prop => (prop, some (.fin 1))) },
        { timestamp := 1630972800, all := .fin 5, cumulative := .fin 10,
          movingAverageAll := some (.fin (5 / 7)),
          props := PROPS.map (fun prop => (prop, some (.fin 1))) } ] := by
  have hg : groupByTimestamp ((sortFeeStats feeWeek).map (feeItem noStrings)) =
      [ (1630368000, [feeItem noStrings ⟨1630368000, none, unitFeeFields⟩]),
        (1630972800, [feeItem noStrings ⟨1630972800, none, unitFeeFields⟩]) ] := by
    have hk : keyStringLE 1630368000 1630972800 := by decide
    simp [groupByTimestamp, sortFeeStats, feeWeek, feeItem, feeTimestamp, distinctKeys,
      objectKeyOrder, ARRAY_INDEX_LIMIT, hk]
  rw [feesBuckets, hg]
  simp [feesLoop, sumByAll, sumByProp, movingAverage, assocLookup, assocSet,
    MOVING_AVERAGE_PERIOD, MOVING_AVERAGE_DAYS, PROPS, feeItem, feeProps, unitFeeFields, getField,
    lookupField, JsVal.truthy, JsNum.truthy, JsVal.ofRat, toNumber, E30, readNum]
  norm_num

/-- C7 (witness): of two daily fee records a week apart, each with fees 5, the
bucket at 1630972800 has the moving average (10 - 5) / 7 and the bucket at
1630368000 has none. -/
theorem useFeesData_movingAverage_witness :
    ∃ p ∈ feesBuckets noStrings feeWeek, p.timestamp = 1630972800 ∧
      p.movingAverageAll = some (.fin (5 / 7)) ∧
      (p.movingAverageAll.isSome = true ↔
        ∃ q ∈ feesBuckets noStrings feeWeek,
          (q.timestamp : Int) = (p.timestamp : Int) - 604800) := by
  refine ⟨{ timestamp := 1630972800, all := .fin 5, cumulative := .fin 10,
            movingAverageAll := some (.fin (5 / 7)),
            props := PROPS.map (fun prop => (prop, some (.fin 1))) }, ?_, rfl, rfl, ?_⟩
  · rw [feesBuckets_feeWeek]
    simp
  · exact (useFeesData_movingAverage noStrings 0 feeWeek (by decide) _
      (by rw [feesBuckets_feeWeek]; simp)).1

/-! ## useAumPerformanceData -/

theorem aumRatiosFrom_getElem (strToNum : String → JsNum) (dailyCoef : JsNum)
    (glpData : List Record) (volumeData : List VolumePoint) (feesData : List FeePoint)
    (k i : Nat) (feeItem : FeePoint) (h : feesData[i]? = some feeItem) :
    (aumRatiosFrom strToNum dailyCoef glpData volumeData k feesData)[i]? =
      some { timestamp := feeItem.timestamp
             apr := aprAt strToNum dailyCoef feeItem.all glpData[k + i]?
             usage := usageAt strToNum dailyCoef
               (volumeData[k + i]?.map (fun v => v.item.all)) glpData[k + i]? } := by
  induction feesData generalizing k i with
  | nil => simp at h
  | cons f rest ih =>
    cases i with
    | zero =>
      simp at h
      subst h
      simp [aumRatiosFrom]
    | succ i =>
      simp only [List.getElem?_cons_succ] at h
      have := ih (k + 1) i h
      simpa [aumRatiosFrom, Nat.add_assoc, Nat.add_comm 1 i] using this

/-- C10: at every index where the fee total and the pool AUM are non-zero
numbers and `fee.all / aum * 100 * 365 * (86400 / groupPeriod)` does not exceed
10000, `apr` is that value. -/
theorem useAumPerformanceData_apr (strToNum : String → JsNum) (groupPeriod : JsVal)
    (feesData : List FeePoint) (glpData : List Record) (volumeData : List VolumePoint)
    (i : Nat) (feeItem : FeePoint) (glpItem : Record) (aum : JsNum)
    (hfee : feesData[i]? = some feeItem) (hglp : glpData[i]? = some glpItem)
    (haum : getField glpItem "aum" = .num aum)
    (hfeeNonzero : feeItem.all ≠ .fin 0) (hfeeNumber : feeItem.all ≠ .nan)
    (haumNonzero : aum ≠ .fin 0) (haumNumber : aum ≠ .nan)
    (hceiling : ((((feeItem.all.div aum).mul (.fin 100)).mul (.fin 365)).mul
      ((JsNum.fin 86400).div (toNumber strToNum groupPeriod))).gt (.fin 10000) = false) :
    ∃ pt, (useAumPerformanceData strToNum groupPeriod feesData glpData volumeData)[i]? = some pt ∧
      pt.timestamp = feeItem.timestamp ∧
      pt.apr = some ((((feeItem.all.div aum).mul (.fin 100)).mul (.fin 365)).mul
        ((JsNum.fin 86400).div (toNumber strToNum groupPeriod))) := by
  have h1 := aumRatiosFrom_getElem strToNum ((JsNum.fin 86400).div (toNumber strToNum groupPeriod))
    glpData volumeData feesData 0 i feeItem hfee
  have hft : feeItem.all.truthy = true := by
    cases hx : feeItem.all with
    | nan => exact absurd hx hfeeNumber
    | fin q =>
      have : q ≠ 0 := fun h0 => hfeeNonzero (by rw [hx, h0])
      simp [JsNum.truthy, this]
    | posInf => rfl
    | negInf => rfl
  have hat : aum.truthy = true := by
    cases hx : aum with
    | nan => exact absurd hx haumNumber
    | fin q =>
      have : q ≠ 0 := fun h0 => haumNonzero (by rw [hx, h0])
      simp [JsNum.truthy, this]
    | posInf => rfl
    | negInf => rfl
  have h2 := congrArg (Option.map (fun pt : AumPoint => (pt.timestamp, pt.apr)))
    (show (useAumPerformanceData strToNum groupPeriod feesData glpData volumeData)[i]? = _ from
      List.getElem?_map _ _ _)
  rw [h1] at h2
  cases hpt : (useAumPerformanceData strToNum groupPeriod feesData glpData volumeData)[i]? with
  | none => simp [hpt] at h2
  | some pt =>
    rw [hpt] at h2
    simp only [Option.map_some', Option.some.injEq, Prod.mk.injEq] at h2
    refine ⟨pt, rfl, h2.1, ?_⟩
    have htn : toNumber strToNum (JsVal.num aum) = aum := rfl
    rw [h2.2]
    simp [aprAt, aumOf, hglp, haum, JsVal.truthy, hft, hat, htn, nullAbove, hceiling]

/-- C10 (witness): fees 10, AUM 1000 and `groupPeriod = 86400` give `apr = 365`. -/
theorem useAumPerformanceData_apr_witness :
    ∃ pt, (useAumPerformanceData noStrings (.ofRat 86400) [feeTen] [aumThousand] [])[0]? =
        some pt ∧ pt.apr = some (.fin 365) := by
  have h365 : ((((JsNum.fin 10).div (.fin 1000)).mul (.fin 100)).mul (.fin 365)).mul
      ((JsNum.fin 86400).div (toNumber noStrings (.ofRat 86400))) = .fin 365 := by
    simp [toNumber, JsVal.ofRat]
    norm_num
  obtain ⟨pt, h1, _, h3⟩ := useAumPerformanceData_apr noStrings (.ofRat 86400) [feeTen]
    [aumThousand] [] 0 feeTen aumThousand (.fin 1000) rfl rfl rfl (by decide) (by decide)
    (by decide) (by decide) (by rw [show feeTen.all = .fin 10 from rfl, h365]; decide)
  exact ⟨pt, h1, by rw [h3, show feeTen.all = .fin 10 from rfl, h365]⟩

theorem useAumPerformanceData_length (strToNum : String → JsNum) (groupPeriod : JsVal)
    (feesData : List FeePoint) (glpData : List Record) (volumeData : List VolumePoint) :
    (useAumPerformanceData strToNum groupPeriod feesData glpData volumeData).length =
      feesData.length := by
  have h : ∀ (d : JsNum) (k : Nat) (fs : List FeePoint),
      (aumRatiosFrom strToNum d glpData volumeData k fs).length = fs.length := by
    intro d k fs
    induction fs generalizing k with
    | nil => rfl
    | cons f rest ih => simp [aumRatiosFrom, ih]
  simp [useAumPerformanceData, h]

/-- The output point at index `i` is built from the fee point, the pool point
and the volume point at the same index `i`. -/
theorem useAumPerformanceData_getElem (strToNum : String → JsNum) (groupPeriod : JsVal)
    (feesData : List FeePoint) (glpData : List Record) (volumeData : List VolumePoint)
    (i : Nat) (feeItem : FeePoint) (hfee : feesData[i]? = some feeItem) :
    ∃ pt, (useAumPerformanceData strToNum groupPeriod feesData glpData volumeData)[i]? = some pt ∧
      pt.timestamp = feeItem.timestamp ∧
      pt.apr = aprAt strToNum ((JsNum.fin 86400).div (toNumber strToNum groupPeriod))
        feeItem.all glpData[i]? ∧
      pt.usage = usageAt strToNum ((JsNum.fin 86400).div (toNumber strToNum groupPeriod))
        (volumeData[i]?.map (fun v => v.item.all)) glpData[i]? := by
  have h1 := aumRatiosFrom_getElem strToNum ((JsNum.fin 86400).div (toNumber strToNum groupPeriod))
    glpData volumeData feesData 0 i feeItem hfee
  have h2 := congrArg (Option.map (fun pt : AumPoint => (pt.timestamp, pt.apr, pt.usage)))
    (show (useAumPerformanceData strToNum groupPeriod feesData glpData volumeData)[i]? = _ from
      List.getElem?_map _ _ _)
  rw [h1] at h2
  cases hpt : (useAumPerformanceData strToNum groupPeriod feesData glpData volumeData)[i]? with
  | none => simp [hpt] at h2
  | some pt =>
    rw [hpt] at h2
    simp only [Option.map_some', Option.some.injEq, Prod.mk.injEq, Nat.zero_add] at h2
    exact ⟨pt, rfl, h2.1, h2.2.1, h2.2.2⟩

theorem nullAbove_cases (x : Option JsNum) :
    nullAbove x = none ∨ ∃ v, nullAbove x = some v ∧ v.gt (.fin 10000) = false := by
  cases x with
  | none => exact Or.inl rfl
  | some v =>
    by_cases h : v.gt (.fin 10000) = true
    · exact Or.inl (by simp [nullAbove, h])
    · exact Or.inr ⟨v, by simp [nullAbove, h], by simpa using h⟩

theorem nullAbove_fin (q : ℚ) :
    nullAbove (some (.fin q)) = none ∨ (q ≤ 10000 ∧ nullAbove (some (.fin q)) = some (.fin q)) := by
  by_cases h : (10000 : ℚ) < q
  · exact Or.inl (by simp [nullAbove, JsNum.gt, h])
  · exact Or.inr ⟨le_of_not_lt h, by simp [nullAbove, JsNum.gt, h]⟩

theorem aprAt_of_falsy_aum (strToNum : String → JsNum) (d feeAll : JsNum) (glpItem : Option Record)
    (h : (aumOf glpItem).truthy = false) : aprAt strToNum d feeAll glpItem = none := by
  simp [aprAt, h, nullAbove]

theorem usageAt_of_falsy_aum (strToNum : String → JsNum) (d : JsNum) (volumeAll : Option JsNum)
    (glpItem : Option Record) (h : (aumOf glpItem).truthy = false) :
    usageAt strToNum d volumeAll glpItem = none := by
  cases volumeAll <;> simp [usageAt, h, nullAbove]

/-- With finite operands and a finite non-zero `groupPeriod` the ratio is a
finite number. -/
theorem ratio_fin (f a g : ℚ) (hg : g ≠ 0) (ha : a ≠ 0) :
    ((((JsNum.fin f).div (.fin a)).mul (.fin 100)).mul (.fin 365)).mul
        ((JsNum.fin 86400).div (.fin g)) = .fin (f / a * 100 * 365 * (86400 / g)) ∧
    (((JsNum.fin f).div (.fin a)).mul (.fin 100)).mul ((JsNum.fin 86400).div (.fin g)) =
      .fin (f / a * 100 * (86400 / g)) := by
  simp [JsNum.div, hg, ha, JsNum.mul]

/-- A number that fails the test `> c` is `NaN`, `-Infinity` or a finite number
at most `c`. -/
theorem gt_false_cases (x : JsNum) (c : ℚ) (h : x.gt (.fin c) = false) :
    x = .nan ∨ x = .negInf ∨ ∃ q : ℚ, q ≤ c ∧ x = .fin q := by
  cases x with
  | nan => exact Or.inl rfl
  | fin q =>
    right
    right
    exact ⟨q, by simpa [JsNum.gt] using h, rfl⟩
  | posInf => simp [JsNum.gt] at h
  | negInf => exact Or.inr (Or.inl rfl)

theorem nullAbove_values (x : Option JsNum) :
    nullAbove x = none ∨ nullAbove x = some .nan ∨ nullAbove x = some .negInf ∨
      ∃ q : ℚ, q ≤ 10000 ∧ nullAbove x = some (.fin q) := by
  rcases nullAbove_cases x with h | ⟨v, hv, hgt⟩
  · exact Or.inl h
  · rcases gt_false_cases v 10000 hgt with h | h | ⟨q, hq, h⟩
    · exact Or.inr (Or.inl (by rw [hv, h]))
    · exact Or.inr (Or.inr (Or.inl (by rw [hv, h])))
    · exact Or.inr (Or.inr (Or.inr ⟨q, hq, by rw [hv, h]⟩))

/-- C11 (counterexample): with `groupPeriod` left out (`undefined`), fees 10 and
a pool point `{ aum: 1000 }`, `dailyCoef = 86400 / undefined` is `NaN` and the
output point has `apr = NaN`: the test `NaN > 10000` is false, so the value is
kept. -/
theorem useAumPerformanceData_apr_nan :
    (useAumPerformanceData noStrings .undefined [feeTen] [aumThousand] []).map
        (fun pt => (pt.apr, pt.usage)) = [(some .nan, none)] ∧
    (JsNum.fin 86400).div (toNumber noStrings .undefined) = .nan ∧
    JsNum.gt .nan (.fin 10000) = false := by
  refine ⟨?_, rfl, rfl⟩
  simp [useAumPerformanceData, aumRatiosFrom, aprAt, usageAt, nullAbove, aumOf, feeTen,
    aumThousand, getField, lookupField, JsVal.ofRat, JsVal.truthy, JsNum.truthy, toNumber,
    JsNum.div, JsNum.mul, JsNum.gt]

/-- C11 (amended): every output point of `useAumPerformanceData` has `apr` null,
`NaN`, `-Infinity` or a finite number at most 10000, and the same for `usage`
(never `+Infinity`, never a number above 10000); both are null when the pool AUM
at that index is falsy (the pool point is missing, or its `aum` is absent, null,
0 or `NaN`); and with a finite fee total, volume, AUM and a finite non-zero
`groupPeriod`, `apr` and `usage` are null or a finite number at most 10000. -/
theorem useAumPerformanceData_ceiling (strToNum : String → JsNum) (groupPeriod : JsVal)
    (feesData : List FeePoint) (glpData : List Record) (volumeData : List VolumePoint)
    (i : Nat) (pt : AumPoint)
    (hpt : (useAumPerformanceData strToNum groupPeriod feesData glpData volumeData)[i]? =
      some pt) :
    (pt.apr = none ∨ pt.apr = some .nan ∨ pt.apr = some .negInf ∨
      ∃ q : ℚ, q ≤ 10000 ∧ pt.apr = some (.fin q)) ∧
    (pt.usage = none ∨ pt.usage = some .nan ∨ pt.usage = some .negInf ∨
      ∃ q : ℚ, q ≤ 10000 ∧ pt.usage = some (.fin q)) ∧
    ((aumOf glpData[i]?).truthy = false → pt.apr = none ∧ pt.usage = none) ∧
    (∀ g a : ℚ, toNumber strToNum groupPeriod = .fin g → g ≠ 0 →
      aumOf glpData[i]? = .num (.fin a) →
      (∀ feeItem f, feesData[i]? = some feeItem → feeItem.all = .fin f →
        pt.apr = none ∨ ∃ q, q ≤ 10000 ∧ pt.apr = some (.fin q)) ∧
      (∀ v w, volumeData[i]? = some v → v.item.all = .fin w →
        pt.usage = none ∨ ∃ q, q ≤ 10000 ∧ pt.usage = some (.fin q))) := by
  have hlt : i < feesData.length := by
    have := (List.getElem?_eq_some_iff.mp hpt).1
    rwa [useAumPerformanceData_length] at this
  obtain ⟨pt', hpt', _, hapr, husage⟩ := useAumPerformanceData_getElem strToNum groupPeriod
    feesData glpData volumeData i feesData[i] (List.getElem?_eq_getElem hlt)
  rw [hpt] at hpt'
  cases hpt'
  refine ⟨?_, ?_, ?_, ?_⟩
  · rw [hapr]
    exact nullAbove_values _
  · rw [husage]
    exact nullAbove_values _
  · intro h
    exact ⟨by rw [hapr]; exact aprAt_of_falsy_aum _ _ _ _ h,
      by rw [husage]; exact usageAt_of_falsy_aum _ _ _ _ h⟩
  · intro g a hg hg0 ha
    have htn : toNumber strToNum (JsVal.num (.fin a)) = .fin a := rfl
    refine ⟨?_, ?_⟩
    · intro feeItem f hfee hf
      rw [List.getElem?_eq_getElem hlt] at hfee
      cases hfee
      rw [hapr, hf]
      by_cases hcond : ((JsNum.fin f).truthy && (aumOf glpData[i]?).truthy) = true
      · have ha0 : a ≠ 0 := by
          intro h0
          simp [ha, h0, JsVal.truthy, JsNum.truthy] at hcond
        rw [ha] at hcond
        simp only [aprAt, hcond, if_true, ha, htn, hg, (ratio_fin f a g hg0 ha0).1]
        rcases nullAbove_fin (f / a * 100 * 365 * (86400 / g)) with h | ⟨h1, h2⟩
        · exact Or.inl h
        · exact Or.inr ⟨_, h1, h2⟩
      · left
        simp only [aprAt, hcond]
        rfl
    · intro v w hv hw
      rw [husage, hv]
      simp only [Option.map_some', hw]
      by_cases hcond : ((JsNum.fin w).truthy && (aumOf glpData[i]?).truthy) = true
      · have ha0 : a ≠ 0 := by
          intro h0
          simp [ha, h0, JsVal.truthy, JsNum.truthy] at hcond
        rw [ha] at hcond
        simp only [usageAt, hcond, if_true, ha, htn, hg, (ratio_fin w a g hg0 ha0).2]
        rcases nullAbove_fin (w / a * 100 * (86400 / g)) with h | ⟨h1, h2⟩
        · exact Or.inl h
        · exact Or.inr ⟨_, h1, h2⟩
      · left
        simp only [usageAt, hcond]
        rfl

/-- C11 (witness of the amended statement): with fees 10 and a pool point
`{ aum: 0 }` the output point has `apr` and `usage` null. -/
theorem useAumPerformanceData_ceiling_witness :
    ∃ pt, (useAumPerformanceData noStrings (.ofRat 86400) [feeTen] [aumZero] [])[0]? = some pt ∧
      pt.apr = none ∧ pt.usage = none := by
  obtain ⟨pt, hpt, _⟩ := useAumPerformanceData_getElem noStrings (.ofRat 86400) [feeTen]
    [aumZero] [] 0 feeTen rfl
  exact ⟨pt, hpt,
    (useAumPerformanceData_ceiling noStrings (.ofRat 86400) [feeTen] [aumZero] [] 0 pt hpt).2.2.1
      (by decide)⟩

/-- C12 (counterexample): with a fee series that starts at 172800 and a pool
series with points at 86400 (AUM 1000) and 172800 (AUM 2000), the output point
at timestamp 172800 has `apr = 365`, computed from the AUM 1000 of the pool
point at 86400; the AUM 2000 of the pool point at 172800 would give 182.5. -/
theorem useAumPerformanceData_joins_misaligned :
    (useAumPerformanceData noStrings (.ofRat 86400) lateFees twoDayPool []).map
        (fun pt => (pt.timestamp, pt.apr)) = [(172800, some (.fin 365))] ∧
    twoDayPool.map (fun g => (getField g "timestamp", getField g "aum")) =
      [(.ofRat 86400, .ofRat 1000), (.ofRat 172800, .ofRat 2000)] ∧
    ((((JsNum.fin 10).div (.fin 2000)).mul (.fin 100)).mul (.fin 365)).mul
        ((JsNum.fin 86400).div (.fin 86400)) = .fin (365 / 2) := by
  refine ⟨?_, by decide, ?_⟩
  · simp [useAumPerformanceData, lateFees, twoDayPool, aumRatiosFrom, aprAt, aumOf, getField,
      lookupField, JsVal.ofRat, JsVal.truthy, JsNum.truthy, toNumber, nullAbove, JsNum.gt]
    norm_num
  · simp
    norm_num

/-- C12 (amended): `useAumPerformanceData` joins its three series by position:
the output has one point per fee point, the point at index `i` has the timestamp
of fee point `i`, and its `apr` and `usage` are computed from the pool point and
the volume point at the same index `i`, whatever their timestamps. -/
theorem useAumPerformanceData_joins_by_index (strToNum : String → JsNum) (groupPeriod : JsVal)
    (feesData : List FeePoint) (glpData : List Record) (volumeData : List VolumePoint)
    (i : Nat) (feeItem : FeePoint) (hfee : feesData[i]? = some feeItem) :
    (useAumPerformanceData strToNum groupPeriod feesData glpData volumeData).length =
      feesData.length ∧
    ∃ pt, (useAumPerformanceData strToNum groupPeriod feesData glpData volumeData)[i]? = some pt ∧
      pt.timestamp = feeItem.timestamp ∧
      pt.apr = aprAt strToNum ((JsNum.fin 86400).div (toNumber strToNum groupPeriod))
        feeItem.all glpData[i]? ∧
      pt.usage = usageAt strToNum ((JsNum.fin 86400).div (toNumber strToNum groupPeriod))
        (volumeData[i]?.map (fun v => v.item.all)) glpData[i]? :=
  ⟨useAumPerformanceData_length strToNum groupPeriod feesData glpData volumeData,
    useAumPerformanceData_getElem strToNum groupPeriod feesData glpData volumeData i feeItem hfee⟩

/-- C12 (witness of the amended statement): the fee point at 172800, at index
0, is joined with the pool point at index 0. -/
theorem useAumPerformanceData_joins_by_index_witness :
    ∃ pt, (useAumPerformanceData noStrings (.ofRat 86400) lateFees twoDayPool [])[0]? = some pt ∧
      pt.timestamp = 172800 ∧
      pt.apr = aprAt noStrings ((JsNum.fin 86400).div (toNumber noStrings (.ofRat 86400)))
        (.fin 10) twoDayPool[0]? := by
  obtain ⟨pt, h1, h2, h3, _⟩ := (useAumPerformanceData_joins_by_index noStrings (.ofRat 86400)
    lateFees twoDayPool [] 0
    { timestamp := 172800, all := .fin 10, cumulative := .fin 10, movingAverageAll := none,
      props := [] } rfl).2
  exact ⟨pt, h1, h2, h3⟩

/-! ## useSwapSources -/

theorem assocLookup_assocSet {κ α : Type} [DecidableEq κ] (l : List (κ × α)) (k k' : κ) (v : α) :
    assocLookup (assocSet l k v) k' = if k = k' then some v else assocLookup l k' := by
  induction l with
  | nil => simp [assocSet, assocLookup]
  | cons e rest ih =>
    obtain ⟨a, w⟩ := e
    by_cases h : a = k
    · subst h
      by_cases h' : a = k' <;> simp [assocSet, assocLookup, h']
    · by_cases h' : a = k'
      · subst h'
        have : ¬ k = a := fun e => h e.symm
        simp [assocSet, assocLookup, h, this]
      · simp [assocSet, assocLookup, h, h', ih]

/-- The entry of a name after the bucket callback has run over `items`. -/
theorem sourceBucket_lookup (strToNum : String → JsNum) (top : List String)
    (mapping : List (String × String)) (name : String) (items : List SourceRecord)
    (st : List (String × JsNum) × JsNum) :
    assocLookup (items.foldl (sourceBucketStep strToNum top mapping) st).1 name =
      nameFold strToNum (fun r => classifySource top mapping r.source)
        (fun r => looseNeZero strToNum r.swap) name (assocLookup st.1 name) items := by
  induction items generalizing st with
  | nil => rfl
  | cons r rest ih =>
    rw [List.foldl_cons, ih]
    simp only [nameFold, List.foldl_cons]
    congr 1
    by_cases hz : looseNeZero strToNum r.swap = true
    · by_cases hc : classifySource top mapping r.source = name
      · simp [sourceBucketStep, hz, hc, assocLookup_assocSet]
      · simp [sourceBucketStep, hz, hc, assocLookup_assocSet]
    · simp [sourceBucketStep, hz]

/-- The entry of a name in `totalVolumeBySource` after the callback has run
over `items`. -/
theorem totalVolume_lookup (strToNum : String → JsNum) (mapping : List (String × String))
    (name : String) (items : List SourceRecord) (acc : List (String × JsNum)) :
    assocLookup (items.foldl (totalVolumeStep strToNum mapping) acc) name =
      nameFold strToNum (fun r => resolveSource mapping r.source) (fun _ => true) name
        (assocLookup acc name) items := by
  induction items generalizing acc with
  | nil => rfl
  | cons r rest ih =>
    rw [List.foldl_cons, ih]
    simp only [nameFold, List.foldl_cons]
    congr 1
    by_cases hc : resolveSource mapping r.source = name
    · simp [totalVolumeStep, hc, assocLookup_assocSet]
    · simp [totalVolumeStep, hc, assocLookup_assocSet]

theorem toNumber_of_not_looseNeZero (strToNum : String → JsNum) (v : JsVal)
    (h : looseNeZero strToNum v = false) : toNumber strToNum v = .fin 0 := by
  cases v <;> simp_all [looseNeZero]

theorem swapRat_of_not_looseNeZero (strToNum : String → JsNum) (r : SourceRecord)
    (h : looseNeZero strToNum r.swap = false) : swapRat strToNum r = 0 := by
  simp [swapRat, toNumber_of_not_looseNeZero strToNum r.swap h]

theorem swapVolume_fin (strToNum : String → JsNum) (r : SourceRecord) (q : ℚ)
    (h : toNumber strToNum r.swap = .fin q) :
    swapVolume strToNum r = .fin (swapRat strToNum r / 1000000000000000000000000000000) := by
  simp [swapVolume, swapRat, h, E30]

theorem orZero_fin (s : ℚ) : orZero (some (.fin s)) = .fin s := by
  by_cases h : s = 0 <;> simp [orZero, JsNum.truthy, h]

theorem nameFold_cons (strToNum : String → JsNum) (key : SourceRecord → String)
    (cond : SourceRecord → Bool) (name : String) (acc : Option JsNum) (r : SourceRecord)
    (rest : List SourceRecord) :
    nameFold strToNum key cond name acc (r :: rest) =
      nameFold strToNum key cond name
        (if key r = name ∧ cond r = true then some ((orZero acc).add (swapVolume strToNum r))
        else acc) rest := rfl

theorem nameFold_some (strToNum : String → JsNum) (key : SourceRecord → String)
    (cond : SourceRecord → Bool) (name : String) (items : List SourceRecord)
    (hfin : ∀ r ∈ items, ∃ q, toNumber strToNum r.swap = .fin q)
    (hcond : ∀ r ∈ items, cond r = false → swapRat strToNum r = 0) (s : ℚ) :
    nameFold strToNum key cond name (some (.fin s)) items =
      some (.fin (s + sourceSum strToNum (items.filter (fun r => decide (key r = name))))) := by
  induction items generalizing s with
  | nil => simp [nameFold, sourceSum]
  | cons r rest ih =>
    obtain ⟨q, hq⟩ := hfin r (List.mem_cons_self _ _)
    have hrest : ∀ r' ∈ rest, ∃ q, toNumber strToNum r'.swap = .fin q :=
      fun r' h' => hfin r' (List.mem_cons_of_mem _ h')
    have hcrest : ∀ r' ∈ rest, cond r' = false → swapRat strToNum r' = 0 :=
      fun r' h' => hcond r' (List.mem_cons_of_mem _ h')
    rw [nameFold_cons]
    by_cases hc : key r = name
    · by_cases hz : cond r = true
      · rw [if_pos ⟨hc, hz⟩, orZero_fin, swapVolume_fin strToNum r q hq, JsNum.add_fin,
          ih hrest hcrest]
        simp [List.filter_cons, hc, sourceSum, add_assoc]
      · rw [if_neg (fun h => hz h.2), ih hrest hcrest]
        have h0 : swapRat strToNum r = 0 :=
          hcond r (List.mem_cons_self _ _) (by simpa using hz)
        simp [List.filter_cons, hc, sourceSum, h0]
    · rw [if_neg (fun h => hc h.1), ih hrest hcrest]
      simp [List.filter_cons, hc]

theorem nameFold_none (strToNum : String → JsNum) (key : SourceRecord → String)
    (cond : SourceRecord → Bool) (name : String) (items : List SourceRecord)
    (hfin : ∀ r ∈ items, ∃ q, toNumber strToNum r.swap = .fin q)
    (hcond : ∀ r ∈ items, cond r = false → swapRat strToNum r = 0) :
    nameFold strToNum key cond name none items =
      if items.any (fun r => decide (key r = name) && cond r) then
        some (.fin (sourceSum strToNum (items.filter (fun r => decide (key r = name)))))
      else none := by
  induction items with
  | nil => simp [nameFold]
  | cons r rest ih =>
    obtain ⟨q, hq⟩ := hfin r (List.mem_cons_self _ _)
    have hrest : ∀ r' ∈ rest, ∃ q, toNumber strToNum r'.swap = .fin q :=
      fun r' h' => hfin r' (List.mem_cons_of_mem _ h')
    have hcrest : ∀ r' ∈ rest, cond r' = false → swapRat strToNum r' = 0 :=
      fun r' h' => hcond r' (List.mem_cons_of_mem _ h')
    rw [nameFold_cons]
    by_cases hc : key r = name
    · by_cases hz : cond r = true
      · rw [if_pos ⟨hc, hz⟩, swapVolume_fin strToNum r q hq]
        have : (orZero none).add (JsNum.fin (swapRat strToNum r / 1000000000000000000000000000000))
            = .fin (swapRat strToNum r / 1000000000000000000000000000000) := by
          simp [orZero]
        rw [this, nameFold_some strToNum key cond name rest hrest hcrest]
        simp [List.filter_cons, hc, hz, sourceSum]
      · rw [if_neg (fun h => hz h.2), ih hrest hcrest]
        have h0 : swapRat strToNum r = 0 :=
          hcond r (List.mem_cons_self _ _) (by simpa using hz)
        simp [List.filter_cons, hc, hz, sourceSum, h0]
    · rw [if_neg (fun h => hc h.1), ih hrest hcrest]
      simp [List.filter_cons, hc]

/-- Every output point is the point of a day bucket of the records. -/
theorem swapSourcesTransform_mem (strToNum : String → JsNum) (mapping : List (String × String))
    (topCount : Nat) (a b c d e : List SourceRecord) (pt : SourcePoint)
    (hpt : pt ∈ swapSourcesTransform strToNum mapping topCount a b c d e) :
    pt = sourcePoint strToNum (topVolumeSources strToNum mapping topCount a) mapping pt.timestamp
      ((a ++ b ++ c ++ d ++ e).filter (fun r => decide (dayBucket r.timestamp = pt.timestamp))) := by
  simp only [swapSourcesTransform, List.mem_insertionSort, List.mem_map] at hpt
  obtain ⟨k, _, rfl⟩ := hpt
  rfl

/-- The entry of a name in an output point, for records with finite volumes. -/
theorem sourcePoint_lookup (strToNum : String → JsNum) (top : List String)
    (mapping : List (String × String)) (k : Nat) (values : List SourceRecord)
    (hfin : ∀ r ∈ values, ∃ q, toNumber strToNum r.swap = .fin q) (name : String) :
    assocLookup (sourcePoint strToNum top mapping k values).sources name =
      if values.any (fun r => decide (classifySource top mapping r.source = name) &&
          looseNeZero strToNum r.swap) then
        some (.fin (sourceSum strToNum
          (values.filter (fun r => decide (classifySource top mapping r.source = name)))))
      else none := by
  simp only [sourcePoint]
  rw [sourceBucket_lookup]
  exact nameFold_none strToNum _ _ name values hfin
    (fun r _ h => swapRat_of_not_looseNeZero strToNum r h)

theorem classifySource_top (top : List String) (mapping : List (String × String))
    (name : String) (hname : name ∈ top) (hother : name ≠ "Other") (source : String) :
    classifySource top mapping source = name ↔ resolveSource mapping source = name := by
  by_cases h : resolveSource mapping source ∈ top
  · simp [classifySource, h]
  · have hc : classifySource top mapping source = "Other" := by simp [classifySource, h]
    rw [hc]
    constructor
    · intro h'
      exact absurd h'.symm hother
    · intro h'
      exact absurd (h' ▸ hname) h

theorem classifySource_other (top : List String) (mapping : List (String × String))
    (source : String) (hother : resolveSource mapping source ≠ "Other") :
    classifySource top mapping source = "Other" ↔ resolveSource mapping source ∉ top := by
  by_cases h : resolveSource mapping source ∈ top
  · simp [classifySource, h, hother]
  · simp [classifySource, h]

theorem useSwapSources_eq (strToNum : String → JsNum) (chainName : String)
    (mapping : List (String × String)) (a b c d e : List SourceRecord)
    (h : knownSwapSources chainName = some mapping) :
    useSwapSources strToNum chainName a b c d e =
      .ok (swapSourcesTransform strToNum mapping 30 a b c d e) := by
  simp [useSwapSources, h]

/-- The output for `{A:'known1'}`, a top set of one name and the records
`[{source:'A',swap:5},{source:'B',swap:1}]`. -/
theorem swapSourcesTransform_scenario :
    swapSourcesTransform noStrings scenarioMapping 1 scenarioSources [] [] [] [] =
      [ { timestamp := 1630368000, sources := [("known1", .fin 5), ("Other", .fin 1)],
          all := .fin 6 } ] := by
  have htop : topVolumeSources noStrings scenarioMapping 1 scenarioSources = ["known1"] := by
    simp [topVolumeSources, totalVolumeBySource, scenarioSources, totalVolumeStep, scenarioMapping,
      objectLiteral, resolveSource, assocLookup, assocSet, swapVolume, toNumber, JsVal.ofRat, E30,
      orZero, List.insertionSort, List.orderedInsert, volumeDescLE, JsNum.gt, JsNum.sub, JsNum.neg,
      JsNum.add]
    norm_num
  rw [swapSourcesTransform, htop]
  simp [scenarioSources, dayBucket, distinctKeys, objectKeyOrder,
    ARRAY_INDEX_LIMIT, sourcePoint, sourceBucketStep, looseNeZero, classifySource, resolveSource,
    scenarioMapping, objectLiteral, assocLookup, assocSet, swapVolume, toNumber, JsVal.ofRat, E30,
    orZero, JsNum.truthy]
  norm_num

/-- C18: in the output of the `useSwapSources` transform (for any mapping and
size of the top set; `useSwapSources` takes `knownSwapSources[chainName]` and
30), with every `swap` a finite number, the value of a day bucket under a name
is the sum of `swap / 1e30` over the bucket's records counted under that name
(the entry is absent when no such record has a non-zero `swap`); a record is
counted under a top name `N` exactly when its source resolves to `N`, and under
`Other` exactly when its resolved name is not in the top set. -/
theorem useSwapSources_buckets (strToNum : String → JsNum) (mapping : List (String × String))
    (topCount : Nat) (a b c d e : List SourceRecord)
    (hfin : ∀ r ∈ a ++ b ++ c ++ d ++ e, ∃ q, toNumber strToNum r.swap = .fin q)
    (pt : SourcePoint) (hpt : pt ∈ swapSourcesTransform strToNum mapping topCount a b c d e)
    (name : String) :
    assocLookup pt.sources name =
      (if ((a ++ b ++ c ++ d ++ e).filter
            (fun r => decide (dayBucket r.timestamp = pt.timestamp))).any
          (fun r => decide (classifySource (topVolumeSources strToNum mapping topCount a) mapping
            r.source = name) && looseNeZero strToNum r.swap) then
        some (.fin (sourceSum strToNum
          (((a ++ b ++ c ++ d ++ e).filter
            (fun r => decide (dayBucket r.timestamp = pt.timestamp))).filter
            (fun r => decide (classifySource (topVolumeSources strToNum mapping topCount a) mapping
              r.source = name)))))
      else none) ∧
    (name ∈ topVolumeSources strToNum mapping topCount a → name ≠ "Other" →
      ∀ source, classifySource (topVolumeSources strToNum mapping topCount a) mapping source = name ↔
        resolveSource mapping source = name) ∧
    (∀ source, resolveSource mapping source ≠ "Other" →
      (classifySource (topVolumeSources strToNum mapping topCount a) mapping source = "Other" ↔
        resolveSource mapping source ∉ topVolumeSources strToNum mapping topCount a)) := by
  refine ⟨?_, fun h1 h2 source => classifySource_top _ _ _ h1 h2 source,
    fun source h => classifySource_other _ _ source h⟩
  have hpt' := swapSourcesTransform_mem strToNum mapping topCount a b c d e pt hpt
  have hfin' : ∀ r ∈ (a ++ b ++ c ++ d ++ e).filter
      (fun r => decide (dayBucket r.timestamp = pt.timestamp)),
      ∃ q, toNumber strToNum r.swap = .fin q :=
    fun r hr => hfin r (List.mem_filter.mp hr).1
  have := sourcePoint_lookup strToNum (topVolumeSources strToNum mapping topCount a) mapping
    pt.timestamp _ hfin' name
  rw [← hpt'] at this
  exact this

/-- C18 (witness): with the mapping `{A:'known1'}`, a top set of one name and
the records `[{source:'A',swap:5},{source:'B',swap:1}]`, the bucket has
`known1 = 5` and `Other = 1`, and the entry of `known1` is the sum over the
records counted under it. -/
theorem useSwapSources_buckets_witness :
    swapSourcesTransform noStrings scenarioMapping 1 scenarioSources [] [] [] [] =
      [ { timestamp := 1630368000, sources := [("known1", .fin 5), ("Other", .fin 1)],
          all := .fin 6 } ] ∧
    assocLookup [("known1", JsNum.fin 5), ("Other", JsNum.fin 1)] "known1" =
      (if ((scenarioSources ++ [] ++ [] ++ [] ++ []).filter
            (fun r : SourceRecord => decide (dayBucket r.timestamp = 1630368000))).any
          (fun r : SourceRecord => decide (classifySource
            (topVolumeSources noStrings scenarioMapping 1 scenarioSources) scenarioMapping
            r.source = "known1") && looseNeZero noStrings r.swap) then
        some (.fin (sourceSum noStrings
          (((scenarioSources ++ [] ++ [] ++ [] ++ []).filter
            (fun r : SourceRecord => decide (dayBucket r.timestamp = 1630368000))).filter
            (fun r : SourceRecord => decide (classifySource
              (topVolumeSources noStrings scenarioMapping 1 scenarioSources) scenarioMapping
              r.source = "known1")))))
      else none) :=
  ⟨swapSourcesTransform_scenario,
    (useSwapSources_buckets noStrings scenarioMapping 1 scenarioSources [] [] [] []
      (by
        intro r hr
        simp only [List.append_nil, scenarioSources, List.mem_cons, List.mem_singleton,
          List.not_mem_nil, or_false] at hr
        rcases hr with h | h <;> subst h <;> exact ⟨_, rfl⟩)
      { timestamp := 1630368000, sources := [("known1", .fin 5), ("Other", .fin 1)],
        all := .fin 6 }
      (by rw [swapSourcesTransform_scenario]; simp) "known1").1⟩

theorem assocSet_keys {κ α : Type} [DecidableEq κ] (l : List (κ × α)) (k : κ) (v : α) :
    (assocSet l k v).map Prod.fst =
      if k ∈ l.map Prod.fst then l.map Prod.fst else l.map Prod.fst ++ [k] := by
  induction l with
  | nil => simp [assocSet]
  | cons e rest ih =>
    obtain ⟨a, w⟩ := e
    by_cases h : a = k
    · subst h
      simp [assocSet]
    · have h' : ¬ k = a := fun e => h e.symm
      by_cases hk : k ∈ rest.map Prod.fst
      · simp only [assocSet, h, if_false, List.map_cons, ih, hk, if_true, List.mem_cons, or_true]
      · simp only [assocSet, h, if_false, List.map_cons, ih, hk, List.mem_cons, h', or_self,
          List.cons_append]

theorem assocSet_keys_nodup {κ α : Type} [DecidableEq κ] (l : List (κ × α)) (k : κ) (v : α)
    (h : (l.map Prod.fst).Nodup) : ((assocSet l k v).map Prod.fst).Nodup := by
  rw [assocSet_keys]
  split
  · exact h
  · next hk =>
    rw [List.nodup_append]
    exact ⟨h, List.nodup_singleton k, by
      intro x hx hx'
      rw [List.mem_singleton] at hx'
      exact hk (hx' ▸ hx)⟩

theorem totalVolume_keys_nodup (strToNum : String → JsNum) (mapping : List (String × String))
    (items : List SourceRecord) (acc : List (String × JsNum)) (h : (acc.map Prod.fst).Nodup) :
    ((items.foldl (totalVolumeStep strToNum mapping) acc).map Prod.fst).Nodup := by
  induction items generalizing acc with
  | nil => exact h
  | cons r rest ih =>
    rw [List.foldl_cons]
    exact ih _ (assocSet_keys_nodup _ _ _ h)

theorem totalVolume_keys_mem (strToNum : String → JsNum) (mapping : List (String × String))
    (items : List SourceRecord) (acc : List (String × JsNum)) (k : String) :
    k ∈ (items.foldl (totalVolumeStep strToNum mapping) acc).map Prod.fst ↔
      k ∈ acc.map Prod.fst ∨ ∃ r ∈ items, resolveSource mapping r.source = k := by
  induction items generalizing acc with
  | nil => simp
  | cons r rest ih =>
    rw [List.foldl_cons, ih]
    have hstep : k ∈ (totalVolumeStep strToNum mapping acc r).map Prod.fst ↔
        k ∈ acc.map Prod.fst ∨ resolveSource mapping r.source = k := by
      unfold totalVolumeStep
      rw [assocSet_keys]
      split
      · next hin =>
        constructor
        · exact fun h => Or.inl h
        · rintro (h | h)
          · exact h
          · exact h ▸ hin
      · simp only [List.mem_append, List.mem_singleton]
        constructor
        · rintro (h | h)
          · exact Or.inl h
          · exact Or.inr h.symm
        · rintro (h | h)
          · exact Or.inl h
          · exact Or.inr h.symm
    rw [hstep]
    simp only [List.mem_cons, exists_eq_or_imp]
    tauto

/-- With finite volumes every entry of `totalVolumeBySource` holds the sum of
`swap / 1e30` over the records of shard `a` that resolve to its name. -/
theorem totalVolume_entry (strToNum : String → JsNum) (mapping : List (String × String))
    (a : List SourceRecord) (hfin : ∀ r ∈ a, ∃ q, toNumber strToNum r.swap = .fin q)
    (entry : String × JsNum) (hentry : entry ∈ totalVolumeBySource strToNum mapping a) :
    entry.2 = .fin (sourceSum strToNum
      (a.filter (fun r => decide (resolveSource mapping r.source = entry.1)))) := by
  have hnodup : ((totalVolumeBySource strToNum mapping a).map Prod.fst).Nodup :=
    totalVolume_keys_nodup strToNum mapping a [] (by simp)
  have h1 := assocLookup_of_mem _ entry.1 entry.2 hnodup hentry
  have h2 := totalVolume_lookup strToNum mapping entry.1 a []
  rw [show assocLookup ([] : List (String × JsNum)) entry.1 = none from rfl,
    nameFold_none strToNum _ _ entry.1 a hfin (fun _ _ h => by simp at h)] at h2
  rw [totalVolumeBySource] at h1
  rw [h1] at h2
  split at h2
  · exact Option.some.inj h2
  · cases h2

theorem sorted_totalVolume (strToNum : String → JsNum) (mapping : List (String × String))
    (a : List SourceRecord) (hfin : ∀ r ∈ a, ∃ q, toNumber strToNum r.swap = .fin q) :
    ((totalVolumeBySource strToNum mapping a).insertionSort volumeDescLE).Pairwise
      (fun x y => entryRat y ≤ entryRat x) := by
  have hrel : ∀ x ∈ totalVolumeBySource strToNum mapping a,
      ∀ y ∈ totalVolumeBySource strToNum mapping a,
      volumeDescLE x y ↔ entryRat x ≥ entryRat y := by
    intro x hx y hy
    have h1 := totalVolume_entry strToNum mapping a hfin x hx
    have h2 := totalVolume_entry strToNum mapping a hfin y hy
    simp [volumeDescLE, entryRat, h1, h2, JsNum.gt]
  have hmap := List.map_insertionSort volumeDescLE (fun p q : ℚ => p ≥ q) entryRat _ hrel
  have hsorted := List.sorted_insertionSort (fun p q : ℚ => p ≥ q)
    ((totalVolumeBySource strToNum mapping a).map entryRat)
  rw [← hmap] at hsorted
  exact (List.pairwise_map.mp hsorted)

theorem topVolumeSources_mem_keys (strToNum : String → JsNum) (mapping : List (String × String))
    (topCount : Nat) (a : List SourceRecord) (n : String)
    (hn : n ∈ topVolumeSources strToNum mapping topCount a) :
    ∃ r ∈ a, resolveSource mapping r.source = n := by
  have h1 : n ∈ ((totalVolumeBySource strToNum mapping a).insertionSort volumeDescLE).map
      Prod.fst := List.mem_of_mem_take hn
  obtain ⟨entry, hentry, rfl⟩ := List.mem_map.mp h1
  rw [List.mem_insertionSort] at hentry
  have h2 : entry.1 ∈ (totalVolumeBySource strToNum mapping a).map Prod.fst :=
    List.mem_map_of_mem _ hentry
  rw [totalVolumeBySource, totalVolume_keys_mem] at h2
  simpa using h2

theorem topVolumeSources_nodup (strToNum : String → JsNum) (mapping : List (String × String))
    (topCount : Nat) (a : List SourceRecord) :
    (topVolumeSources strToNum mapping topCount a).Nodup := by
  have hnodup : ((totalVolumeBySource strToNum mapping a).map Prod.fst).Nodup :=
    totalVolume_keys_nodup strToNum mapping a [] (by simp)
  have hperm : List.Perm
      (((totalVolumeBySource strToNum mapping a).insertionSort volumeDescLE).map Prod.fst)
      ((totalVolumeBySource strToNum mapping a).map Prod.fst) :=
    (List.perm_insertionSort volumeDescLE _).map _
  exact (hperm.nodup_iff.mpr hnodup).sublist (List.take_sublist _ _)

theorem topVolumeSources_largest (strToNum : String → JsNum) (mapping : List (String × String))
    (topCount : Nat) (a : List SourceRecord)
    (hfin : ∀ r ∈ a, ∃ q, toNumber strToNum r.swap = .fin q) (n m : String)
    (hn : n ∈ topVolumeSources strToNum mapping topCount a)
    (hm : ∃ r ∈ a, resolveSource mapping r.source = m)
    (hmn : m ∉ topVolumeSources strToNum mapping topCount a) :
    sourceSum strToNum (a.filter (fun r => decide (resolveSource mapping r.source = m))) ≤
      sourceSum strToNum (a.filter (fun r => decide (resolveSource mapping r.source = n))) := by
  have hsorted := sorted_totalVolume strToNum mapping a hfin
  rw [← List.take_append_drop topCount
    ((totalVolumeBySource strToNum mapping a).insertionSort volumeDescLE),
    List.pairwise_append] at hsorted
  have hn' : n ∈ (((totalVolumeBySource strToNum mapping a).insertionSort volumeDescLE).take
      topCount).map Prod.fst := by
    rw [List.map_take]
    exact hn
  obtain ⟨en, hen, rfl⟩ := List.mem_map.mp hn'
  have hmkey : m ∈ (totalVolumeBySource strToNum mapping a).map Prod.fst := by
    rw [totalVolumeBySource, totalVolume_keys_mem]
    exact Or.inr hm
  obtain ⟨em, hem, rfl⟩ := List.mem_map.mp hmkey
  have hemS : em ∈ (totalVolumeBySource strToNum mapping a).insertionSort volumeDescLE :=
    (List.mem_insertionSort _).mpr hem
  rw [← List.take_append_drop topCount
    ((totalVolumeBySource strToNum mapping a).insertionSort volumeDescLE), List.mem_append] at hemS
  have hemdrop : em ∈ ((totalVolumeBySource strToNum mapping a).insertionSort volumeDescLE).drop
      topCount := by
    rcases hemS with h | h
    · exact absurd (by
        rw [topVolumeSources, ← List.map_take]
        exact List.mem_map_of_mem _ h) hmn
    · exact h
  have hle := hsorted.2.2 en hen em hemdrop
  have h1 := totalVolume_entry strToNum mapping a hfin en
    ((List.mem_insertionSort _).mp (List.mem_of_mem_take hen))
  have h2 := totalVolume_entry strToNum mapping a hfin em hem
  simpa [entryRat, h1, h2] using hle

theorem nameFold_of_no_key (strToNum : String → JsNum) (key : SourceRecord → String)
    (cond : SourceRecord → Bool) (name : String) (acc : Option JsNum) (items : List SourceRecord)
    (h : ∀ r ∈ items, key r ≠ name) : nameFold strToNum key cond name acc items = acc := by
  induction items generalizing acc with
  | nil => rfl
  | cons r rest ih =>
    rw [nameFold_cons, if_neg (fun hc => h r (List.mem_cons_self _ _) hc.1)]
    exact ih acc (fun r' h' => h r' (List.mem_cons_of_mem _ h'))

theorem classifySource_of_not_in_first_shard (strToNum : String → JsNum)
    (mapping : List (String × String)) (topCount : Nat) (a : List SourceRecord) (source : String)
    (h : ∀ r ∈ a, resolveSource mapping r.source ≠ resolveSource mapping source) :
    classifySource (topVolumeSources strToNum mapping topCount a) mapping source = "Other" := by
  have hnot : resolveSource mapping source ∉ topVolumeSources strToNum mapping topCount a := by
    intro hin
    obtain ⟨r, hr, heq⟩ := topVolumeSources_mem_keys strToNum mapping topCount a _ hin
    exact h r hr heq
  simp [classifySource, hnot]

/-- The top set has as many names as there are distinct resolved names in shard
`a`, up to `topCount`. -/
theorem topVolumeSources_length (strToNum : String → JsNum) (mapping : List (String × String))
    (topCount : Nat) (a : List SourceRecord) :
    (topVolumeSources strToNum mapping topCount a).length =
      min topCount ((a.map (fun r => resolveSource mapping r.source)).dedup).length := by
  have hnodup : ((totalVolumeBySource strToNum mapping a).map Prod.fst).Nodup :=
    totalVolume_keys_nodup strToNum mapping a [] (by simp)
  have hperm : List.Perm ((totalVolumeBySource strToNum mapping a).map Prod.fst)
      ((a.map (fun r => resolveSource mapping r.source)).dedup) := by
    rw [List.perm_ext_iff_of_nodup hnodup (List.nodup_dedup _)]
    intro k
    rw [totalVolumeBySource, totalVolume_keys_mem, List.mem_dedup, List.mem_map]
    simp
  have hlen := hperm.length_eq
  simp only [List.length_map] at hlen
  simp only [topVolumeSources, List.length_take, List.length_map, List.length_insertionSort, hlen]

/-- C19 (amended): the top-source set of `useSwapSources` is a function of
shard `a` only: it holds `min(topCount, n)` distinct names (`topCount` is 30 in
the source, `n` the number of distinct resolved names in shard `a`), each the
resolved name of a record of shard `a`; with finite volumes no name of shard `a`
outside the set has a larger total volume over shard `a` than a name in the set;
a source whose resolved name is the resolved name of no record of shard `a` is
counted under `Other`, and no output bucket has an entry under its name; a
source whose resolved name is in the set is counted under that name. -/
theorem useSwapSources_top_from_first_shard (strToNum : String → JsNum)
    (mapping : List (String × String)) (topCount : Nat) (a b c d e : List SourceRecord) :
    (topVolumeSources strToNum mapping topCount a).length =
      min topCount ((a.map (fun r => resolveSource mapping r.source)).dedup).length ∧
    (topVolumeSources strToNum mapping topCount a).Nodup ∧
    (∀ n ∈ topVolumeSources strToNum mapping topCount a,
      ∃ r ∈ a, resolveSource mapping r.source = n) ∧
    ((∀ r ∈ a, ∃ q, toNumber strToNum r.swap = .fin q) →
      ∀ n ∈ topVolumeSources strToNum mapping topCount a, ∀ m,
        (∃ r ∈ a, resolveSource mapping r.source = m) →
        m ∉ topVolumeSources strToNum mapping topCount a →
        sourceSum strToNum (a.filter (fun r => decide (resolveSource mapping r.source = m))) ≤
          sourceSum strToNum (a.filter (fun r => decide (resolveSource mapping r.source = n)))) ∧
    (∀ source, (∀ r ∈ a, resolveSource mapping r.source ≠ resolveSource mapping source) →
      classifySource (topVolumeSources strToNum mapping topCount a) mapping source = "Other") ∧
    (∀ pt ∈ swapSourcesTransform strToNum mapping topCount a b c d e, ∀ name, name ≠ "Other" →
      (∀ r ∈ a, resolveSource mapping r.source ≠ name) → assocLookup pt.sources name = none) ∧
    (∀ source, resolveSource mapping source ∈ topVolumeSources strToNum mapping topCount a →
      classifySource (topVolumeSources strToNum mapping topCount a) mapping source =
        resolveSource mapping source) := by
  refine ⟨topVolumeSources_length strToNum mapping topCount a,
    topVolumeSources_nodup strToNum mapping topCount a,
    fun n hn => topVolumeSources_mem_keys strToNum mapping topCount a n hn,
    fun hfin n hn m hm hmn => topVolumeSources_largest strToNum mapping topCount a hfin n m hn hm hmn,
    fun source h => classifySource_of_not_in_first_shard strToNum mapping topCount a source h, ?_,
    fun source h => by simp [classifySource, h]⟩
  · intro pt hpt name hother hname
    have hpt' := swapSourcesTransform_mem strToNum mapping topCount a b c d e pt hpt
    rw [hpt']
    simp only [sourcePoint]
    rw [sourceBucket_lookup]
    apply nameFold_of_no_key
    intro r _ hkey
    have hnot : name ∉ topVolumeSources strToNum mapping topCount a := by
      intro hin
      obtain ⟨r', hr', heq⟩ := topVolumeSources_mem_keys strToNum mapping topCount a _ hin
      exact hname r' hr' heq
    by_cases hin : resolveSource mapping r.source ∈ topVolumeSources strToNum mapping topCount a
    · have hc : classifySource (topVolumeSources strToNum mapping topCount a) mapping r.source =
          resolveSource mapping r.source := by simp [classifySource, hin]
      rw [hc] at hkey
      exact hnot (hkey ▸ hin)
    · have hc : classifySource (topVolumeSources strToNum mapping topCount a) mapping r.source =
          "Other" := by simp [classifySource, hin]
      rw [hc] at hkey
      exact hother hkey.symm

/-- C19 (witness of the amended statement): with source `A` (volume 5) in shard
`a` and source `B` (volume 100) in shard `b` only, the top set of 30 is `known1`
alone and the bucket has `known1 = 5`, `Other = 100` and no entry `B`. -/
theorem useSwapSources_top_from_first_shard_witness :
    topVolumeSources noStrings scenarioMapping 30 firstShard = ["known1"] ∧
    (swapSourcesTransform noStrings scenarioMapping 30 firstShard secondShard [] [] []).map
        (fun pt => (pt.timestamp, pt.sources)) =
      [(1630368000, [("known1", .fin 5), ("Other", .fin 100)])] ∧
    classifySource (topVolumeSources noStrings scenarioMapping 30 firstShard) scenarioMapping "B" =
      "Other" := by
  have htop : topVolumeSources noStrings scenarioMapping 30 firstShard = ["known1"] := by
    simp [topVolumeSources, totalVolumeBySource, firstShard, totalVolumeStep, scenarioMapping,
      objectLiteral, resolveSource, assocLookup, assocSet, swapVolume, toNumber, JsVal.ofRat, E30,
      orZero, List.insertionSort, List.orderedInsert]
  refine ⟨htop, ?_,
    (useSwapSources_top_from_first_shard noStrings scenarioMapping 30 firstShard secondShard
      [] [] []).2.2.2.2.1 "B" (by decide)⟩
  rw [swapSourcesTransform, htop]
  simp [firstShard, secondShard, dayBucket, distinctKeys, objectKeyOrder,
    ARRAY_INDEX_LIMIT, sourcePoint, sourceBucketStep, looseNeZero, classifySource, resolveSource,
    scenarioMapping, objectLiteral, assocLookup, assocSet, swapVolume, toNumber, JsVal.ofRat, E30,
    orZero, JsNum.truthy]
  norm_num

theorem resolveSource_vovo :
    resolveSource (objectLiteral knownSwapSourcesArbitrumEntries)
        "0x1d838be5d58cc131ae4a23359bc6ad2dddb8b75a" = "Vovo" ∧
    resolveSource (objectLiteral knownSwapSourcesArbitrumEntries)
        "0xc4bed5eeeccbe84780c44c5472e800d3a5053454" = "Vovo" := by
  decide

/-- C19 (counterexample): on Arbitrum, with one record of the address
`0x1d83...` (volume 5) in shard `a` and one record of the address `0xc4be...`
(volume 100) in shard `b`, both named `Vovo` in `knownSwapSources`, the bucket is
`{ Vovo: 105 }`: the second address has all its records in shard `b`, yet it is
counted under `Vovo` and not under `Other`. -/
theorem useSwapSources_alias_counted :
    (∃ pts, useSwapSources noStrings "arbitrum" aliasShardA aliasShardB [] [] [] = .ok pts ∧
      pts.map (fun pt => (pt.timestamp, pt.sources, pt.all)) =
        [(1630368000, [("Vovo", .fin 105)], .fin 105)]) ∧
    aliasShardA.map (fun r => r.source) = ["0x1d838be5d58cc131ae4a23359bc6ad2dddb8b75a"] ∧
    aliasShardB.map (fun r => r.source) = ["0xc4bed5eeeccbe84780c44c5472e800d3a5053454"] := by
  refine ⟨⟨_, useSwapSources_eq noStrings "arbitrum" _ aliasShardA aliasShardB [] [] [] rfl, ?_⟩,
    rfl, rfl⟩
  have htop : topVolumeSources noStrings (objectLiteral knownSwapSourcesArbitrumEntries) 30
      aliasShardA = ["Vovo"] := by
    simp [topVolumeSources, totalVolumeBySource, aliasShardA, totalVolumeStep,
      resolveSource_vovo.1, assocLookup, assocSet, swapVolume, toNumber, JsVal.ofRat, E30,
      orZero, List.insertionSort, List.orderedInsert]
  rw [swapSourcesTransform, htop]
  simp [aliasShardA, aliasShardB, dayBucket, distinctKeys, objectKeyOrder,
    ARRAY_INDEX_LIMIT, sourcePoint, sourceBucketStep, looseNeZero, classifySource,
    resolveSource_vovo.1, resolveSource_vovo.2, assocLookup, assocSet, swapVolume, toNumber,
    JsVal.ofRat, E30, orZero, JsNum.truthy]
  norm_num

/-- C20 (code at the failing input): the keys of `knownSwapSources.arbitrum`
are lowercase hex addresses, but `knownSwapSources.avalanche` has keys with
uppercase letters, such as `0xA76fB4882bcb66fBe68948B71eBe7f3B80e329Ea`; the
lowercase identifier of that address resolves to itself and not to
`GMX OrderBook`, and the key written twice keeps only its second name. -/
theorem knownSwapSources_avalanche_mixed_case :
    (knownSwapSourcesArbitrumEntries.all (fun e => isLowerHexAddress e.1)) = true ∧
    (knownSwapSourcesAvalancheEntries.map Prod.fst).filter (fun k => !(isLowerHexAddress k)) =
      [ "0xA76fB4882bcb66fBe68948B71eBe7f3B80e329Ea",
        "0x6A154CE91003Cf4b8787280fd7C96D9BFb3f88C3",
        "0xD5326A526f78667375D9D5dA7C739e261Df52fe6",
        "0xD5326A526f78667375D9D5dA7C739e261Df52fe6",
        "0xFe42F6CccD52542DFbB785dFa014Cb8ce70Bcf57" ] ∧
    toLowerCase "0xA76fB4882bcb66fBe68948B71eBe7f3B80e329Ea" =
      "0xa76fb4882bcb66fbe68948b71ebe7f3b80e329ea" ∧
    resolveSource (objectLiteral knownSwapSourcesAvalancheEntries)
      "0xA76fB4882bcb66fBe68948B71eBe7f3B80e329Ea" = "GMX OrderBook" ∧
    resolveSource (objectLiteral knownSwapSourcesAvalancheEntries)
      "0xa76fb4882bcb66fbe68948b71ebe7f3b80e329ea" =
      "0xa76fb4882bcb66fbe68948b71ebe7f3b80e329ea" ∧
    resolveSource (objectLiteral knownSwapSourcesAvalancheEntries)
      "0xD5326A526f78667375D9D5dA7C739e261Df52fe6" = "GMX PositionManager C" := by
  refine ⟨by decide, by decide, by decide, by decide, by decide, by decide⟩

/-! ## useGlpPerformanceData -/

theorem perfLoop_length (cfg : PerfConfig) (st : LoopState) (k : Nat) (btcs : List PricePoint) :
    (perfLoop cfg st k btcs).length = btcs.length := by
  induction btcs generalizing st k with
  | nil => rfl
  | cons b rest ih => simp [perfLoop, ih]

theorem perfLoop_head (cfg : PerfConfig) (st : LoopState) (k : Nat) (btcs : List PricePoint)
    (s : PerfStep) (h : (perfLoop cfg st k btcs)[0]? = some s) :
    ∃ b, btcs[0]? = some b ∧ s = stepOf cfg st k b := by
  cases btcs with
  | nil => simp [perfLoop] at h
  | cons b rest =>
    simp only [perfLoop, List.getElem?_cons_zero, Option.some.injEq] at h
    exact ⟨b, by simp, h.symm⟩

/-- Each iteration starts from the variables the previous iteration left. -/
theorem perfLoop_succ (cfg : PerfConfig) (st : LoopState) (k : Nat) (btcs : List PricePoint)
    (i : Nat) (s s' : PerfStep) (hs : (perfLoop cfg st k btcs)[i]? = some s)
    (hs' : (perfLoop cfg st k btcs)[i + 1]? = some s') :
    ∃ b, btcs[i + 1]? = some b ∧ s' = stepOf cfg (stateOf s) (k + i + 1) b := by
  induction btcs generalizing st k i with
  | nil => simp [perfLoop] at hs
  | cons b rest ih =>
    cases i with
    | zero =>
      simp only [perfLoop, List.getElem?_cons_zero, Option.some.injEq] at hs
      simp only [perfLoop, List.getElem?_cons_succ] at hs'
      subst hs
      obtain ⟨b', hb', hs2⟩ := perfLoop_head cfg _ (k + 1) rest s' hs'
      exact ⟨b', by simpa using hb', by simpa using hs2⟩
    | succ i =>
      simp only [perfLoop, List.getElem?_cons_succ] at hs hs'
      obtain ⟨b', hb', hs2⟩ := ih _ (k + 1) i hs hs'
      refine ⟨b', by simpa using hb', ?_⟩
      rw [hs2]
      congr 1
      omega

/-- An invariant of the variables that each iteration re-establishes holds
before every iteration, and what it implies for the iteration holds of every
step. -/
theorem perfLoop_invariant (cfg : PerfConfig) (P : Nat → LoopState → Prop)
    (Q : Nat → PerfStep → Prop) (btcs : List PricePoint) (st : LoopState) (k : Nat)
    (hstep : ∀ i j st b, j = k + i → btcs[i]? = some b → P j st →
      Q j (stepOf cfg st j b) ∧ P (j + 1) (stateOf (stepOf cfg st j b)))
    (hinit : P k st) (i j : Nat) (s : PerfStep) (hj : j = k + i)
    (hs : (perfLoop cfg st k btcs)[i]? = some s) : Q j s := by
  induction btcs generalizing st k i j with
  | nil => simp [perfLoop] at hs
  | cons b rest ih =>
    have h0 := hstep 0 k st b rfl (by simp) hinit
    cases i with
    | zero =>
      simp only [perfLoop, List.getElem?_cons_zero, Option.some.injEq] at hs
      subst hs
      subst hj
      exact h0.1
    | succ i =>
      simp only [perfLoop, List.getElem?_cons_succ] at hs
      refine ih _ (k + 1) ?_ h0.2 i j (by omega) hs
      intro i' j' st' b' hj' hb' hP
      exact hstep (i' + 1) j' st' b' (by omega) (by simpa using hb') hP

theorem useGlpPerformanceData_eq (strToNum : String → JsNum) (chainName : String)
    (btc eth avax : List PricePoint) (glp : List GlpPoint) (fees : List FeePoint)
    (first : PricePoint) (hbtc : btc[0]? = some first) (hglp : glp ≠ []) (hfees : fees ≠ []) :
    useGlpPerformanceData strToNum chainName (some btc) (some eth) (some avax) (some glp)
        (some fees) =
      .ok (some ((glpPerformanceSteps strToNum chainName btc eth avax glp fees first).map
        (perfPoint (perfConfig strToNum chainName eth avax glp fees)))) := by
  cases btc with
  | nil => simp at hbtc
  | cons b rest =>
    simp only [List.getElem?_cons_zero, Option.some.injEq] at hbtc
    subst hbtc
    have h1 : ¬ (fees.length = 0 ∨ glp.length = 0) := by
      simp [List.length_eq_zero, hglp, hfees]
    simp [useGlpPerformanceData, hglp, hfees]

/-- C13 (code at the failing input): with fee points of 10 on 2021-08-31 (the
earliest) and 20 on 2021-09-01, a pool supply of 100 and prices on both days,
the iteration of 2021-08-31 finds no fee point (`feesDataById` has no entry for
the earliest point) and `cumulativeFeesPerGlp` stays 0 instead of growing by
10 / 100 * 0.5; the iteration of 2021-09-01 adds 20 / 100 * 0.5. -/
theorem feesDataById_skips_first_point :
    (feesDataById twoDayFees).map Prod.fst = [1630454400] ∧
    (glpPerformanceSteps noStrings "arbitrum" twoDayBtc twoDayEth twoDayAvax oneDayGlp twoDayFees
        ⟨1630368000, .ofRat 50000⟩).map
        (fun s => (s.timestampGroup, s.feesItem.map (fun f => f.all),
          s.glpItem.map (fun g => g.glpSupply), s.cumulativeFeesPerGlp, s.glpPlusFees)) =
      [ (1630368000, none, some (.fin 100), .fin 0, some (.fin 1)),
        (1630454400, some (.fin 20), some (.fin 100), .fin (1 / 10), some (.fin (11 / 10))) ] := by
  refine ⟨by decide, ?_⟩
  simp [glpPerformanceSteps, perfLoop, stepOf, stateOf, perfConfig, initialState, twoDayBtc,
    twoDayFees, oneDayGlp, feePoint, feesDataById, glpDataById, lookupOrLast, assocLookup, assocSet,
    accrueFees, glpPlusFeesOf, glpRewardsShare, optTruthy, JsNum.truthy]
  norm_num

/-- C14 (counterexample): with an empty BTC series and the other four series
non-empty the transform throws a `TypeError`; with an empty ETH series and the
other four non-empty it returns a series of two points, not `null`. -/
theorem useGlpPerformanceData_empty_prices :
    useGlpPerformanceData noStrings "arbitrum" (some []) (some twoDayEth) (some twoDayAvax)
        (some oneDayGlp) (some twoDayFees) = .error .typeError ∧
    ∃ pts, useGlpPerformanceData noStrings "arbitrum" (some twoDayBtc) (some []) (some twoDayAvax)
        (some oneDayGlp) (some twoDayFees) = .ok (some pts) ∧ pts.length = 2 := by
  refine ⟨rfl, _, useGlpPerformanceData_eq noStrings "arbitrum" twoDayBtc [] twoDayAvax oneDayGlp
    twoDayFees ⟨1630368000, .ofRat 50000⟩ rfl (by simp [oneDayGlp]) (by simp [twoDayFees]), ?_⟩
  simp [glpPerformanceSteps, perfLoop_length, twoDayBtc]

/-- C14 (amended): `useGlpPerformanceData` returns `null` and raises no error
whenever `glpData` or `feesData` has zero points, or one of the five series is
absent. -/
theorem useGlpPerformanceData_no_data (strToNum : String → JsNum) (chainName : String)
    (btcPrices ethPrices avaxPrices : Option (List PricePoint))
    (glpData : Option (List GlpPoint)) (feesData : Option (List FeePoint))
    (h : glpData = some [] ∨ feesData = some [] ∨ btcPrices = none ∨ ethPrices = none ∨
      avaxPrices = none ∨ glpData = none ∨ feesData = none) :
    useGlpPerformanceData strToNum chainName btcPrices ethPrices avaxPrices glpData feesData =
      .ok none := by
  cases btcPrices <;> cases ethPrices <;> cases avaxPrices <;> cases glpData <;>
    cases feesData <;> simp_all [useGlpPerformanceData]
  rcases h with h | h <;> simp [h]

/-- C14 (witness of the amended statement): with no pool points and the other
four series non-empty the result is `null`. -/
theorem useGlpPerformanceData_no_data_witness :
    useGlpPerformanceData noStrings "arbitrum" (some twoDayBtc) (some twoDayEth)
      (some twoDayAvax) (some []) (some twoDayFees) = .ok none :=
  useGlpPerformanceData_no_data noStrings "arbitrum" (some twoDayBtc) (some twoDayEth)
    (some twoDayAvax) (some []) (some twoDayFees) (Or.inl rfl)

/-- C17: when the transform runs (the five series present, `glpData` and
`feesData` non-empty, a first BTC point), the output has exactly one point per
BTC price point, and at every index `i + 1` where the ETH (resp. AVAX) series has
no entry or a falsy value, the ETH (resp. AVAX) price used is the one used at
index `i`. -/
theorem useGlpPerformanceData_price_carry (strToNum : String → JsNum) (chainName : String)
    (btc eth avax : List PricePoint) (glp : List GlpPoint) (fees : List FeePoint)
    (first : PricePoint) (hbtc : btc[0]? = some first) (hglp : glp ≠ []) (hfees : fees ≠ []) :
    useGlpPerformanceData strToNum chainName (some btc) (some eth) (some avax) (some glp)
        (some fees) =
      .ok (some ((glpPerformanceSteps strToNum chainName btc eth avax glp fees first).map
        (perfPoint (perfConfig strToNum chainName eth avax glp fees)))) ∧
    ((glpPerformanceSteps strToNum chainName btc eth avax glp fees first).map
      (perfPoint (perfConfig strToNum chainName eth avax glp fees))).length = btc.length ∧
    (∀ i s s', (glpPerformanceSteps strToNum chainName btc eth avax glp fees first)[i]? = some s →
      (glpPerformanceSteps strToNum chainName btc eth avax glp fees first)[i + 1]? = some s' →
      ((valueAt eth (i + 1)).truthy = false → s'.ethPrice = s.ethPrice) ∧
      ((valueAt avax (i + 1)).truthy = false → s'.avaxPrice = s.avaxPrice)) := by
  refine ⟨useGlpPerformanceData_eq strToNum chainName btc eth avax glp fees first hbtc hglp hfees,
    by simp [glpPerformanceSteps, perfLoop_length], ?_⟩
  intro i s s' hs hs'
  obtain ⟨b, _, hstep⟩ := perfLoop_succ _ _ 0 btc i s s' hs hs'
  rw [hstep]
  refine ⟨?_, ?_⟩
  · intro h
    simp [stepOf, stateOf, perfConfig, jsOr, h]
  · intro h
    simp [stepOf, stateOf, perfConfig, jsOr, h]

/-- C17 (witness): with a `null` ETH price on the second day the two output
points both use the ETH price 3000. -/
theorem useGlpPerformanceData_price_carry_witness :
    (glpPerformanceSteps noStrings "arbitrum" twoDayBtc gapEth twoDayAvax oneDayGlp twoDayFees
        ⟨1630368000, .ofRat 50000⟩).map (fun s => s.ethPrice) = [.ofRat 3000, .ofRat 3000] ∧
    ((glpPerformanceSteps noStrings "arbitrum" twoDayBtc gapEth twoDayAvax oneDayGlp twoDayFees
        ⟨1630368000, .ofRat 50000⟩).map
      (perfPoint (perfConfig noStrings "arbitrum" gapEth twoDayAvax oneDayGlp twoDayFees))).length =
      twoDayBtc.length :=
  ⟨by simp [glpPerformanceSteps, perfLoop, stepOf, stateOf, perfConfig, initialState, twoDayBtc,
      gapEth, valueAt, jsOr, JsVal.truthy, JsVal.ofRat, JsNum.truthy],
   (useGlpPerformanceData_price_carry noStrings "arbitrum" twoDayBtc gapEth twoDayAvax oneDayGlp
      twoDayFees ⟨1630368000, .ofRat 50000⟩ rfl (by simp [oneDayGlp]) (by simp [twoDayFees])).2.1⟩

theorem stableWeight_fin (chainName : String) :
    stableWeight chainName =
      .fin (1 - btcWeight chainName - btcWeight chainName - avaxWeight chainName) := by
  simp [stableWeight]

theorem jsOr_of_fin (v prev : JsVal) (q : ℚ) (hq : q ≠ 0) (h : v = .num (.fin q)) :
    jsOr v prev = .num (.fin q) := by
  simp [jsOr, h, JsVal.truthy, JsNum.truthy, hq]

/-- One iteration on finite counts, weights and non-zero finite prices. -/
theorem stepOf_fin (cfg : PerfConfig) (st : LoopState) (j : Nat) (btc : PricePoint)
    (cb ce ca cs wb we wa ws b e a : ℚ)
    (h1 : st.indexBtcCount = .fin cb) (h2 : st.indexEthCount = .fin ce)
    (h3 : st.indexAvaxCount = .fin ca) (h4 : st.indexStableCount = .fin cs)
    (w1 : cfg.BTC_WEIGHT = .fin wb) (w2 : cfg.ETH_WEIGHT = .fin we)
    (w3 : cfg.AVAX_WEIGHT = .fin wa) (w4 : cfg.STABLE_WEIGHT = .fin ws)
    (hb : btc.value = .num (.fin b))
    (he : jsOr (valueAt cfg.ethPrices j) st.prevEthPrice = .num (.fin e))
    (ha : jsOr (valueAt cfg.avaxPrices j) st.prevAvaxPrice = .num (.fin a))
    (hb0 : b ≠ 0) (he0 : e ≠ 0) (ha0 : a ≠ 0) :
    (stepOf cfg st j btc).syntheticPrice = .fin (cb * b + ce * e + ca * a + cs) ∧
    (stepOf cfg st j btc).btcPrice = .num (.fin b) ∧
    (stepOf cfg st j btc).ethPrice = .num (.fin e) ∧
    (stepOf cfg st j btc).avaxPrice = .num (.fin a) ∧
    (stepOf cfg st j btc).indexBtcCount = .fin ((cb * b + ce * e + ca * a + cs) * wb / b) ∧
    (stepOf cfg st j btc).indexEthCount = .fin ((cb * b + ce * e + ca * a + cs) * we / e) ∧
    (stepOf cfg st j btc).indexAvaxCount = .fin ((cb * b + ce * e + ca * a + cs) * wa / a) ∧
    (stepOf cfg st j btc).indexStableCount = .fin ((cb * b + ce * e + ca * a + cs) * ws) := by
  have tb : toNumber cfg.strToNum (JsVal.num (.fin b)) = .fin b := rfl
  have te : toNumber cfg.strToNum (JsVal.num (.fin e)) = .fin e := rfl
  have ta : toNumber cfg.strToNum (JsVal.num (.fin a)) = .fin a := rfl
  simp only [stepOf, syntheticPriceOf, hb, he, ha, tb, te, ta, h1, h2, h3, h4, w1, w2, w3, w4,
    JsNum.mul_fin, JsNum.add_fin, JsNum.div_fin _ _ hb0, JsNum.div_fin _ _ he0,
    JsNum.div_fin _ _ ha0, and_self]

/-- The counts a state holds: those of a rebalance at the synthetic price `g`
and the prices `b`, `e`, `a`. -/
theorem stateOf_counts (s : PerfStep) :
    (stateOf s).indexBtcCount = s.indexBtcCount ∧ (stateOf s).indexEthCount = s.indexEthCount ∧
    (stateOf s).indexAvaxCount = s.indexAvaxCount ∧
    (stateOf s).indexStableCount = s.indexStableCount ∧
    (stateOf s).prevEthPrice = s.ethPrice ∧ (stateOf s).prevAvaxPrice = s.avaxPrice :=
  ⟨rfl, rfl, rfl, rfl, rfl, rfl⟩

theorem getElem?_lt_of_some {α : Type} (l : List α) (i : Nat) (x : α) (h : l[i]? = some x) :
    i < l.length := (List.getElem?_eq_some_iff.mp h).1

/-- With all spot prices present, finite and non-zero and a finite start price,
every iteration has a finite synthetic price and the unit counts of a rebalance
at that price. -/
theorem glpPerformanceSteps_counts (strToNum : String → JsNum) (chainName : String)
    (btc eth avax : List PricePoint) (glp : List GlpPoint) (fees : List FeePoint)
    (first : PricePoint) (hbtc : btc[0]? = some first)
    (hb : ∀ (i : Nat) (p : PricePoint), btc[i]? = some p → ∃ q : ℚ, q ≠ 0 ∧ p.value = .num (.fin q))
    (he : ∀ i, i < btc.length → ∃ q : ℚ, q ≠ 0 ∧ valueAt eth i = .num (.fin q))
    (ha : ∀ i, i < btc.length → ∃ q : ℚ, q ≠ 0 ∧ valueAt avax i = .num (.fin q))
    (hstart : ∃ g0 : ℚ, glpStartPrice glp first = .fin g0)
    (i : Nat) (s : PerfStep)
    (hs : (glpPerformanceSteps strToNum chainName btc eth avax glp fees first)[i]? = some s) :
    ∃ g b e a : ℚ, b ≠ 0 ∧ e ≠ 0 ∧ a ≠ 0 ∧ s.syntheticPrice = .fin g ∧
      s.btcPrice = .num (.fin b) ∧ s.ethPrice = .num (.fin e) ∧ s.avaxPrice = .num (.fin a) ∧
      s.indexBtcCount = .fin (g * btcWeight chainName / b) ∧
      s.indexEthCount = .fin (g * btcWeight chainName / e) ∧
      s.indexAvaxCount = .fin (g * avaxWeight chainName / a) ∧
      s.indexStableCount =
        .fin (g * (1 - btcWeight chainName - btcWeight chainName - avaxWeight chainName)) := by
  refine perfLoop_invariant (perfConfig strToNum chainName eth avax glp fees)
    (fun _ st => ∃ g b e a : ℚ, b ≠ 0 ∧ e ≠ 0 ∧ a ≠ 0 ∧
      st.indexBtcCount = .fin (g * btcWeight chainName / b) ∧
      st.indexEthCount = .fin (g * btcWeight chainName / e) ∧
      st.indexAvaxCount = .fin (g * avaxWeight chainName / a) ∧
      st.indexStableCount =
        .fin (g * (1 - btcWeight chainName - btcWeight chainName - avaxWeight chainName)))
    (fun _ s => ∃ g b e a : ℚ, b ≠ 0 ∧ e ≠ 0 ∧ a ≠ 0 ∧ s.syntheticPrice = .fin g ∧
      s.btcPrice = .num (.fin b) ∧ s.ethPrice = .num (.fin e) ∧ s.avaxPrice = .num (.fin a) ∧
      s.indexBtcCount = .fin (g * btcWeight chainName / b) ∧
      s.indexEthCount = .fin (g * btcWeight chainName / e) ∧
      s.indexAvaxCount = .fin (g * avaxWeight chainName / a) ∧
      s.indexStableCount =
        .fin (g * (1 - btcWeight chainName - btcWeight chainName - avaxWeight chainName)))
    btc _ 0 ?_ ?_ i i s (by omega) hs
  · intro i' j st p hj hp hP
    obtain ⟨g, b, e, a, _, _, _, c1, c2, c3, c4⟩ := hP
    have hj' : j = i' := by omega
    subst hj'
    obtain ⟨qb, hqb0, hqb⟩ := hb j p hp
    obtain ⟨qe, hqe0, hqe⟩ := he j (getElem?_lt_of_some btc j p hp)
    obtain ⟨qa, hqa0, hqa⟩ := ha j (getElem?_lt_of_some btc j p hp)
    have hstep := stepOf_fin (perfConfig strToNum chainName eth avax glp fees) st j p _ _ _ _
      (btcWeight chainName) (btcWeight chainName) (avaxWeight chainName)
      (1 - btcWeight chainName - btcWeight chainName - avaxWeight chainName) qb qe qa
      c1 c2 c3 c4 rfl rfl rfl (stableWeight_fin chainName) hqb
      (jsOr_of_fin _ _ qe hqe0 hqe) (jsOr_of_fin _ _ qa hqa0 hqa) hqb0 hqe0 hqa0
    obtain ⟨s1, s2, s3, s4, s5, s6, s7, s8⟩ := hstep
    exact ⟨⟨_, qb, qe, qa, hqb0, hqe0, hqa0, s1, s2, s3, s4, s5, s6, s7, s8⟩,
      ⟨_, qb, qe, qa, hqb0, hqe0, hqa0, s5, s6, s7, s8⟩⟩
  · obtain ⟨g0, hg0⟩ := hstart
    obtain ⟨qb, hqb0, hqb⟩ := hb 0 first hbtc
    have hlen : 0 < btc.length := getElem?_lt_of_some btc 0 first hbtc
    obtain ⟨qe, hqe0, hqe⟩ := he 0 hlen
    obtain ⟨qa, hqa0, hqa⟩ := ha 0 hlen
    refine ⟨g0, qb, qe, qa, hqb0, hqe0, hqa0, ?_, ?_, ?_, ?_⟩
    · simp [initialState, hg0, hqb, toNumber, hqb0]
    · simp [initialState, hg0, hqe, toNumber, hqe0]
    · simp [initialState, hg0, hqa, toNumber, hqa0]
    · simp [initialState, hg0, stableWeight_fin]

/-- C15: with all spot prices present, finite and non-zero (and a finite start
price), the synthetic price of the first iteration is `GLP_START_PRICE`, each
later one is the previous one times `BTC_WEIGHT * btc_i / btc_(i-1) + ETH_WEIGHT *
eth_i / eth_(i-1) + AVAX_WEIGHT * avax_i / avax_(i-1) + STABLE_WEIGHT`, and after
each iteration every unit count is `syntheticPrice_i * weight / assetPrice_i`. -/
theorem useGlpPerformanceData_synthetic_price (strToNum : String → JsNum) (chainName : String)
    (btc eth avax : List PricePoint) (glp : List GlpPoint) (fees : List FeePoint)
    (first : PricePoint) (hbtc : btc[0]? = some first) (hglp : glp ≠ []) (hfees : fees ≠ [])
    (hb : ∀ (i : Nat) (p : PricePoint), btc[i]? = some p → ∃ q : ℚ, q ≠ 0 ∧ p.value = .num (.fin q))
    (he : ∀ i, i < btc.length → ∃ q : ℚ, q ≠ 0 ∧ valueAt eth i = .num (.fin q))
    (ha : ∀ i, i < btc.length → ∃ q : ℚ, q ≠ 0 ∧ valueAt avax i = .num (.fin q))
    (hstart : ∃ g0 : ℚ, glpStartPrice glp first = .fin g0) :
    useGlpPerformanceData strToNum chainName (some btc) (some eth) (some avax) (some glp)
        (some fees) =
      .ok (some ((glpPerformanceSteps strToNum chainName btc eth avax glp fees first).map
        (perfPoint (perfConfig strToNum chainName eth avax glp fees)))) ∧
    (∀ s : PerfStep, (glpPerformanceSteps strToNum chainName btc eth avax glp fees first)[0]? = some s →
      s.syntheticPrice = glpStartPrice glp first) ∧
    (∀ (i : Nat) (s s' : PerfStep), (glpPerformanceSteps strToNum chainName btc eth avax glp fees first)[i]? = some s →
      (glpPerformanceSteps strToNum chainName btc eth avax glp fees first)[i + 1]? = some s' →
      ∃ g b e a b' e' a' : ℚ, s.syntheticPrice = .fin g ∧
        s.btcPrice = .num (.fin b) ∧ s.ethPrice = .num (.fin e) ∧ s.avaxPrice = .num (.fin a) ∧
        s'.btcPrice = .num (.fin b') ∧ s'.ethPrice = .num (.fin e') ∧
        s'.avaxPrice = .num (.fin a') ∧
        s'.syntheticPrice = .fin (g * (btcWeight chainName * b' / b +
          btcWeight chainName * e' / e + avaxWeight chainName * a' / a +
          (1 - btcWeight chainName - btcWeight chainName - avaxWeight chainName)))) ∧
    (∀ (i : Nat) (s : PerfStep), (glpPerformanceSteps strToNum chainName btc eth avax glp fees first)[i]? = some s →
      ∃ g b e a : ℚ, s.syntheticPrice = .fin g ∧
        s.btcPrice = .num (.fin b) ∧ s.ethPrice = .num (.fin e) ∧ s.avaxPrice = .num (.fin a) ∧
        s.indexBtcCount = .fin (g * btcWeight chainName / b) ∧
        s.indexEthCount = .fin (g * btcWeight chainName / e) ∧
        s.indexAvaxCount = .fin (g * avaxWeight chainName / a) ∧
        s.indexStableCount =
          .fin (g * (1 - btcWeight chainName - btcWeight chainName - avaxWeight chainName))) := by
  refine ⟨useGlpPerformanceData_eq strToNum chainName btc eth avax glp fees first hbtc hglp hfees,
    ?_, ?_, ?_⟩
  · intro s hs
    obtain ⟨b0, hb0, hs0⟩ := perfLoop_head _ _ 0 btc s hs
    rw [hbtc] at hb0
    cases hb0
    obtain ⟨g0, hg0⟩ := hstart
    obtain ⟨qb, hqb0, hqb⟩ := hb 0 first hbtc
    have hlen : 0 < btc.length := getElem?_lt_of_some btc 0 first hbtc
    obtain ⟨qe, hqe0, hqe⟩ := he 0 hlen
    obtain ⟨qa, hqa0, hqa⟩ := ha 0 hlen
    have hstep := stepOf_fin (perfConfig strToNum chainName eth avax glp fees)
      (initialState strToNum chainName eth avax glp first) 0 first
      (g0 * btcWeight chainName / qb) (g0 * btcWeight chainName / qe)
      (g0 * avaxWeight chainName / qa)
      (g0 * (1 - btcWeight chainName - btcWeight chainName - avaxWeight chainName))
      (btcWeight chainName) (btcWeight chainName) (avaxWeight chainName)
      (1 - btcWeight chainName - btcWeight chainName - avaxWeight chainName) qb qe qa
      (by simp [initialState, hg0, hqb, toNumber, hqb0])
      (by simp [initialState, hg0, hqe, toNumber, hqe0])
      (by simp [initialState, hg0, hqa, toNumber, hqa0])
      (by simp [initialState, hg0, stableWeight_fin])
      rfl rfl rfl (stableWeight_fin chainName) hqb
      (jsOr_of_fin _ _ qe hqe0 hqe) (jsOr_of_fin _ _ qa hqa0 hqa) hqb0 hqe0 hqa0
    rw [hs0, hstep.1, hg0]
    congr 1
    field_simp
    ring
  · intro i s s' hs hs'
    obtain ⟨g, b, e, a, hb0, he0, ha0, hg, hpb, hpe, hpa, c1, c2, c3, c4⟩ :=
      glpPerformanceSteps_counts strToNum chainName btc eth avax glp fees first hbtc hb he ha
        hstart i s hs
    obtain ⟨p', hp', hs2⟩ := perfLoop_succ _ _ 0 btc i s s' hs hs'
    obtain ⟨qb, hqb0, hqb⟩ := hb (i + 1) p' hp'
    obtain ⟨qe, hqe0, hqe⟩ := he (i + 1) (getElem?_lt_of_some btc (i + 1) p' hp')
    obtain ⟨qa, hqa0, hqa⟩ := ha (i + 1) (getElem?_lt_of_some btc (i + 1) p' hp')
    have hidx : 0 + i + 1 = i + 1 := by omega
    rw [hidx] at hs2
    have hstep := stepOf_fin (perfConfig strToNum chainName eth avax glp fees) (stateOf s) (i + 1)
      p' _ _ _ _ (btcWeight chainName) (btcWeight chainName) (avaxWeight chainName)
      (1 - btcWeight chainName - btcWeight chainName - avaxWeight chainName) qb qe qa
      c1 c2 c3 c4 rfl rfl rfl (stableWeight_fin chainName) hqb
      (jsOr_of_fin _ _ qe hqe0 hqe) (jsOr_of_fin _ _ qa hqa0 hqa) hqb0 hqe0 hqa0
    refine ⟨g, b, e, a, qb, qe, qa, hg, hpb, hpe, hpa, ?_, ?_, ?_, ?_⟩
    · rw [hs2]; exact hstep.2.1
    · rw [hs2]; exact hstep.2.2.1
    · rw [hs2]; exact hstep.2.2.2.1
    · rw [hs2, hstep.1]
      congr 1
      field_simp
      ring
  · intro i s hs
    obtain ⟨g, b, e, a, _, _, _, hg, hpb, hpe, hpa, c1, c2, c3, c4⟩ :=
      glpPerformanceSteps_counts strToNum chainName btc eth avax glp fees first hbtc hb he ha
        hstart i s hs
    exact ⟨g, b, e, a, hg, hpb, hpe, hpa, c1, c2, c3, c4⟩

theorem twoDayBtc_values (i : Nat) (p : PricePoint) (h : twoDayBtc[i]? = some p) :
    ∃ q : ℚ, 0 < q ∧ p.value = .num (.fin q) := by
  rcases i with _ | _ | i
  · simp [twoDayBtc] at h
    subst h
    exact ⟨50000, by norm_num, rfl⟩
  · simp [twoDayBtc] at h
    subst h
    exact ⟨51000, by norm_num, rfl⟩
  · simp [twoDayBtc] at h

theorem twoDayEth_values (i : Nat) (h : i < twoDayBtc.length) :
    ∃ q : ℚ, 0 < q ∧ valueAt twoDayEth i = .num (.fin q) := by
  rcases i with _ | _ | i
  · exact ⟨3000, by norm_num, rfl⟩
  · exact ⟨3100, by norm_num, rfl⟩
  · have hlen : twoDayBtc.length = 2 := rfl
    omega

theorem twoDayAvax_values (i : Nat) (h : i < twoDayBtc.length) :
    ∃ q : ℚ, 0 < q ∧ valueAt twoDayAvax i = .num (.fin q) := by
  rcases i with _ | _ | i
  · exact ⟨50, by norm_num, rfl⟩
  · exact ⟨55, by norm_num, rfl⟩
  · have hlen : twoDayBtc.length = 2 := rfl
    omega

theorem oneDayGlp_start : glpStartPrice oneDayGlp ⟨1630368000, .ofRat 50000⟩ = .fin 1 := by
  simp [glpStartPrice, glpDataById, oneDayGlp, assocSet, assocLookup, JsNum.truthy]

theorem twoDay_synthetic :
    (glpPerformanceSteps noStrings "arbitrum" twoDayBtc twoDayEth twoDayAvax oneDayGlp twoDayFees
      ⟨1630368000, .ofRat 50000⟩).map (fun s => s.syntheticPrice) = [.fin 1, .fin (76 / 75)] := by
  have hstart : glpStartPrice oneDayGlp ⟨1630368000, JsVal.num (JsNum.fin 50000)⟩ = .fin 1 :=
    oneDayGlp_start
  simp [hstart, glpPerformanceSteps, perfLoop, stepOf, stateOf, perfConfig, initialState, twoDayBtc,
    twoDayEth, twoDayAvax, valueAt, jsOr, JsVal.truthy, JsVal.ofRat, JsNum.truthy,
    syntheticPriceOf, toNumber, btcWeight, avaxWeight, stableWeight, JsNum.div]
  norm_num

/-- C15 (witness): on Arbitrum with BTC 50000, 51000, ETH 3000, 3100, AVAX 50,
55 and a start price of 1 the synthetic price is 1, then
`1 * (0.25 * 51000 / 50000 + 0.25 * 3100 / 3000 + 0 + 0.5) = 76 / 75`. -/
theorem useGlpPerformanceData_synthetic_price_witness :
    (glpPerformanceSteps noStrings "arbitrum" twoDayBtc twoDayEth twoDayAvax oneDayGlp twoDayFees
      ⟨1630368000, .ofRat 50000⟩).map (fun s => s.syntheticPrice) = [.fin 1, .fin (76 / 75)] ∧
    useGlpPerformanceData noStrings "arbitrum" (some twoDayBtc) (some twoDayEth)
        (some twoDayAvax) (some oneDayGlp) (some twoDayFees) =
      .ok (some ((glpPerformanceSteps noStrings "arbitrum" twoDayBtc twoDayEth twoDayAvax oneDayGlp
        twoDayFees ⟨1630368000, .ofRat 50000⟩).map
        (perfPoint (perfConfig noStrings "arbitrum" twoDayEth twoDayAvax oneDayGlp twoDayFees)))) :=
  ⟨twoDay_synthetic,
    (useGlpPerformanceData_synthetic_price noStrings "arbitrum" twoDayBtc twoDayEth twoDayAvax
      oneDayGlp twoDayFees ⟨1630368000, .ofRat 50000⟩ rfl (by simp [oneDayGlp])
      (by simp [twoDayFees])
      (fun i p h => (twoDayBtc_values i p h).imp (fun _ hq => ⟨ne_of_gt hq.1, hq.2⟩))
      (fun i h => (twoDayEth_values i h).imp (fun _ hq => ⟨ne_of_gt hq.1, hq.2⟩))
      (fun i h => (twoDayAvax_values i h).imp (fun _ hq => ⟨ne_of_gt hq.1, hq.2⟩))
      ⟨1, oneDayGlp_start⟩).1⟩

theorem weights_sign (chainName : String) :
    0 < btcWeight chainName ∧ 0 ≤ avaxWeight chainName ∧
      0 < 1 - btcWeight chainName - btcWeight chainName - avaxWeight chainName := by
  by_cases h : chainName = "avalanche"
  · simp only [btcWeight, avaxWeight, h, if_true]
    norm_num
  · simp only [btcWeight, avaxWeight, h, if_false]
    norm_num

theorem jsOr_of_falsy_or_pos (v prev : JsVal) (p : ℚ) (hp : 0 < p) (hprev : prev = .num (.fin p))
    (h : v.truthy = false ∨ ∃ q : ℚ, 0 < q ∧ v = .num (.fin q)) :
    ∃ q : ℚ, 0 < q ∧ jsOr v prev = .num (.fin q) := by
  rcases h with h | ⟨q, hq, hv⟩
  · exact ⟨p, hp, by simp [jsOr, h, hprev]⟩
  · exact ⟨q, hq, jsOr_of_fin v prev q (ne_of_gt hq) hv⟩

/-- With positive prices and start price every iteration has a positive
synthetic price and the unit counts of a rebalance at that price. -/
theorem glpPerformanceSteps_positive (strToNum : String → JsNum) (chainName : String)
    (btc eth avax : List PricePoint) (glp : List GlpPoint) (fees : List FeePoint)
    (first : PricePoint) (hbtc : btc[0]? = some first)
    (hb : ∀ (i : Nat) (p : PricePoint), btc[i]? = some p → ∃ q : ℚ, 0 < q ∧ p.value = .num (.fin q))
    (he0 : ∃ q : ℚ, 0 < q ∧ valueAt eth 0 = .num (.fin q))
    (ha0 : ∃ q : ℚ, 0 < q ∧ valueAt avax 0 = .num (.fin q))
    (he : ∀ i, (valueAt eth i).truthy = false ∨ ∃ q : ℚ, 0 < q ∧ valueAt eth i = .num (.fin q))
    (ha : ∀ i, (valueAt avax i).truthy = false ∨ ∃ q : ℚ, 0 < q ∧ valueAt avax i = .num (.fin q))
    (hstart : ∃ g0 : ℚ, 0 < g0 ∧ glpStartPrice glp first = .fin g0)
    (i : Nat) (s : PerfStep)
    (hs : (glpPerformanceSteps strToNum chainName btc eth avax glp fees first)[i]? = some s) :
    ∃ g b e a : ℚ, 0 < g ∧ 0 < b ∧ 0 < e ∧ 0 < a ∧ s.syntheticPrice = .fin g ∧
      s.btcPrice = .num (.fin b) ∧ s.ethPrice = .num (.fin e) ∧ s.avaxPrice = .num (.fin a) ∧
      s.indexBtcCount = .fin (g * btcWeight chainName / b) ∧
      s.indexEthCount = .fin (g * btcWeight chainName / e) ∧
      s.indexAvaxCount = .fin (g * avaxWeight chainName / a) ∧
      s.indexStableCount =
        .fin (g * (1 - btcWeight chainName - btcWeight chainName - avaxWeight chainName)) := by
  obtain ⟨hwb, hwa, hws⟩ := weights_sign chainName
  refine perfLoop_invariant (perfConfig strToNum chainName eth avax glp fees)
    (fun _ st => ∃ g b e a qe qa : ℚ, 0 < g ∧ 0 < b ∧ 0 < e ∧ 0 < a ∧ 0 < qe ∧ 0 < qa ∧
      st.indexBtcCount = .fin (g * btcWeight chainName / b) ∧
      st.indexEthCount = .fin (g * btcWeight chainName / e) ∧
      st.indexAvaxCount = .fin (g * avaxWeight chainName / a) ∧
      st.indexStableCount =
        .fin (g * (1 - btcWeight chainName - btcWeight chainName - avaxWeight chainName)) ∧
      st.prevEthPrice = .num (.fin qe) ∧ st.prevAvaxPrice = .num (.fin qa))
    (fun _ s => ∃ g b e a : ℚ, 0 < g ∧ 0 < b ∧ 0 < e ∧ 0 < a ∧ s.syntheticPrice = .fin g ∧
      s.btcPrice = .num (.fin b) ∧ s.ethPrice = .num (.fin e) ∧ s.avaxPrice = .num (.fin a) ∧
      s.indexBtcCount = .fin (g * btcWeight chainName / b) ∧
      s.indexEthCount = .fin (g * btcWeight chainName / e) ∧
      s.indexAvaxCount = .fin (g * avaxWeight chainName / a) ∧
      s.indexStableCount =
        .fin (g * (1 - btcWeight chainName - btcWeight chainName - avaxWeight chainName)))
    btc _ 0 ?_ ?_ i i s (by omega) hs
  · intro i' j st p hj hp hP
    obtain ⟨g, b, e, a, qe, qa, hg, hb', he', ha', hqe, hqa, c1, c2, c3, c4, p1, p2⟩ := hP
    have hj' : j = i' := by omega
    subst hj'
    obtain ⟨nb, hnb0, hnb⟩ := hb j p hp
    obtain ⟨ne, hne0, hne⟩ := jsOr_of_falsy_or_pos _ _ qe hqe p1 (he j)
    obtain ⟨na, hna0, hna⟩ := jsOr_of_falsy_or_pos _ _ qa hqa p2 (ha j)
    have hstep := stepOf_fin (perfConfig strToNum chainName eth avax glp fees) st j p _ _ _ _
      (btcWeight chainName) (btcWeight chainName) (avaxWeight chainName)
      (1 - btcWeight chainName - btcWeight chainName - avaxWeight chainName) nb ne na
      c1 c2 c3 c4 rfl rfl rfl (stableWeight_fin chainName) hnb hne hna
      (ne_of_gt hnb0) (ne_of_gt hne0) (ne_of_gt hna0)
    obtain ⟨s1, s2, s3, s4, s5, s6, s7, s8⟩ := hstep
    have hpos : 0 < g * btcWeight chainName / b * nb + g * btcWeight chainName / e * ne +
        g * avaxWeight chainName / a * na +
        g * (1 - btcWeight chainName - btcWeight chainName - avaxWeight chainName) := by
      have t1 : 0 ≤ g * btcWeight chainName / b * nb := by positivity
      have t2 : 0 ≤ g * btcWeight chainName / e * ne := by positivity
      have t3 : 0 ≤ g * avaxWeight chainName / a * na := by positivity
      have t4 : 0 < g * (1 - btcWeight chainName - btcWeight chainName - avaxWeight chainName) :=
        mul_pos hg hws
      linarith
    exact ⟨⟨_, nb, ne, na, hpos, hnb0, hne0, hna0, s1, s2, s3, s4, s5, s6, s7, s8⟩,
      ⟨_, nb, ne, na, ne, na, hpos, hnb0, hne0, hna0, hne0, hna0, s5, s6, s7, s8, s3, s4⟩⟩
  · obtain ⟨g0, hg0pos, hg0⟩ := hstart
    obtain ⟨qb, hqb0, hqb⟩ := hb 0 first hbtc
    obtain ⟨qe, hqe0, hqe⟩ := he0
    obtain ⟨qa, hqa0, hqa⟩ := ha0
    refine ⟨g0, qb, qe, qa, 3400, 1000, hg0pos, hqb0, hqe0, hqa0, by norm_num, by norm_num,
      ?_, ?_, ?_, ?_, rfl, rfl⟩
    · simp [initialState, hg0, hqb, toNumber, ne_of_gt hqb0]
    · simp [initialState, hg0, hqe, toNumber, ne_of_gt hqe0]
    · simp [initialState, hg0, hqa, toNumber, ne_of_gt hqa0]
    · simp [initialState, hg0, stableWeight_fin]

/-- C16 (amended): for every chain selector the basket weights sum to 1; when
the BTC prices are positive numbers, the first ETH and AVAX prices are present
and positive, every later ETH and AVAX price is missing, falsy or positive, and
the start price is positive, then after the rebalance of every iteration the
value shares `indexXCount * price_X / syntheticPrice` equal the weights. -/
theorem useGlpPerformanceData_weights (strToNum : String → JsNum) (chainName : String)
    (btc eth avax : List PricePoint) (glp : List GlpPoint) (fees : List FeePoint)
    (first : PricePoint) (hbtc : btc[0]? = some first) (hglp : glp ≠ []) (hfees : fees ≠ [])
    (hb : ∀ (i : Nat) (p : PricePoint), btc[i]? = some p → ∃ q : ℚ, 0 < q ∧ p.value = .num (.fin q))
    (he0 : ∃ q : ℚ, 0 < q ∧ valueAt eth 0 = .num (.fin q))
    (ha0 : ∃ q : ℚ, 0 < q ∧ valueAt avax 0 = .num (.fin q))
    (he : ∀ i, (valueAt eth i).truthy = false ∨ ∃ q : ℚ, 0 < q ∧ valueAt eth i = .num (.fin q))
    (ha : ∀ i, (valueAt avax i).truthy = false ∨ ∃ q : ℚ, 0 < q ∧ valueAt avax i = .num (.fin q))
    (hstart : ∃ g0 : ℚ, 0 < g0 ∧ glpStartPrice glp first = .fin g0) :
    useGlpPerformanceData strToNum chainName (some btc) (some eth) (some avax) (some glp)
        (some fees) =
      .ok (some ((glpPerformanceSteps strToNum chainName btc eth avax glp fees first).map
        (perfPoint (perfConfig strToNum chainName eth avax glp fees)))) ∧
    (((JsNum.fin (btcWeight chainName)).add (.fin (btcWeight chainName))).add
        (.fin (avaxWeight chainName))).add (stableWeight chainName) = .fin 1 ∧
    (∀ (i : Nat) (s : PerfStep),
      (glpPerformanceSteps strToNum chainName btc eth avax glp fees first)[i]? = some s →
      (s.indexBtcCount.mul (toNumber strToNum s.btcPrice)).div s.syntheticPrice =
        .fin (btcWeight chainName) ∧
      (s.indexEthCount.mul (toNumber strToNum s.ethPrice)).div s.syntheticPrice =
        .fin (btcWeight chainName) ∧
      (s.indexAvaxCount.mul (toNumber strToNum s.avaxPrice)).div s.syntheticPrice =
        .fin (avaxWeight chainName) ∧
      s.indexStableCount.div s.syntheticPrice = stableWeight chainName) := by
  refine ⟨useGlpPerformanceData_eq strToNum chainName btc eth avax glp fees first hbtc hglp hfees,
    ?_, ?_⟩
  · rw [stableWeight_fin]
    simp only [JsNum.add_fin]
    congr 1
    ring
  · intro i s hs
    obtain ⟨g, b, e, a, hg, hb', he', ha', hsyn, hpb, hpe, hpa, c1, c2, c3, c4⟩ :=
      glpPerformanceSteps_positive strToNum chainName btc eth avax glp fees first hbtc hb he0 ha0
        he ha hstart i s hs
    have tb : toNumber strToNum (JsVal.num (.fin b)) = .fin b := rfl
    have te : toNumber strToNum (JsVal.num (.fin e)) = .fin e := rfl
    have ta : toNumber strToNum (JsVal.num (.fin a)) = .fin a := rfl
    have hg0 : g ≠ 0 := ne_of_gt hg
    have hb0 : b ≠ 0 := ne_of_gt hb'
    have he0' : e ≠ 0 := ne_of_gt he'
    have ha0' : a ≠ 0 := ne_of_gt ha'
    rw [hsyn, hpb, hpe, hpa, tb, te, ta, c1, c2, c3, c4, stableWeight_fin]
    simp only [JsNum.mul_fin, JsNum.div_fin _ _ hg0]
    refine ⟨?_, ?_, ?_, ?_⟩ <;> congr 1 <;> field_simp

theorem gapEth_values (i : Nat) :
    (valueAt gapEth i).truthy = false ∨ ∃ q : ℚ, 0 < q ∧ valueAt gapEth i = .num (.fin q) := by
  rcases i with _ | _ | i
  · exact Or.inr ⟨3000, by norm_num, rfl⟩
  · exact Or.inl rfl
  · exact Or.inl (by simp [valueAt, gapEth, JsVal.truthy])

theorem twoDayAvax_values_or (i : Nat) :
    (valueAt twoDayAvax i).truthy = false ∨
      ∃ q : ℚ, 0 < q ∧ valueAt twoDayAvax i = .num (.fin q) := by
  rcases i with _ | _ | i
  · exact Or.inr ⟨50, by norm_num, rfl⟩
  · exact Or.inr ⟨55, by norm_num, rfl⟩
  · exact Or.inl (by simp [valueAt, twoDayAvax, JsVal.truthy])

/-- C16 (witness of the amended statement): the Avalanche basket over two days
with a missing second ETH price meets the hypotheses, so its weights sum to 1
and its value shares equal the weights at both points. -/
theorem useGlpPerformanceData_weights_witness :
    (((JsNum.fin (btcWeight "avalanche")).add (.fin (btcWeight "avalanche"))).add
        (.fin (avaxWeight "avalanche"))).add (stableWeight "avalanche") = .fin 1 ∧
    (∀ (i : Nat) (s : PerfStep),
      (glpPerformanceSteps noStrings "avalanche" twoDayBtc gapEth twoDayAvax oneDayGlp twoDayFees
        ⟨1630368000, .ofRat 50000⟩)[i]? = some s →
      (s.indexBtcCount.mul (toNumber noStrings s.btcPrice)).div s.syntheticPrice =
        .fin (btcWeight "avalanche") ∧
      (s.indexEthCount.mul (toNumber noStrings s.ethPrice)).div s.syntheticPrice =
        .fin (btcWeight "avalanche") ∧
      (s.indexAvaxCount.mul (toNumber noStrings s.avaxPrice)).div s.syntheticPrice =
        .fin (avaxWeight "avalanche") ∧
      s.indexStableCount.div s.syntheticPrice = stableWeight "avalanche") ∧
    (glpPerformanceSteps noStrings "avalanche" twoDayBtc gapEth twoDayAvax oneDayGlp twoDayFees
      ⟨1630368000, .ofRat 50000⟩).length = 2 :=
  ⟨(useGlpPerformanceData_weights noStrings "avalanche" twoDayBtc gapEth twoDayAvax oneDayGlp
      twoDayFees ⟨1630368000, .ofRat 50000⟩ rfl (by simp [oneDayGlp]) (by simp [twoDayFees])
      twoDayBtc_values ⟨3000, by norm_num, rfl⟩ ⟨50, by norm_num, rfl⟩ gapEth_values twoDayAvax_values_or
      ⟨1, by norm_num, oneDayGlp_start⟩).2.1,
   (useGlpPerformanceData_weights noStrings "avalanche" twoDayBtc gapEth twoDayAvax oneDayGlp
      twoDayFees ⟨1630368000, .ofRat 50000⟩ rfl (by simp [oneDayGlp]) (by simp [twoDayFees])
      twoDayBtc_values ⟨3000, by norm_num, rfl⟩ ⟨50, by norm_num, rfl⟩ gapEth_values twoDayAvax_values_or
      ⟨1, by norm_num, oneDayGlp_start⟩).2.2,
   by simp [glpPerformanceSteps, perfLoop_length, twoDayBtc]⟩

/-- C16 (counterexample): on Arbitrum with an empty ETH series (BTC 50000, 51000,
AVAX 50, 55, start price 1) the call returns a series of two points whose
synthetic price and BTC value share are `NaN` at both steps, while the BTC weight
is 0.25. -/
theorem useGlpPerformanceData_weights_missing_first_price :
    (∃ pts, useGlpPerformanceData noStrings "arbitrum" (some twoDayBtc) (some [])
        (some twoDayAvax) (some oneDayGlp) (some twoDayFees) = .ok (some pts) ∧
      pts.map (fun p => p.syntheticPrice) = [.nan, .nan]) ∧
    (glpPerformanceSteps noStrings "arbitrum" twoDayBtc [] twoDayAvax oneDayGlp twoDayFees
      ⟨1630368000, .ofRat 50000⟩).map (fun s => (s.syntheticPrice,
        (s.indexBtcCount.mul (toNumber noStrings s.btcPrice)).div s.syntheticPrice,
        (s.indexEthCount.mul (toNumber noStrings s.ethPrice)).div s.syntheticPrice)) =
      [(.nan, .nan, .nan), (.nan, .nan, .nan)] ∧
    btcWeight "arbitrum" = 1 / 4 ∧ JsNum.nan ≠ .fin (btcWeight "arbitrum") := by
  have hstart : glpStartPrice oneDayGlp ⟨1630368000, JsVal.num (JsNum.fin 50000)⟩ = .fin 1 :=
    oneDayGlp_start
  refine ⟨⟨_, useGlpPerformanceData_eq noStrings "arbitrum" twoDayBtc [] twoDayAvax oneDayGlp
    twoDayFees ⟨1630368000, .ofRat 50000⟩ rfl (by simp [oneDayGlp]) (by simp [twoDayFees]), ?_⟩,
    ?_, by simp [btcWeight]; norm_num, by simp⟩
  · simp [hstart, glpPerformanceSteps, perfLoop, stepOf, stateOf, perfConfig, initialState,
      twoDayBtc, twoDayAvax, valueAt, jsOr, JsVal.truthy, JsVal.ofRat, JsNum.truthy,
      syntheticPriceOf, toNumber, btcWeight, avaxWeight, stableWeight, JsNum.div, JsNum.mul,
      JsNum.add, perfPoint]
  · simp [hstart, glpPerformanceSteps, perfLoop, stepOf, stateOf, perfConfig, initialState,
      twoDayBtc, twoDayAvax, valueAt, jsOr, JsVal.truthy, JsVal.ofRat, JsNum.truthy,
      syntheticPriceOf, toNumber, btcWeight, avaxWeight, stableWeight, JsNum.div, JsNum.mul,
      JsNum.add]

/-! ## useSwapSources: the day buckets -/

theorem objectKeyOrder_perm (ks : List Nat) : List.Perm (objectKeyOrder ks) ks := by
  simp only [objectKeyOrder]
  exact ((List.perm_insertionSort _ _).append_right _).trans (List.filter_append_perm _ ks)

theorem dayBucket_floor (t : Nat) : dayBucket t = Nat.floor ((t : ℚ) / 86400) * 86400 := by
  have h := @Nat.floor_div_eq_div ℚ _ _ t 86400
  simp only [Nat.cast_ofNat] at h
  rw [dayBucket, h]

theorem dayBucket_idem (t : Nat) : dayBucket (dayBucket t) = dayBucket t := by
  simp only [dayBucket]
  rw [Nat.mul_div_cancel _ (by norm_num : 0 < 86400)]

theorem swapSourcesTransform_timestamps (strToNum : String → JsNum)
    (mapping : List (String × String)) (topCount : Nat) (a b c d e : List SourceRecord) :
    (swapSourcesTransform strToNum mapping topCount a b c d e).map (fun p => p.timestamp) =
      (objectKeyOrder (distinctKeys
        ((a ++ b ++ c ++ d ++ e).map (fun r => dayBucket r.timestamp)))).insertionSort
        (fun x y => x ≤ y) := by
  simp only [swapSourcesTransform]
  rw [List.map_insertionSort (fun x y : SourcePoint => x.timestamp ≤ y.timestamp)
    (fun x y : Nat => x ≤ y) (fun p : SourcePoint => p.timestamp) _ (fun _ _ _ _ => Iff.rfl)]
  simp [List.map_map, Function.comp_def, sourcePoint]

theorem swapSourcesTransform_timestamp_mem (strToNum : String → JsNum)
    (mapping : List (String × String)) (topCount : Nat) (a b c d e : List SourceRecord)
    (k : Nat) :
    k ∈ (swapSourcesTransform strToNum mapping topCount a b c d e).map (fun p => p.timestamp) ↔
      ∃ r ∈ a ++ b ++ c ++ d ++ e, dayBucket r.timestamp = k := by
  rw [swapSourcesTransform_timestamps, List.mem_insertionSort, (objectKeyOrder_perm _).mem_iff,
    mem_distinctKeys, List.mem_map]

/-- C23: the day key of `useSwapSources` is `floor(t / 86400) * 86400` and is
idempotent; the output of the transform (the result of `useSwapSources` for a
chain with a source table) has its timestamps in strictly ascending order, so
one point per bucket, a point for exactly the buckets of the records, each
timestamp a multiple of 86400, and bucketing the output timestamps again
changes nothing. -/
theorem useSwapSources_day_buckets (strToNum : String → JsNum)
    (mapping : List (String × String)) (topCount : Nat) (a b c d e : List SourceRecord) :
    (∀ t : Nat, dayBucket t = Nat.floor ((t : ℚ) / 86400) * 86400 ∧
      dayBucket (dayBucket t) = dayBucket t) ∧
    ((swapSourcesTransform strToNum mapping topCount a b c d e).map
      (fun p => p.timestamp)).Pairwise (fun x y => x < y) ∧
    (∀ k : Nat,
      k ∈ (swapSourcesTransform strToNum mapping topCount a b c d e).map (fun p => p.timestamp) ↔
        ∃ r ∈ a ++ b ++ c ++ d ++ e, dayBucket r.timestamp = k) ∧
    (∀ pt ∈ swapSourcesTransform strToNum mapping topCount a b c d e,
      86400 ∣ pt.timestamp ∧ dayBucket pt.timestamp = pt.timestamp) ∧
    (swapSourcesTransform strToNum mapping topCount a b c d e).map
        (fun p => dayBucket p.timestamp) =
      (swapSourcesTransform strToNum mapping topCount a b c d e).map (fun p => p.timestamp) ∧
    (∀ chainName : String, knownSwapSources chainName = some mapping →
      useSwapSources strToNum chainName a b c d e =
        .ok (swapSourcesTransform strToNum mapping 30 a b c d e)) := by
  have hbucket : ∀ pt ∈ swapSourcesTransform strToNum mapping topCount a b c d e,
      86400 ∣ pt.timestamp ∧ dayBucket pt.timestamp = pt.timestamp := by
    intro pt hpt
    have hmem : pt.timestamp ∈
        (swapSourcesTransform strToNum mapping topCount a b c d e).map (fun p => p.timestamp) :=
      List.mem_map.mpr ⟨pt, hpt, rfl⟩
    rw [swapSourcesTransform_timestamp_mem] at hmem
    obtain ⟨r, _, hr⟩ := hmem
    rw [← hr]
    exact ⟨⟨r.timestamp / 86400, by simp [dayBucket, Nat.mul_comm]⟩, dayBucket_idem _⟩
  refine ⟨fun t => ⟨dayBucket_floor t, dayBucket_idem t⟩, ?_,
    swapSourcesTransform_timestamp_mem strToNum mapping topCount a b c d e, hbucket, ?_,
    fun chainName h => useSwapSources_eq strToNum chainName mapping a b c d e h⟩
  · rw [swapSourcesTransform_timestamps]
    apply List.Sorted.lt_of_le
    · exact List.sorted_insertionSort (fun x y : Nat => x ≤ y) _
    · exact (List.perm_insertionSort _ _).nodup_iff.mpr
        ((objectKeyOrder_perm _).nodup_iff.mpr (nodup_distinctKeys _))
  · exact List.map_congr_left (fun pt hpt => (hbucket pt hpt).2)

/-- C23 (witness): on Arbitrum, records at 1630458000, 1630368010 and 1630461600
give the two points 1630368000 and 1630454400. -/
theorem useSwapSources_day_buckets_witness :
    (swapSourcesTransform noStrings (objectLiteral knownSwapSourcesArbitrumEntries) 30
      threeHourSources [] [] [] []).map (fun p => p.timestamp) = [1630368000, 1630454400] ∧
    useSwapSources noStrings "arbitrum" threeHourSources [] [] [] [] =
      .ok (swapSourcesTransform noStrings (objectLiteral knownSwapSourcesArbitrumEntries) 30
        threeHourSources [] [] [] []) := by
  refine ⟨?_, (useSwapSources_day_buckets noStrings
    (objectLiteral knownSwapSourcesArbitrumEntries) 30 threeHourSources [] [] [] []).2.2.2.2.2
      "arbitrum" rfl⟩
  rw [swapSourcesTransform_timestamps]
  decide

/-! ## useVolumeDataFromServer: the order of the keys -/

/-- C22 (code at the failing input): with `from = 0`, `to = 200000` and records
at 86400 and 172800 the keys are sorted as the strings `"172800" < "86400"`, so
the output has the point of 172800 first and the point of 86400 second, and the
cumulative volume runs in that order (2, then 3). -/
theorem useVolumeDataFromServer_string_order :
    (useVolumeDataFromServer noStrings 0 200000 twoLengthServer).map
        (fun p => (p.timestamp, p.all, p.cumulative)) =
      [(172800, .fin 2, .fin 2), (86400, .fin 1, .fin 3)] ∧
    objectKeyOrder [86400, 172800] = [86400, 172800] ∧
    digitsLT (decimalDigits 172800) (decimalDigits 86400) = true := by
  have hk : sortedServerKeys (twoLengthServer.foldl (serverReduceStep noStrings 0 200000) []) =
      [172800, 86400] := by decide
  refine ⟨?_, by decide, by decide⟩
  simp only [useVolumeDataFromServer, hk]
  simp [twoLengthServer, serverReduceStep, serverLoop, serverAll, movingAverage, assocLookup,
    assocSet, actionType, toNumber, orZero, JsVal.ofRat, E30, PROPS, JsNum.truthy, JsNum.add,
    JsNum.sub, JsNum.neg, JsNum.div, MOVING_AVERAGE_PERIOD, MOVING_AVERAGE_DAYS]
  norm_num

/-! ## The liquidity-pool benchmarks -/

theorem getImpermanentLoss_sqrt (r : ℝ) :
    1 + getImpermanentLoss Real.sqrt r = 2 * Real.sqrt r / (1 + r) := by
  simp [getImpermanentLoss]

/-- The benchmark expression shared by the three assets. -/
theorem lpPrice_sqrt (start p0 p : ℝ) (hp0 : 0 < p0) (hp : 0 < p) :
    (start * (5 / 10) / p0 * p + start / 2) * (1 + getImpermanentLoss Real.sqrt (p / p0)) =
      start * Real.sqrt (p / p0) := by
  have hr : 0 < p / p0 := div_pos hp hp0
  have h1 : (1 + p / p0) ≠ 0 := by positivity
  rw [getImpermanentLoss_sqrt]
  field_simp
  ring

theorem getImpermanentLoss_nonpos (r : ℝ) (hr : 0 < r) :
    getImpermanentLoss Real.sqrt r ≤ 0 ∧ (getImpermanentLoss Real.sqrt r = 0 ↔ r = 1) := by
  have hs : Real.sqrt r * Real.sqrt r = r := Real.mul_self_sqrt hr.le
  have h1 : (0 : ℝ) < 1 + r := by positivity
  have hkey : getImpermanentLoss Real.sqrt r = -((1 - Real.sqrt r) ^ 2) / (1 + r) := by
    simp only [getImpermanentLoss]
    field_simp
    nlinarith [hs]
  refine ⟨?_, ?_⟩
  · rw [hkey]
    apply div_nonpos_of_nonpos_of_nonneg
    · have := sq_nonneg (1 - Real.sqrt r)
      linarith
    · exact h1.le
  · rw [hkey, div_eq_zero_iff, neg_eq_zero, sq_eq_zero_iff]
    constructor
    · rintro (h | h)
      · have h2 : Real.sqrt r = 1 := by linarith
        rw [h2] at hs
        linarith
      · linarith
    · intro h
      left
      rw [h, Real.sqrt_one]
      ring

/-- C24: for first price `p0 > 0` and current price `p > 0` each of the three
benchmarks `lpBtcPrice`, `lpEthPrice`, `lpAvaxPrice` equals
`GLP_START_PRICE * sqrt(p / p0)`, which is `GLP_START_PRICE` when `p = p0`; and
`getImpermanentLoss(r) <= 0` for every `r > 0`, with equality exactly at
`r = 1`. -/
theorem lpPrice_eq_start_mul_sqrt (start p0 p : ℝ) (hp0 : 0 < p0) (hp : 0 < p) :
    lpBtcPrice Real.sqrt start p0 p = start * Real.sqrt (p / p0) ∧
    lpEthPrice Real.sqrt start p0 p = start * Real.sqrt (p / p0) ∧
    lpAvaxPrice Real.sqrt start p0 p = start * Real.sqrt (p / p0) ∧
    (p = p0 → lpBtcPrice Real.sqrt start p0 p = start ∧
      lpEthPrice Real.sqrt start p0 p = start ∧ lpAvaxPrice Real.sqrt start p0 p = start) ∧
    (∀ r : ℝ, 0 < r →
      getImpermanentLoss Real.sqrt r ≤ 0 ∧ (getImpermanentLoss Real.sqrt r = 0 ↔ r = 1)) := by
  have h := lpPrice_sqrt start p0 p hp0 hp
  have hb : lpBtcPrice Real.sqrt start p0 p = start * Real.sqrt (p / p0) := h
  have he : lpEthPrice Real.sqrt start p0 p = start * Real.sqrt (p / p0) := h
  have ha : lpAvaxPrice Real.sqrt start p0 p = start * Real.sqrt (p / p0) := h
  refine ⟨hb, he, ha, ?_, getImpermanentLoss_nonpos⟩
  intro hpp
  have hone : Real.sqrt (p / p0) = 1 := by
    rw [hpp, div_self (ne_of_gt hp0), Real.sqrt_one]
  rw [hb, he, ha, hone, mul_one]
  exact ⟨rfl, rfl, rfl⟩

/-- C24 (witness): with start price 1, first price 1 and current price 4 the BTC
benchmark is `sqrt 4`; computed on the rationals with `sqrt 4 = 2` it is
`(0.5 * 4 + 0.5) * (1 + (2 * 2 / 5 - 1)) = 2`. -/
theorem lpPrice_eq_start_mul_sqrt_witness :
    lpBtcPrice Real.sqrt 1 1 4 = 1 * Real.sqrt (4 / 1) ∧
    lpBtcPrice sqrtSmall 1 1 4 = 2 ∧ getImpermanentLoss sqrtSmall 4 = -1 / 5 :=
  ⟨(lpPrice_eq_start_mul_sqrt 1 1 4 (by norm_num) (by norm_num)).1,
    by norm_num [lpBtcPrice, lpBtcCount, getImpermanentLoss, sqrtSmall],
    by norm_num [getImpermanentLoss, sqrtSmall]⟩

/-! ## fillNa: the output at consecutive indices -/

theorem carriedOver_take_succ (keys : List String) (k : String) (arr : List Record) (p0 : JsVal)
    (j : Nat) (ej : Record) (hj : arr[j]? = some ej) :
    carriedOver keys k p0 (arr.take (j + 1)) =
      carried keys (carriedOver keys k p0 (arr.take j)) ej k := by
  simp [carriedOver, List.take_succ, hj, List.foldl_append]

theorem fillNa_getField (arr : List Record) (first : Record) (k : String) (i : Nat)
    (el : Record) (hfirst : arr.head? = some first) (hi : arr[i]? = some el) :
    ∃ el', (fillNa arr)[i]? = some el' ∧
      getField el' k =
        if k ∈ objectKeys first ∧ (getField el k).truthy = false ∧
            (carriedOver (objectKeys first) k .undefined (arr.take i)).truthy = true then
          carriedOver (objectKeys first) k .undefined (arr.take i)
        else getField el k := by
  obtain ⟨el', h1, h2⟩ := fillNa_lookup arr first k i el hfirst hi
  refine ⟨el', h1, ?_⟩
  simp only [getField, h2, filledLookup]
  split_ifs <;> rfl

/-- The first element keeps its fields. -/
theorem fillNa_head (arr : List Record) (first : Record) (k : String)
    (hfirst : arr.head? = some first) :
    ∃ o, (fillNa arr)[0]? = some o ∧ getField o k = getField first k := by
  have h0 : arr[0]? = some first := by
    cases arr with
    | nil => simp at hfirst
    | cons a rest => simpa using hfirst
  obtain ⟨o, h1, h2⟩ := fillNa_getField arr first k 0 first hfirst h0
  refine ⟨o, h1, ?_⟩
  rw [h2]
  simp [carriedOver, JsVal.truthy]

/-- A field of a key of the first record, at index `j + 1` of the output: the
value of the element when truthy, else the output value at index `j` when that is
truthy, else the value of the element. -/
theorem fillNa_step (arr : List Record) (first : Record) (k : String)
    (hfirst : arr.head? = some first) (hk : k ∈ objectKeys first) (j : Nat) (ej ei : Record)
    (hj : arr[j]? = some ej) (hi : arr[j + 1]? = some ei) :
    ∃ oj oi, (fillNa arr)[j]? = some oj ∧ (fillNa arr)[j + 1]? = some oi ∧
      getField oi k =
        if (getField ei k).truthy = true then getField ei k
        else if (getField oj k).truthy = true then getField oj k
        else getField ei k := by
  obtain ⟨oj, hoj, hvj⟩ := fillNa_getField arr first k j ej hfirst hj
  obtain ⟨oi, hoi, hvi⟩ := fillNa_getField arr first k (j + 1) ei hfirst hi
  refine ⟨oj, oi, hoj, hoi, ?_⟩
  rw [hvi, hvj, carriedOver_take_succ (objectKeys first) k arr .undefined j ej hj]
  simp only [carried, hk, true_and]
  by_cases h1 : (getField ei k).truthy = true
  · simp [h1]
  · by_cases h2 : (getField ej k).truthy = true
    · simp [h1, h2]
    · by_cases h3 : (carriedOver (objectKeys first) k .undefined (arr.take j)).truthy = true
      · simp [h1, h2, h3]
      · simp [h1, h2, h3]

/-- A property of the values of a key that holds in every element holds in
every element of the output. -/
theorem fillNa_forall (arr : List Record) (k : String) (Q : JsVal → Prop)
    (hQ : ∀ e ∈ arr, Q (getField e k)) (i : Nat) (o : Record)
    (ho : (fillNa arr)[i]? = some o) : Q (getField o k) := by
  cases harr : arr with
  | nil => simp [harr, fillNa] at ho
  | cons first rest =>
    have hfirst : arr.head? = some first := by simp [harr]
    have hlen : i < arr.length := by
      have := (List.getElem?_eq_some_iff.mp ho).1
      simpa [fillNa_length] using this
    obtain ⟨el, hel⟩ : ∃ el, arr[i]? = some el := ⟨arr[i], List.getElem?_eq_getElem hlen⟩
    obtain ⟨o', ho', hv⟩ := fillNa_getField arr first k i el hfirst hel
    rw [ho'] at ho
    cases ho
    rw [hv]
    split_ifs with hc
    · have hcarried : ∀ (xs : List Record) (p : JsVal), (∀ e ∈ xs, Q (getField e k)) →
          (carriedOver (objectKeys first) k p xs).truthy = true →
          (carriedOver (objectKeys first) k p xs = p ∨
            Q (carriedOver (objectKeys first) k p xs)) := by
        intro xs
        induction xs with
        | nil => intro p _ _; exact Or.inl rfl
        | cons x xs ih =>
          intro p hxs ht
          have hstep : carriedOver (objectKeys first) k p (x :: xs) =
              carriedOver (objectKeys first) k (carried (objectKeys first) p x k) xs := rfl
          rw [hstep] at ht ⊢
          rcases ih (carried (objectKeys first) p x k)
            (fun e he => hxs e (List.mem_cons_of_mem _ he)) ht with h | h
          · rw [h]
            simp only [carried]
            split_ifs
            · exact Or.inr (hxs x (List.mem_cons_self _ _))
            · exact Or.inl rfl
          · exact Or.inr h
      rcases hcarried (arr.take i) .undefined
        (fun e he => hQ e (List.mem_of_mem_take he)) hc.2.2 with h | h
      · rw [h] at hc
        simp [JsVal.truthy] at hc
      · exact h
    · exact hQ el (List.mem_iff_getElem?.mpr ⟨i, hel⟩)

/-- Once an output value of a key of the first record is truthy, every later
one is. -/
theorem fillNa_truthy_mono (arr : List Record) (first : Record) (k : String)
    (hfirst : arr.head? = some first) (hk : k ∈ objectKeys first) (j i : Nat) (oj oi : Record)
    (hji : j ≤ i) (hoj : (fillNa arr)[j]? = some oj) (hoi : (fillNa arr)[i]? = some oi)
    (ht : (getField oj k).truthy = true) : (getField oi k).truthy = true := by
  induction i generalizing oi with
  | zero =>
    have hj0 : j = 0 := by omega
    subst hj0
    rw [hoj] at hoi
    cases hoi
    exact ht
  | succ n ih =>
    by_cases hjn : j = n + 1
    · subst hjn
      rw [hoj] at hoi
      cases hoi
      exact ht
    · have hlen : n + 1 < arr.length := by
        have := (List.getElem?_eq_some_iff.mp hoi).1
        simpa [fillNa_length] using this
      obtain ⟨en, hen⟩ : ∃ en, arr[n]? = some en :=
        ⟨arr[n], List.getElem?_eq_getElem (by omega)⟩
      obtain ⟨ei, hei⟩ : ∃ ei, arr[n + 1]? = some ei := ⟨arr[n + 1], List.getElem?_eq_getElem hlen⟩
      obtain ⟨o1, oi', hon, hoi', hv⟩ := fillNa_step arr first k hfirst hk n en ei hen hei
      rw [hoi'] at hoi
      cases hoi
      have hn := ih o1 (by omega) hon
      rw [hv]
      split_ifs with h1
      · exact h1
      · exact hn

/-! ## useGlpData -/

theorem replaceOrPush_mem (memo : List GlpItem) (newItem it : GlpItem)
    (h : it ∈ replaceOrPush memo newItem) : it ∈ memo ∨ it = newItem := by
  simp only [replaceOrPush] at h
  split at h
  · split_ifs at h
    · rcases List.mem_append.mp h with h | h
      · exact Or.inl (List.mem_of_mem_dropLast h)
      · exact Or.inr (by simpa using h)
    · rcases List.mem_append.mp h with h | h
      · exact Or.inl h
      · exact Or.inr (by simpa using h)
  · rcases List.mem_append.mp h with h | h
    · exact Or.inl h
    · exact Or.inr (by simpa using h)

theorem glpReduce_mem (strToNum : String → JsNum) (items : List GlpStat) (st : GlpReduceState)
    (it : GlpItem) (h : it ∈ (items.foldl (glpReduceStep strToNum) st).memo) :
    it ∈ st.memo ∨ ∃ r ∈ items, ∃ cu ce, it = glpNewItem strToNum cu ce r := by
  induction items generalizing st with
  | nil => exact Or.inl h
  | cons x rest ih =>
    rcases ih (glpReduceStep strToNum st x) h with h1 | ⟨r, hr, cu, ce, hit⟩
    · rcases replaceOrPush_mem _ _ _ h1 with h2 | h2
      · exact Or.inl h2
      · exact Or.inr ⟨x, List.mem_cons_self _ _, _, _, h2⟩
    · exact Or.inr ⟨r, List.mem_cons_of_mem _ hr, cu, ce, hit⟩

theorem sortGlpStats_perm (chainName : String) (glpStats : List GlpStat) :
    List.Perm (sortGlpStats chainName glpStats) glpStats := by
  simp only [sortGlpStats]
  split_ifs
  · exact List.perm_insertionSort _ _
  · exact List.perm_insertionSort _ _

/-- Every item of the reduced array is the `newItem` of an input record. -/
theorem glpItems_mem (strToNum : String → JsNum) (chainName : String)
    (glpStats : List GlpStat) (it : GlpItem)
    (h : it ∈ glpItems strToNum chainName glpStats) :
    ∃ r ∈ glpStats, ∃ cu ce, it = glpNewItem strToNum cu ce r := by
  rcases glpReduce_mem strToNum _ _ it h with h1 | ⟨r, hr, cu, ce, hit⟩
  · simp at h1
  · refine ⟨r, ?_, cu, ce, hit⟩
    simp only [dailyGlpStats, List.mem_filter] at hr
    exact (sortGlpStats_perm chainName glpStats).mem_iff.mp hr.1

theorem glpChangeLoop_length (p q : Option JsNum) (items : List GlpItem) :
    (glpChangeLoop p q items).length = items.length := by
  induction items generalizing p q with
  | nil => rfl
  | cons a rest ih => simp [glpChangeLoop, ih]

/-- Every record of the `map` is the record of an item with the two changes. -/
theorem glpChangeLoop_mem (p q : Option JsNum) (items : List GlpItem) (r : Record)
    (h : r ∈ glpChangeLoop p q items) :
    ∃ it ∈ items, ∃ c1 c2, r = glpRecord it c1 c2 := by
  induction items generalizing p q with
  | nil => simp [glpChangeLoop] at h
  | cons a rest ih =>
    simp only [glpChangeLoop, List.mem_cons] at h
    rcases h with h | h
    · exact ⟨a, List.mem_cons_self _ _, _, _, h⟩
    · obtain ⟨it, hit, c1, c2, hr⟩ := ih _ _ h
      exact ⟨it, List.mem_cons_of_mem _ hit, c1, c2, hr⟩

/-- The record at index `i + 1` of the `map`: when the supply (resp. AUM) of
item `i` is truthy it is the value of `prevGlpSupply` (resp. `prevAum`) there. -/
theorem glpChangeLoop_succ (p q : Option JsNum) (items : List GlpItem) (i : Nat)
    (it0 it1 : GlpItem) (h0 : items[i]? = some it0) (h1 : items[i + 1]? = some it1) :
    ∃ c0 d0 c1 d1, (glpChangeLoop p q items)[i]? = some (glpRecord it0 c0 d0) ∧
      (glpChangeLoop p q items)[i + 1]? = some (glpRecord it1 c1 d1) ∧
      (it0.glpSupply.truthy = true →
        c1 = percentChange (orPrev it1.glpSupply (some it0.glpSupply)) (some it0.glpSupply)) ∧
      (it0.aum.truthy = true →
        d1 = percentChange (orPrev it1.aum (some it0.aum)) (some it0.aum)) := by
  induction items generalizing p q i with
  | nil => simp at h0
  | cons a rest ih =>
    cases i with
    | zero =>
      cases rest with
      | nil => simp at h1
      | cons b rest' =>
        simp at h0 h1
        subst h0 h1
        refine ⟨percentChange (orPrev a.glpSupply p) p, percentChange (orPrev a.aum q) q,
          percentChange (orPrev b.glpSupply (orPrev a.glpSupply p)) (orPrev a.glpSupply p),
          percentChange (orPrev b.aum (orPrev a.aum q)) (orPrev a.aum q),
          by simp [glpChangeLoop], by simp [glpChangeLoop], ?_, ?_⟩
        · intro ht
          simp [orPrev, ht]
        · intro ht
          simp [orPrev, ht]
    | succ i =>
      obtain ⟨c0, d0, c1, d1, e0, e1, hc, hd⟩ :=
        ih (orPrev a.glpSupply p) (orPrev a.aum q) i (by simpa using h0) (by simpa using h1)
      exact ⟨c0, d0, c1, d1, by simpa [glpChangeLoop] using e0, by simpa [glpChangeLoop] using e1,
        hc, hd⟩

theorem glpRecord_keys (it : GlpItem) (c d : JsNum) :
    objectKeys (glpRecord it c d) =
      ["timestamp", "aum", "glpSupply", "glpPrice", "cumulativeDistributedEthPerGlp",
        "cumulativeDistributedUsdPerGlp", "distributedUsdPerGlp", "distributedEthPerGlp",
        "glpSupplyChange", "aumChange"] := rfl

theorem glpRecord_glpPrice (it : GlpItem) (c d : JsNum) :
    getField (glpRecord it c d) "glpPrice" = .num it.glpPrice := by
  simp [glpRecord, getField, lookupField]

theorem glpRecord_glpSupply (it : GlpItem) (c d : JsNum) :
    getField (glpRecord it c d) "glpSupply" = .num it.glpSupply := by
  simp [glpRecord, getField, lookupField]

theorem glpRecord_aum (it : GlpItem) (c d : JsNum) :
    getField (glpRecord it c d) "aum" = .num it.aum := by
  simp [glpRecord, getField, lookupField]

theorem glpRecord_distributedUsdPerGlp (it : GlpItem) (c d : JsNum) :
    getField (glpRecord it c d) "distributedUsdPerGlp" = .num it.distributedUsdPerGlp := by
  simp [glpRecord, getField, lookupField]

theorem glpRecord_distributedEthPerGlp (it : GlpItem) (c d : JsNum) :
    getField (glpRecord it c d) "distributedEthPerGlp" = .num it.distributedEthPerGlp := by
  simp [glpRecord, getField, lookupField]

theorem glpRecord_glpSupplyChange (it : GlpItem) (c d : JsNum) :
    getField (glpRecord it c d) "glpSupplyChange" = .num c := by
  simp [glpRecord, getField, lookupField]

theorem glpRecord_aumChange (it : GlpItem) (c d : JsNum) :
    getField (glpRecord it c d) "aumChange" = .num d := by
  simp [glpRecord, getField, lookupField]

theorem percentChange_fin (s0 s1 : ℚ) (h0 : s0 ≠ 0) (h1 : s1 ≠ 0) :
    percentChange (orPrev (.fin s1) (some (.fin s0))) (some (.fin s0)) =
      .fin (cappedChange s1 s0) := by
  simp only [percentChange, orPrev, optTruthy, numOfOpt, JsNum.truthy, cappedChange, h0, h1,
    ne_eq, not_false_eq_true, decide_True, if_true, Option.getD_some, JsNum.sub, JsNum.neg,
    JsNum.add_fin, JsNum.div_fin _ _ h0, JsNum.mul_fin, JsNum.gt, decide_eq_true_eq]
  have e : (s1 + -s0) / s0 * 100 = (s1 - s0) / s0 * 100 := by ring
  rw [e]
  split_ifs <;> rfl

theorem glpChangeLoop_head_keys (p q : Option JsNum) (items : List GlpItem) (first : Record)
    (h : (glpChangeLoop p q items).head? = some first) :
    objectKeys first =
      ["timestamp", "aum", "glpSupply", "glpPrice", "cumulativeDistributedEthPerGlp",
        "cumulativeDistributedUsdPerGlp", "distributedUsdPerGlp", "distributedEthPerGlp",
        "glpSupplyChange", "aumChange"] := by
  cases items with
  | nil => simp [glpChangeLoop] at h
  | cons a rest =>
    simp only [glpChangeLoop, List.head?_cons, Option.some.injEq] at h
    subst h
    rfl

theorem head?_of_getElem? {α : Type} (l : List α) (i : Nat) (x : α) (h : l[i]? = some x) :
    ∃ first, l.head? = some first := by
  cases l with
  | nil => simp at h
  | cons a rest => exact ⟨a, rfl⟩

/-- C25 (amended): for consecutive daily items `i` and `i + 1` of `useGlpData`
with finite non-zero supply `s0`, `s1`, the output point `i + 1` has
`glpSupplyChange` equal to `(s1 - s0) / s0 * 100`, replaced by 0 when above 1000,
whenever that value is non-zero; when it is 0 the point carries the
`glpSupplyChange` of output point `i` if that is non-zero, and 0 otherwise.  The
same holds for `aumChange` with `aum`. -/
theorem useGlpData_change (strToNum : String → JsNum) (chainName : String)
    (glpStats : List GlpStat) (i : Nat)
    (it0 it1 : GlpItem) (h0 : (glpItems strToNum chainName glpStats)[i]? = some it0)
    (h1 : (glpItems strToNum chainName glpStats)[i + 1]? = some it1) :
    ∃ out o0 o1, useGlpData strToNum chainName (some glpStats) = some out ∧
      out[i]? = some o0 ∧ out[i + 1]? = some o1 ∧
      (∀ s0 s1 : ℚ, it0.glpSupply = .fin s0 → it1.glpSupply = .fin s1 → s0 ≠ 0 → s1 ≠ 0 →
        getField o1 "glpSupplyChange" =
          if cappedChange s1 s0 ≠ 0 then .num (.fin (cappedChange s1 s0))
          else if (getField o0 "glpSupplyChange").truthy = true then
            getField o0 "glpSupplyChange"
          else .num (.fin 0)) ∧
      (∀ a0 a1 : ℚ, it0.aum = .fin a0 → it1.aum = .fin a1 → a0 ≠ 0 → a1 ≠ 0 →
        getField o1 "aumChange" =
          if cappedChange a1 a0 ≠ 0 then .num (.fin (cappedChange a1 a0))
          else if (getField o0 "aumChange").truthy = true then getField o0 "aumChange"
          else .num (.fin 0)) := by
  obtain ⟨c0, d0, c1, d1, e0, e1, hc, hd⟩ :=
    glpChangeLoop_succ none none (glpItems strToNum chainName glpStats) i it0 it1 h0 h1
  obtain ⟨first, hfirst⟩ := head?_of_getElem? _ i _ e0
  have hkeys := glpChangeLoop_head_keys _ _ _ first hfirst
  obtain ⟨o0, o1, ho0, ho1, hv⟩ := fillNa_step _ first "glpSupplyChange" hfirst
    (by rw [hkeys]; decide) i _ _ e0 e1
  obtain ⟨o0', o1', ho0', ho1', hv'⟩ := fillNa_step _ first "aumChange" hfirst
    (by rw [hkeys]; decide) i _ _ e0 e1
  rw [ho0] at ho0'
  rw [ho1] at ho1'
  cases ho0'
  cases ho1'
  refine ⟨_, o0, o1, rfl, ho0, ho1, ?_, ?_⟩
  · intro s0 s1 hs0 hs1 hne0 hne1
    have hc1 : c1 = .fin (cappedChange s1 s0) := by
      rw [hc (by simp [hs0, JsNum.truthy, hne0]), hs0, hs1, percentChange_fin s0 s1 hne0 hne1]
    rw [hv, glpRecord_glpSupplyChange, hc1]
    by_cases hz : cappedChange s1 s0 = 0
    · simp [hz, JsVal.truthy, JsNum.truthy]
    · simp [hz, JsVal.truthy, JsNum.truthy]
  · intro a0 a1 ha0 ha1 hne0 hne1
    have hd1 : d1 = .fin (cappedChange a1 a0) := by
      rw [hd (by simp [ha0, JsNum.truthy, hne0]), ha0, ha1, percentChange_fin a0 a1 hne0 hne1]
    rw [hv', glpRecord_aumChange, hd1]
    by_cases hz : cappedChange a1 a0 = 0
    · simp [hz, JsVal.truthy, JsNum.truthy]
    · simp [hz, JsVal.truthy, JsNum.truthy]

theorem glpItems_steadySupply :
    glpItems noStrings "avalanche" steadySupply =
      [plainItem 86400 100 100 1, plainItem 172800 110 110 1, plainItem 259200 220 110 2] := by
  simp [steadySupply, glpStat, glpItems, dailyGlpStats, sortGlpStats, glpReduceStep, replaceOrPush,
    glpNewItem, glpAum, glpSupplyOf, distributedUsdPerGlp, distributedEthPerGlp, numOrZero,
    toNumber, JsVal.ofRat, E18, E30, JsNum.div, JsNum.truthy, List.insertionSort,
    List.orderedInsert, plainItem]
  norm_num

theorem glpChangeLoop_steadySupply :
    glpChangeLoop none none (glpItems noStrings "avalanche" steadySupply) =
      [ glpRecord (plainItem 86400 100 100 1) (.fin 0) (.fin 0),
        glpRecord (plainItem 172800 110 110 1) (.fin 10) (.fin 10),
        glpRecord (plainItem 259200 220 110 2) (.fin 0) (.fin 100) ] := by
  rw [glpItems_steadySupply]
  simp [glpChangeLoop, percentChange, orPrev, numOfOpt, optTruthy, JsNum.div, JsNum.sub,
    JsNum.neg, JsNum.mul, JsNum.gt, JsNum.add, JsNum.truthy, plainItem]
  norm_num

/-- C25 (counterexample): on Avalanche, with supply 100, 110, 110 on three days
the output `glpSupplyChange` is 0, 10, 10: the third point, whose supply did not
change (`(110 - 110) / 110 * 100 = 0`), carries the 10 of the second point. -/
theorem useGlpData_change_carried :
    (useGlpData noStrings "avalanche" (some steadySupply)).map
        (fun out => out.map (fun r => (getField r "glpSupply", getField r "glpSupplyChange"))) =
      some [(.ofRat 100, .ofRat 0), (.ofRat 110, .ofRat 10), (.ofRat 110, .ofRat 10)] ∧
    cappedChange 110 110 = 0 := by
  refine ⟨?_, by norm_num [cappedChange]⟩
  simp only [useGlpData, glpChangeLoop_steadySupply, Option.map_some']
  decide

/-- C25 (witness of the amended statement): on Avalanche, with supply 100, 110,
110 and AUM 100, 110, 220 the third output point has the `glpSupplyChange` of
the second, the capped change being 0, and `aumChange = 100`. -/
theorem useGlpData_change_witness :
    cappedChange 110 110 = 0 ∧ cappedChange 220 110 = 100 ∧
    ∃ out o0 o1, useGlpData noStrings "avalanche" (some steadySupply) = some out ∧
      out[1]? = some o0 ∧ out[2]? = some o1 ∧
      (getField o1 "glpSupplyChange" =
        if cappedChange 110 110 ≠ 0 then .num (.fin (cappedChange 110 110))
        else if (getField o0 "glpSupplyChange").truthy = true then
          getField o0 "glpSupplyChange"
        else .num (.fin 0)) ∧
      (getField o1 "aumChange" =
        if cappedChange 220 110 ≠ 0 then .num (.fin (cappedChange 220 110))
        else if (getField o0 "aumChange").truthy = true then getField o0 "aumChange"
        else .num (.fin 0)) := by
  obtain ⟨out, o0, o1, hout, h0, h1, hs, ha⟩ := useGlpData_change noStrings "avalanche" steadySupply 1
    (plainItem 172800 110 110 1) (plainItem 259200 220 110 2)
    (by rw [glpItems_steadySupply]; rfl) (by rw [glpItems_steadySupply]; rfl)
  exact ⟨by norm_num [cappedChange], by norm_num [cappedChange], out, o0, o1, hout, h0, h1,
    hs 110 110 rfl rfl (by norm_num) (by norm_num),
    ha 110 220 rfl rfl (by norm_num) (by norm_num)⟩

theorem numOrZero_fin (q : ℚ) : ∃ q', numOrZero (.fin q) = .fin q' := by
  by_cases h : q = 0
  · exact ⟨0, by simp [numOrZero, JsNum.truthy, h]⟩
  · exact ⟨q, by simp [numOrZero, JsNum.truthy, h]⟩

/-- The values of `newItem` for a record with finite fields, where zero supply
goes with zero AUM and zero distributed amounts. -/
theorem glpNewItem_values (strToNum : String → JsNum) (cu ce : JsNum) (r : GlpStat)
    (a s u e : ℚ) (ha : toNumber strToNum r.aumInUsdg = .fin a)
    (hs : toNumber strToNum r.glpSupply = .fin s)
    (hu : toNumber strToNum r.distributedUsd = .fin u)
    (he : toNumber strToNum r.distributedEth = .fin e)
    (hz : s = 0 → a = 0 ∧ u = 0 ∧ e = 0) :
    (∃ q : ℚ, (glpNewItem strToNum cu ce r).distributedUsdPerGlp = .fin q) ∧
    (∃ q : ℚ, (glpNewItem strToNum cu ce r).distributedEthPerGlp = .fin q) ∧
    ((glpNewItem strToNum cu ce r).glpPrice = .nan ∨
      ∃ q : ℚ, (glpNewItem strToNum cu ce r).glpPrice = .fin q) ∧
    ((glpNewItem strToNum cu ce r).glpSupply = .fin 0 →
      (glpNewItem strToNum cu ce r).glpPrice = .nan ∧
      (glpNewItem strToNum cu ce r).distributedUsdPerGlp = .fin 0 ∧
      (glpNewItem strToNum cu ce r).distributedEthPerGlp = .fin 0) := by
  have h18 : (1000000000000000000 : ℚ) ≠ 0 := by norm_num
  have h30 : (1000000000000000000000000000000 : ℚ) ≠ 0 := by norm_num
  have hsup : glpSupplyOf strToNum r = .fin (s / 1000000000000000000) := by
    simp [glpSupplyOf, hs, E18, JsNum.div]
  have haum : glpAum strToNum r = .fin (a / 1000000000000000000) := by
    simp [glpAum, ha, E18, JsNum.div]
  by_cases hs0 : s = 0
  · obtain ⟨ha0, hu0, he0⟩ := hz hs0
    subst hs0 ha0 hu0 he0
    simp [glpNewItem, distributedUsdPerGlp, distributedEthPerGlp, hsup, haum, hu, he, E18, E30,
      JsNum.div, numOrZero, JsNum.truthy]
  · have hq : s / 1000000000000000000 ≠ 0 := div_ne_zero hs0 h18
    refine ⟨?_, ?_, ?_, ?_⟩
    · simp only [glpNewItem, distributedUsdPerGlp, hsup, hu, E30, JsNum.div_fin _ _ h30,
        JsNum.div_fin _ _ hq]
      exact numOrZero_fin _
    · simp only [glpNewItem, distributedEthPerGlp, hsup, he, E18, JsNum.div_fin _ _ h18,
        JsNum.div_fin _ _ hq]
      exact numOrZero_fin _
    · right
      refine ⟨a / 1000000000000000000 / (s / 1000000000000000000), ?_⟩
      simp only [glpNewItem, hsup, haum, JsNum.div_fin _ _ hq]
    · intro h
      simp only [glpNewItem, hsup, JsNum.fin.injEq] at h
      exact absurd h hq

/-- The same facts for every item of the reduced array. -/
theorem glpItems_values (strToNum : String → JsNum) (chainName : String)
    (glpStats : List GlpStat)
    (hfin : ∀ r ∈ glpStats, ∃ a s u e : ℚ, toNumber strToNum r.aumInUsdg = .fin a ∧
      toNumber strToNum r.glpSupply = .fin s ∧ toNumber strToNum r.distributedUsd = .fin u ∧
      toNumber strToNum r.distributedEth = .fin e ∧ (s = 0 → a = 0 ∧ u = 0 ∧ e = 0))
    (it : GlpItem) (hit : it ∈ glpItems strToNum chainName glpStats) :
    (∃ q : ℚ, it.distributedUsdPerGlp = .fin q) ∧ (∃ q : ℚ, it.distributedEthPerGlp = .fin q) ∧
    (it.glpPrice = .nan ∨ ∃ q : ℚ, it.glpPrice = .fin q) ∧
    (it.glpSupply = .fin 0 →
      it.glpPrice = .nan ∧ it.distributedUsdPerGlp = .fin 0 ∧ it.distributedEthPerGlp = .fin 0) := by
  obtain ⟨r, hr, cu, ce, rfl⟩ := glpItems_mem strToNum chainName glpStats it hit
  obtain ⟨a, s, u, e, ha, hs, hu, he, hz⟩ := hfin r hr
  exact glpNewItem_values strToNum cu ce r a s u e ha hs hu he hz

theorem glpItems_emptyFirstDay :
    glpItems noStrings "avalanche" emptyFirstDay =
      [ ⟨86400, .fin 0, .fin 0, .nan, .fin 0, .fin 0, .fin 0, .fin 0⟩,
        ⟨172800, .fin 200, .fin 100, .fin 2, .fin 0, .fin 1, .fin 1, .fin 0⟩ ] := by
  simp [emptyFirstDay, glpStat, glpItems, dailyGlpStats, sortGlpStats, glpReduceStep, replaceOrPush,
    glpNewItem, glpAum, glpSupplyOf, distributedUsdPerGlp, distributedEthPerGlp, numOrZero,
    toNumber, JsVal.ofRat, E18, E30, JsNum.div, JsNum.truthy, List.insertionSort,
    List.orderedInsert]
  norm_num

theorem glpItems_zeroSupplyDay :
    glpItems noStrings "avalanche" zeroSupplyDay =
      [ ⟨86400, .fin 1, .fin 0, .posInf, .fin 0, .posInf, .posInf, .fin 0⟩ ] := by
  simp [zeroSupplyDay, glpStat, glpItems, dailyGlpStats, sortGlpStats, glpReduceStep, replaceOrPush,
    glpNewItem, glpAum, glpSupplyOf, distributedUsdPerGlp, distributedEthPerGlp, numOrZero,
    toNumber, JsVal.ofRat, E18, E30, JsNum.div, JsNum.truthy, JsNum.signedInf, JsNum.add,
    List.insertionSort, List.orderedInsert]

theorem glpItems_supplyThenNone :
    glpItems noStrings "avalanche" supplyThenNone =
      [ ⟨86400, .fin 200, .fin 100, .fin 2, .fin 0, .fin 1, .fin 1, .fin 0⟩,
        ⟨172800, .fin 0, .fin 0, .nan, .fin 0, .fin 1, .fin 0, .fin 0⟩ ] := by
  simp [supplyThenNone, glpStat, glpItems, dailyGlpStats, sortGlpStats, glpReduceStep, replaceOrPush,
    glpNewItem, glpAum, glpSupplyOf, distributedUsdPerGlp, distributedEthPerGlp, numOrZero,
    toNumber, JsVal.ofRat, E18, E30, JsNum.div, JsNum.truthy, List.insertionSort,
    List.orderedInsert]
  norm_num

/-- C21 (counterexample): on Avalanche, a first record with zero supply, zero
AUM and nothing distributed gives an output point with `glpPrice = NaN` (and
per-share distributions 0, not null); a record with zero supply, AUM 1 and 1 USD
distributed gives `glpPrice = Infinity` and `distributedUsdPerGlp = Infinity`. -/
theorem useGlpData_zero_supply :
    (useGlpData noStrings "avalanche" (some emptyFirstDay)).map
        (fun out => out.map (fun r => (getField r "glpPrice", getField r "distributedUsdPerGlp",
          getField r "distributedEthPerGlp"))) =
      some [(.num .nan, .ofRat 0, .ofRat 0), (.ofRat 2, .ofRat 1, .ofRat 0)] ∧
    (useGlpData noStrings "avalanche" (some zeroSupplyDay)).map
        (fun out => out.map (fun r => (getField r "glpPrice", getField r "distributedUsdPerGlp",
          getField r "distributedEthPerGlp"))) =
      some [(.num .posInf, .num .posInf, .ofRat 0)] := by
  refine ⟨?_, ?_⟩
  · simp only [useGlpData, glpItems_emptyFirstDay, Option.map_some']
    decide
  · simp only [useGlpData, glpItems_zeroSupplyDay, Option.map_some']
    decide

theorem getElem?_of_fillNa (arr : List Record) (i : Nat) (o : Record)
    (ho : (fillNa arr)[i]? = some o) : ∃ el, arr[i]? = some el := by
  have hlen : i < arr.length := by
    have := (List.getElem?_eq_some_iff.mp ho).1
    simpa [fillNa_length] using this
  exact ⟨arr[i], List.getElem?_eq_getElem hlen⟩

/-- C21 (amended): on every chain `useGlpData` returns a series for every list of
records.  When the fields are finite numbers and every zero-supply record has
zero AUM and zero distributed amounts, every output point has finite
`distributedUsdPerGlp` and `distributedEthPerGlp`, its `glpPrice` is finite or
`NaN`, and it is finite and non-zero once a point at or before it has a non-zero
`glpPrice`.  A zero-supply point after the first carries, for each of the three
fields, the value of the previous output point when that is non-zero, and
otherwise `NaN` for `glpPrice` and 0 for the per-share distributions. -/
theorem useGlpData_zero_supply_carry (strToNum : String → JsNum) (chainName : String)
    (glpStats : List GlpStat)
    (hfin : ∀ r ∈ glpStats, ∃ a s u e : ℚ, toNumber strToNum r.aumInUsdg = .fin a ∧
      toNumber strToNum r.glpSupply = .fin s ∧ toNumber strToNum r.distributedUsd = .fin u ∧
      toNumber strToNum r.distributedEth = .fin e ∧ (s = 0 → a = 0 ∧ u = 0 ∧ e = 0)) :
    ∃ out, useGlpData strToNum chainName (some glpStats) = some out ∧
      (∀ (i : Nat) (pt : Record), out[i]? = some pt →
        (∃ q : ℚ, getField pt "distributedUsdPerGlp" = .num (.fin q)) ∧
        (∃ q : ℚ, getField pt "distributedEthPerGlp" = .num (.fin q)) ∧
        (getField pt "glpPrice" = .num .nan ∨ ∃ q : ℚ, getField pt "glpPrice" = .num (.fin q)) ∧
        (∀ (j : Nat) (pj : Record), j ≤ i → out[j]? = some pj →
          (getField pj "glpPrice").truthy = true →
          ∃ q : ℚ, q ≠ 0 ∧ getField pt "glpPrice" = .num (.fin q))) ∧
      (∀ (i : Nat) (it0 it1 : GlpItem), (glpItems strToNum chainName glpStats)[i]? = some it0 →
        (glpItems strToNum chainName glpStats)[i + 1]? = some it1 → it1.glpSupply = .fin 0 →
        ∃ o0 o1, out[i]? = some o0 ∧ out[i + 1]? = some o1 ∧
          (getField o1 "glpPrice" =
            if (getField o0 "glpPrice").truthy = true then getField o0 "glpPrice"
            else .num .nan) ∧
          (getField o1 "distributedUsdPerGlp" =
            if (getField o0 "distributedUsdPerGlp").truthy = true then
              getField o0 "distributedUsdPerGlp"
            else .num (.fin 0)) ∧
          (getField o1 "distributedEthPerGlp" =
            if (getField o0 "distributedEthPerGlp").truthy = true then
              getField o0 "distributedEthPerGlp"
            else .num (.fin 0))) := by
  have hvals := glpItems_values strToNum chainName glpStats hfin
  have hraw : ∀ e ∈ glpChangeLoop none none (glpItems strToNum chainName glpStats),
      ∃ it ∈ glpItems strToNum chainName glpStats, ∃ c d, e = glpRecord it c d :=
    fun e he => glpChangeLoop_mem none none _ e he
  refine ⟨_, rfl, ?_, ?_⟩
  · intro i pt hpt
    have h1 : ∃ q : ℚ, getField pt "distributedUsdPerGlp" = .num (.fin q) := by
      refine fillNa_forall _ "distributedUsdPerGlp" (fun v => ∃ q : ℚ, v = .num (.fin q)) ?_ i pt hpt
      intro e he
      obtain ⟨it, hit, c, d, rfl⟩ := hraw e he
      obtain ⟨q, hq⟩ := (hvals it hit).1
      exact ⟨q, by rw [glpRecord_distributedUsdPerGlp, hq]⟩
    have h2 : ∃ q : ℚ, getField pt "distributedEthPerGlp" = .num (.fin q) := by
      refine fillNa_forall _ "distributedEthPerGlp" (fun v => ∃ q : ℚ, v = .num (.fin q)) ?_ i pt hpt
      intro e he
      obtain ⟨it, hit, c, d, rfl⟩ := hraw e he
      obtain ⟨q, hq⟩ := (hvals it hit).2.1
      exact ⟨q, by rw [glpRecord_distributedEthPerGlp, hq]⟩
    have h3 : ∀ (i' : Nat) (pt' : Record),
        (fillNa (glpChangeLoop none none (glpItems strToNum chainName glpStats)))[i']? = some pt' →
        (getField pt' "glpPrice" = .num .nan ∨
          ∃ q : ℚ, getField pt' "glpPrice" = .num (.fin q)) := by
      intro i' pt' hpt'
      refine fillNa_forall _ "glpPrice"
        (fun v => v = .num .nan ∨ ∃ q : ℚ, v = .num (.fin q)) ?_ i' pt' hpt'
      intro e he
      obtain ⟨it, hit, c, d, rfl⟩ := hraw e he
      rw [glpRecord_glpPrice]
      rcases (hvals it hit).2.2.1 with h | ⟨q, hq⟩
      · exact Or.inl (by rw [h])
      · exact Or.inr ⟨q, by rw [hq]⟩
    refine ⟨h1, h2, h3 i pt hpt, ?_⟩
    intro j pj hji hpj ht
    obtain ⟨el, hel⟩ := getElem?_of_fillNa _ i pt hpt
    obtain ⟨first, hfirst⟩ := head?_of_getElem? _ i el hel
    have hkeys := glpChangeLoop_head_keys _ _ _ first hfirst
    have htruthy := fillNa_truthy_mono _ first "glpPrice" hfirst (by rw [hkeys]; decide) j i pj pt
      hji hpj hpt ht
    rcases h3 i pt hpt with h | ⟨q, hq⟩
    · rw [h] at htruthy
      simp [JsVal.truthy, JsNum.truthy] at htruthy
    · refine ⟨q, ?_, hq⟩
      rw [hq] at htruthy
      simpa [JsVal.truthy, JsNum.truthy] using htruthy
  · intro i it0 it1 h0 h1 hzero
    obtain ⟨c0, d0, c1, d1, e0, e1, _, _⟩ :=
      glpChangeLoop_succ none none (glpItems strToNum chainName glpStats) i it0 it1 h0 h1
    obtain ⟨first, hfirst⟩ := head?_of_getElem? _ i _ e0
    have hkeys := glpChangeLoop_head_keys _ _ _ first hfirst
    obtain ⟨hp, hu, he⟩ := (hvals it1 (List.mem_iff_getElem?.mpr ⟨i + 1, h1⟩)).2.2.2 hzero
    obtain ⟨o0, o1, ho0, ho1, hv1⟩ := fillNa_step _ first "glpPrice" hfirst
      (by rw [hkeys]; decide) i _ _ e0 e1
    obtain ⟨o0', o1', ho0', ho1', hv2⟩ := fillNa_step _ first "distributedUsdPerGlp" hfirst
      (by rw [hkeys]; decide) i _ _ e0 e1
    obtain ⟨o0'', o1'', ho0'', ho1'', hv3⟩ := fillNa_step _ first "distributedEthPerGlp" hfirst
      (by rw [hkeys]; decide) i _ _ e0 e1
    rw [ho0] at ho0' ho0''
    rw [ho1] at ho1' ho1''
    cases ho0'
    cases ho1'
    cases ho0''
    cases ho1''
    refine ⟨o0, o1, ho0, ho1, ?_, ?_, ?_⟩
    · rw [hv1, glpRecord_glpPrice, hp]
      simp [JsVal.truthy, JsNum.truthy]
    · rw [hv2, glpRecord_distributedUsdPerGlp, hu]
      simp [JsVal.truthy, JsNum.truthy]
    · rw [hv3, glpRecord_distributedEthPerGlp, he]
      simp [JsVal.truthy, JsNum.truthy]

theorem glpChangeLoop_supplyThenNone :
    glpChangeLoop none none (glpItems noStrings "avalanche" supplyThenNone) =
      [ glpRecord ⟨86400, .fin 200, .fin 100, .fin 2, .fin 0, .fin 1, .fin 1, .fin 0⟩
          (.fin 0) (.fin 0),
        glpRecord ⟨172800, .fin 0, .fin 0, .nan, .fin 0, .fin 1, .fin 0, .fin 0⟩
          (.fin 0) (.fin 0) ] := by
  rw [glpItems_supplyThenNone]
  simp [glpChangeLoop, percentChange, orPrev, numOfOpt, optTruthy, JsNum.div, JsNum.sub,
    JsNum.neg, JsNum.mul, JsNum.gt, JsNum.add, JsNum.truthy]

/-- C21 (witness of the amended statement): on Avalanche, after a day with
supply 100, AUM 200 and 100 USD distributed, a day without supply carries
`glpPrice = 2` and `distributedUsdPerGlp = 1` of the day before. -/
theorem useGlpData_zero_supply_carry_witness :
    (useGlpData noStrings "avalanche" (some supplyThenNone)).map
        (fun out => out.map (fun r => (getField r "glpPrice", getField r "distributedUsdPerGlp",
          getField r "distributedEthPerGlp"))) =
      some [(.ofRat 2, .ofRat 1, .ofRat 0), (.ofRat 2, .ofRat 1, .ofRat 0)] ∧
    ∃ out, useGlpData noStrings "avalanche" (some supplyThenNone) = some out ∧
      ∃ o0 o1, out[0]? = some o0 ∧ out[1]? = some o1 ∧
        (getField o1 "glpPrice" =
          if (getField o0 "glpPrice").truthy = true then getField o0 "glpPrice"
          else .num .nan) := by
  refine ⟨?_, ?_⟩
  · simp only [useGlpData, glpChangeLoop_supplyThenNone, Option.map_some']
    decide
  · obtain ⟨out, hout, _, hcarry⟩ := useGlpData_zero_supply_carry noStrings "avalanche" supplyThenNone
      (by
        intro r hr
        simp only [supplyThenNone, List.mem_cons, List.mem_singleton, List.not_mem_nil,
          or_false] at hr
        rcases hr with rfl | rfl
        · exact ⟨200 * 1000000000000000000, 100 * 1000000000000000000,
            100 * 1000000000000000000000000000000, 0 * 1000000000000000000, rfl, rfl, rfl, rfl,
            by norm_num⟩
        · exact ⟨0 * 1000000000000000000, 0 * 1000000000000000000,
            0 * 1000000000000000000000000000000, 0 * 1000000000000000000, rfl, rfl, rfl, rfl,
            by norm_num⟩)
    obtain ⟨o0, o1, h0, h1, hp, _, _⟩ := hcarry 0
      ⟨86400, .fin 200, .fin 100, .fin 2, .fin 0, .fin 1, .fin 1, .fin 0⟩
      ⟨172800, .fin 0, .fin 0, .nan, .fin 0, .fin 1, .fin 0, .fin 0⟩
      (by rw [glpItems_supplyThenNone]; rfl) (by rw [glpItems_supplyThenNone]; rfl) rfl
    exact ⟨out, hout, o0, o1, h0, h1, hp⟩

end WaifuStats
